import Mathlib

set_option maxHeartbeats 1000000
set_option maxRecDepth 10000

/-!
Verification development for the reactive core of the angular-es6
repository: the scope/digest engine (src/scope.js), the expression
compiler with its sandbox (src/parse.js, fullest snapshot), and the
filter registry with the built-in "filter" filter (src/filter.js,
src/filter_filter.js).

The JavaScript sources are shallowly embedded: dynamic JS values become
the inductive type JsVal (numbers are modelled as integers plus an
explicit NaN constructor; every claim below only exercises integral
numbers), fallible code returns Except, and the code generator of
parse.js is embedded as a tree-walking interpreter over a heap that
performs exactly the runtime checks the generated code performs, in the
same order (the spec itself, section 9, blesses this modelling).
-/

/-! ### Dynamic values (tree view, used by the filter component and the
scope machine).  Reference identity of arrays/objects is not observable
in the claims proved against this view. -/

inductive JsVal where
  | undef
  | vnull
  | vbool (b : Bool)
  | vnum (n : Int)
  | vnan
  | vstr (s : String)
  | varr (xs : List JsVal)
  | vobj (fs : List (String × JsVal))
  deriving Repr

mutual

def JsVal.beq : JsVal → JsVal → Bool
  | .undef, .undef => true
  | .vnull, .vnull => true
  | .vbool a, .vbool b => a == b
  | .vnum a, .vnum b => a == b
  | .vnan, .vnan => true
  | .vstr a, .vstr b => a == b
  | .varr a, .varr b => JsVal.beqList a b
  | .vobj a, .vobj b => JsVal.beqFields a b
  | _, _ => false

def JsVal.beqList : List JsVal → List JsVal → Bool
  | [], [] => true
  | a :: as, b :: bs => JsVal.beq a b && JsVal.beqList as bs
  | _, _ => false

def JsVal.beqFields : List (String × JsVal) → List (String × JsVal) → Bool
  | [], [] => true
  | (ka, va) :: as, (kb, vb) :: bs => ka == kb && JsVal.beq va vb && JsVal.beqFields as bs
  | _, _ => false

end

instance jsValBEq : BEq JsVal := ⟨JsVal.beq⟩

/-- JS strict equality (===) on the tree view: like beq but NaN is not
equal to itself. -/
def jsStrictEq (a b : JsVal) : Bool :=
  match a, b with
  | .vnan, _ => false
  | _, .vnan => false
  | _, _ => JsVal.beq a b

/-- JS truthiness. -/
def jsTruthy : JsVal → Bool
  | .undef => false
  | .vnull => false
  | .vbool b => b
  | .vnum n => n != 0
  | .vnan => false
  | .vstr s => !s.data.isEmpty
  | .varr _ => true
  | .vobj _ => true

def joinComma : List String → String
  | [] => ""
  | [x] => x
  | x :: xs => x ++ "," ++ joinComma xs

/-- JS string coercion, as used by ('' + x) in filter_filter.js.  Arrays
and nested objects are coerced the way JS does at the top level. -/
def jsToString : JsVal → String
  | .undef => "undefined"
  | .vnull => "null"
  | .vbool b => if b then "true" else "false"
  | .vnum n => toString n
  | .vnan => "NaN"
  | .vstr s => s
  | .varr xs => joinComma (xs.map fun v =>
      match v with
      | .undef => ""
      | .vnull => ""
      | .vstr s => s
      | .vnum n => toString n
      | .vbool b => if b then "true" else "false"
      | .vnan => "NaN"
      | _ => "[object Object]")
  | .vobj _ => "[object Object]"

def lowerString (s : String) : String :=
  String.mk (s.data.map Char.toLower)

/-- Whether the second list occurs as a contiguous run of the first
(JS indexOf(needle) !== -1; the empty needle always matches). -/
def listHasRun [BEq α] (haystack needle : List α) : Bool :=
  match haystack with
  | [] => needle.isEmpty
  | _ :: t => needle.isPrefixOf haystack || listHasRun t needle

/-! ### filter_filter.js -/

/-- basicComparator from filter_filter.js: an undefined item never
matches; null matches only null; otherwise case-insensitive substring
containment of the expected string in the item string. -/
def basicComparator (item expected : JsVal) : Bool :=
  match item with
  | .undef => false
  | _ =>
    if expected == JsVal.vnull || item == JsVal.vnull then
      jsStrictEq item expected
    else
      listHasRun (lowerString (jsToString item)).data (lowerString (jsToString expected)).data

/-- lodash _.isObject: arrays and plain objects (functions are not in
this value view). -/
def isObjectV : JsVal → Bool
  | .varr _ => true
  | .vobj _ => true
  | _ => false

def getFieldV (v : JsVal) (k : String) : JsVal :=
  match v with
  | .vobj fs => (fs.lookup k).getD JsVal.undef
  | _ => JsVal.undef

/-- Whether a value is a string beginning with the negation marker. -/
def bangString : JsVal → Bool
  | .vstr es => match es.data with
    | c :: _ => c == Char.ofNat 33
    | [] => false
  | _ => false

/-- deepCompare from filter_filter.js, via an explicit fuel parameter
(the source recurses through dynamic values; every concrete claim below
uses a tiny fuel).  Branch order follows the source exactly: the
negation marker on a string expectation, then arrays of the actual
value, then objects, and finally the comparator. -/
def deepCompare (fuel : Nat) (actual expected : JsVal)
    (cmp : JsVal → JsVal → Bool) (matchAnyProperty : Bool) (isWildcard : Bool) : Bool :=
  match fuel with
  | 0 => false
  | fuel + 1 =>
    if bangString expected then
      match expected with
      | .vstr es => !(deepCompare fuel actual (.vstr (String.mk (es.data.drop 1))) cmp matchAnyProperty false)
      | _ => false
    else
      match actual with
      | .varr items =>
        items.any fun actualItem => deepCompare fuel actualItem expected cmp matchAnyProperty false
      | .vobj fs =>
        if isObjectV expected && !isWildcard then
          (match expected with
           | .vobj efs =>
             efs.all fun ekv =>
               if ekv.2 == JsVal.undef then true
               else
                 let isW := ekv.1 == "$"
                 let actualVal := if isW then JsVal.vobj fs else getFieldV (.vobj fs) ekv.1
                 deepCompare fuel actualVal ekv.2 cmp isW isW
           | _ => true)
        else if matchAnyProperty then
          fs.any fun kv => deepCompare fuel kv.2 expected cmp matchAnyProperty false
        else
          cmp (.vobj fs) expected
      | _ => cmp actual expected

/-- The comparator argument of the filter filter: omitted, the literal
true, or a function. -/
inductive CmpArg where
  | omitted
  | ctrue
  | cfn (f : JsVal → JsVal → Bool)

/-- createPredicateFn from filter_filter.js. -/
def createPredicateFn (fuel : Nat) (expression : JsVal) (comparator : CmpArg) : JsVal → Bool :=
  let shouldMatchPrimitives :=
    match expression with
    | .vobj fs => (fs.lookup "$").isSome
    | _ => false
  let cmp : JsVal → JsVal → Bool :=
    match comparator with
    | .ctrue => fun a b => a == b
    | .cfn f => f
    | .omitted => basicComparator
  fun item =>
    if shouldMatchPrimitives && !isObjectV item then
      deepCompare fuel item (getFieldV expression "$") cmp false false
    else
      deepCompare fuel item expression cmp true false

/-- The filter criterion: a predicate function or a dynamic value. -/
inductive FilterExpr where
  | pred (p : JsVal → Bool)
  | val (v : JsVal)

/-- Whether a dynamic value is accepted as a criterion by filterFilter
(string, number, boolean, null or object); anything else makes the
filter return the input unchanged. -/
def acceptedCriterion : JsVal → Bool
  | .vstr _ => true
  | .vnum _ => true
  | .vnan => true
  | .vbool _ => true
  | .vnull => true
  | .varr _ => true
  | .vobj _ => true
  | .undef => false

/-- The function produced by filterFilter() in filter_filter.js. -/
def filterFilter (fuel : Nat) (arr : List JsVal) (filterExpr : FilterExpr)
    (comparator : CmpArg) : List JsVal :=
  match filterExpr with
  | .pred p => arr.filter p
  | .val v =>
    if acceptedCriterion v then
      arr.filter (createPredicateFn fuel v comparator)
    else
      arr


/-! ### parse.js: lexer

The lexer of the fullest parse.js snapshot, translated to structural
recursion over the character list of the input (the source walks the
string with an integer index; peek(k) looks at the k characters after
the current one and yields null near the end of input). -/

def isNumberC (c : Char) : Bool := c >= Char.ofNat 48 && c <= Char.ofNat 57

def isNumberO : Option Char → Bool
  | some c => isNumberC c
  | none => false

def isExpOperatorC (c : Char) : Bool := c == Char.ofNat 45 || c == Char.ofNat 43 || isNumberC c

def isExpOperatorO : Option Char → Bool
  | some c => isExpOperatorC c
  | none => false

def isIdentifierC (c : Char) : Bool :=
  (c >= Char.ofNat 97 && c <= Char.ofNat 122) || (c >= Char.ofNat 65 && c <= Char.ofNat 90) ||
  c == Char.ofNat 95 || c == Char.ofNat 36

def isWhiteSpaceC (c : Char) : Bool :=
  c == Char.ofNat 32 || c == Char.ofNat 13 || c == Char.ofNat 9 ||
  c == Char.ofNat 10 || c == Char.ofNat 11 || c == Char.ofNat 160

/-- One lexed token: raw text, decoded value for numbers and strings
(undefined elsewhere, as in JS), and the identifier flag. -/
structure LexToken where
  text : String
  value : JsVal := JsVal.undef
  identifier : Bool := false
  deriving Repr

def escapeMapC (c : Char) : Option Char :=
  if c == Char.ofNat 110 then some (Char.ofNat 10)
  else if c == Char.ofNat 102 then some (Char.ofNat 12)
  else if c == Char.ofNat 114 then some (Char.ofNat 13)
  else if c == Char.ofNat 116 then some (Char.ofNat 9)
  else if c == Char.ofNat 118 then some (Char.ofNat 11)
  else if c == Char.ofNat 39 then some (Char.ofNat 39)
  else if c == Char.ofNat 34 then some (Char.ofNat 34)
  else none

def hexDigitVal (c : Char) : Option Nat :=
  if isNumberC c then some (c.toNat - 48)
  else if c >= Char.ofNat 97 && c <= Char.ofNat 102 then some (c.toNat - 87)
  else if c >= Char.ofNat 65 && c <= Char.ofNat 70 then some (c.toNat - 55)
  else none

def hexQuad : List Char → Option Nat
  | [a, b, c, d] => do
    let va ← hexDigitVal a
    let vb ← hexDigitVal b
    let vc ← hexDigitVal c
    let vd ← hexDigitVal d
    pure (((va * 16 + vb) * 16 + vc) * 16 + vd)
  | _ => none

/-- _.toNumber on the digits collected by readNumber.  The claims only
use integral literals; a literal with a decimal point or an exponent is
mapped to NaN by this model. -/
def jsParseNumber (cs : List Char) : JsVal :=
  if cs.isEmpty then JsVal.vnan
  else if cs.all isNumberC then
    JsVal.vnum (Int.ofNat (cs.foldl (fun acc c => acc * 10 + (c.toNat - 48)) 0))
  else JsVal.vnan

/-- readNumber: the number accumulator holds the already-lowercased
characters; returns the accumulated text and the rest of the input. -/
def readNumberL : List Char → List Char → Except String (List Char × List Char)
  | [], acc => .ok (acc.reverse, [])
  | c :: rest, acc =>
    let ch := c.toLower
    if ch == Char.ofNat 46 || isNumberC ch then
      readNumberL rest (ch :: acc)
    else
      let nextCh := rest.head?
      let prevCh := acc.head?
      if ch == Char.ofNat 101 && isExpOperatorO nextCh then
        readNumberL rest (ch :: acc)
      else if prevCh == some (Char.ofNat 101) && isExpOperatorC ch && isNumberO nextCh then
        readNumberL rest (ch :: acc)
      else if isExpOperatorC ch && prevCh == some (Char.ofNat 101) && !(isNumberO nextCh) then
        .error "Invalid exponent"
      else
        .ok (acc.reverse, c :: rest)

/-- readString after the opening quote was consumed: accumulates the
decoded payload and the raw text (which, as in the source, records
every looped-over character including backslashes and the closing
quote, but not the four digits of a unicode escape). -/
def readStringL (quote : Char) : List Char → List Char → List Char → Bool →
    Except String (LexToken × List Char)
  | [], _, _, _ => .error "Unmatched Quote"
  | c :: rest, str, raw, escape =>
    let raw := c :: raw
    if escape then
      if c == Char.ofNat 117 then
        match rest with
        | a :: b :: cc :: d :: rest4 =>
          match hexQuad [a, b, cc, d] with
          | some n => readStringL quote rest4 (Char.ofNat n :: str) raw false
          | none => .error "Invalid unicode escape"
        | _ => .error "Invalid unicode escape"
      else
        match escapeMapC c with
        | some r => readStringL quote rest (r :: str) raw false
        | none => readStringL quote rest (c :: str) raw false
    else if c == quote then
      .ok ({ text := String.mk raw.reverse, value := JsVal.vstr (String.mk str.reverse) }, rest)
    else if c == Char.ofNat 92 then
      readStringL quote rest str raw true
    else
      readStringL quote rest (c :: str) raw false

def readIdentifierL : List Char → List Char → (List Char × List Char)
  | [], acc => (acc.reverse, [])
  | c :: rest, acc =>
    if isIdentifierC c || isNumberC c then readIdentifierL rest (c :: acc)
    else (acc.reverse, c :: rest)

def punctChars : List Char := "[],{}:.()?;".data

def operatorTexts : List String :=
  ["+", "!", "-", "*", "/", "%", "=", "==", "!=", "===", "!==", "<", ">", "<=", ">=",
   "&&", "||", "|"]

/-- The greedy operator match: candidate strings of one, two and three
characters starting at the current position (shorter near the end of
input, mirroring peek), searched from the longest. -/
def findOperator (c : Char) (rest : List Char) : Option (List Char) :=
  let cands : List (List Char) :=
    [c] :: (if rest.isEmpty then [] else [c :: rest.take 1]) ++
      (if rest.isEmpty then [] else [c :: rest.take 2])
  let isOp : List Char → Bool := fun cs => operatorTexts.contains (String.mk cs)
  (cands.reverse.find? isOp)

def lexL : Nat → List Char → Except String (List LexToken)
  | 0, _ => .error "lexer fuel exhausted"
  | _ + 1, [] => .ok []
  | fuel + 1, c :: rest =>
    if isNumberC c || (c == Char.ofNat 46 && isNumberO rest.head?) then
      match readNumberL (c :: rest) [] with
      | .error e => .error e
      | .ok (num, rem) =>
        match lexL fuel rem with
        | .error e => .error e
        | .ok toks => .ok ({ text := String.mk num, value := jsParseNumber num } :: toks)
    else if c == Char.ofNat 39 || c == Char.ofNat 34 then
      match readStringL c rest [] [] false with
      | .error e => .error e
      | .ok (tok, rem) =>
        match lexL fuel rem with
        | .error e => .error e
        | .ok toks => .ok (tok :: toks)
    else if punctChars.contains c then
      match lexL fuel rest with
      | .error e => .error e
      | .ok toks => .ok ({ text := String.mk [c] } :: toks)
    else if isIdentifierC c then
      match readIdentifierL (c :: rest) [] with
      | (name, rem) =>
        match lexL fuel rem with
        | .error e => .error e
        | .ok toks => .ok ({ text := String.mk name, identifier := true } :: toks)
    else if isWhiteSpaceC c then
      lexL fuel rest
    else
      match findOperator c rest with
      | some op =>
        match lexL fuel ((c :: rest).drop op.length) with
        | .error e => .error e
        | .ok toks => .ok ({ text := String.mk op } :: toks)
      | none => .error "Unexpected next character"


/-! ### parse.js: AST builder

The AST node type and the recursive-descent builder.  The builder
methods of the source become functions from a token list to a node and
the remaining tokens; all of them share one fuel parameter (the source
terminates because every recursion consumes tokens). -/

inductive PropKey where
  | pident (name : String)
  | plit (v : JsVal)
  deriving Repr

inductive Ast where
  | program (body : List Ast)
  | lit (value : JsVal)
  | arrayExpr (elements : List Ast)
  | objectExpr (properties : List (PropKey × Ast))
  | ident (name : String)
  | thisExpr
  | memberDot (obj : Ast) (name : String)
  | memberBracket (obj : Ast) (prop : Ast)
  | call (callee : Ast) (args : List Ast)
  | filterCall (name : String) (args : List Ast)
  | assign (left right : Ast)
  | unary (op : String) (arg : Ast)
  | binary (op : String) (left right : Ast)
  | logical (op : String) (left right : Ast)
  | cond (test consequent alternate : Ast)
  deriving Repr

abbrev Toks := List LexToken

/-- AST.peek with an explicit expectation list; the empty list is the
wildcard used by expect()/consume() with no argument. -/
def peekT (toks : Toks) (exps : List String) : Option LexToken :=
  match toks with
  | [] => none
  | t :: _ => if exps.isEmpty || exps.contains t.text then some t else none

def expectT (toks : Toks) (exps : List String) : Option LexToken × Toks :=
  match peekT toks exps with
  | some t => (some t, toks.tail)
  | none => (none, toks)

def consumeT (toks : Toks) (exps : List String) : Except String (LexToken × Toks) :=
  match expectT toks exps with
  | (some t, rest) => .ok (t, rest)
  | (none, _) => .error "Unexpected. Expected token"

def languageConstantNames : List String := ["this", "null", "true", "false", "undefined"]

def languageConstantNode (name : String) : Ast :=
  if name == "this" then Ast.thisExpr
  else if name == "null" then Ast.lit JsVal.vnull
  else if name == "true" then Ast.lit (JsVal.vbool true)
  else if name == "false" then Ast.lit (JsVal.vbool false)
  else Ast.lit JsVal.undef

def identifierT (toks : Toks) : Except String (Ast × Toks) :=
  match consumeT toks [] with
  | .error e => .error e
  | .ok (t, rest) =>
    if t.identifier then .ok (Ast.ident t.text, rest) else .error "Tokenize Error: not an identifier"

def constantT (toks : Toks) : Except String (Ast × Toks) :=
  match consumeT toks [] with
  | .error e => .error e
  | .ok (t, rest) => .ok (Ast.lit t.value, rest)

mutual

def programP : Nat → Toks → Except String (Ast × Toks)
  | 0, _ => .error "parser fuel exhausted"
  | fuel + 1, toks =>
    match programBodyP fuel toks [] with
    | .error e => .error e
    | .ok (body, rest) => .ok (Ast.program body.reverse, rest)

def programBodyP : Nat → Toks → List Ast → Except String (List Ast × Toks)
  | 0, _, _ => .error "parser fuel exhausted"
  | fuel + 1, toks, acc =>
    let step : Except String (List Ast × Toks) :=
      if toks.isEmpty then .ok (acc, toks)
      else
        match filterP fuel toks with
        | .error e => .error e
        | .ok (node, rest) => .ok (node :: acc, rest)
    match step with
    | .error e => .error e
    | .ok (acc, rest) =>
      match expectT rest [";"] with
      | (some _, rest) => programBodyP fuel rest acc
      | (none, rest) => .ok (acc, rest)

def filterP : Nat → Toks → Except String (Ast × Toks)
  | 0, _ => .error "parser fuel exhausted"
  | fuel + 1, toks =>
    match assignmentP fuel toks with
    | .error e => .error e
    | .ok (left, rest) => filterLoopP fuel left rest

def filterLoopP : Nat → Ast → Toks → Except String (Ast × Toks)
  | 0, _, _ => .error "parser fuel exhausted"
  | fuel + 1, left, toks =>
    match expectT toks ["|"] with
    | (none, rest) => .ok (left, rest)
    | (some _, rest) =>
      match identifierT rest with
      | .error e => .error e
      | .ok (calleeNode, rest) =>
        match calleeNode with
        | Ast.ident name =>
          match filterArgsP fuel rest [left] with
          | .error e => .error e
          | .ok (args, rest) => filterLoopP fuel (Ast.filterCall name args.reverse) rest
        | _ => .error "Tokenize Error: not an identifier"

def filterArgsP : Nat → Toks → List Ast → Except String (List Ast × Toks)
  | 0, _, _ => .error "parser fuel exhausted"
  | fuel + 1, toks, acc =>
    match expectT toks [":"] with
    | (none, rest) => .ok (acc, rest)
    | (some _, rest) =>
      match assignmentP fuel rest with
      | .error e => .error e
      | .ok (arg, rest) => filterArgsP fuel rest (arg :: acc)

def assignmentP : Nat → Toks → Except String (Ast × Toks)
  | 0, _ => .error "parser fuel exhausted"
  | fuel + 1, toks =>
    match ternaryP fuel toks with
    | .error e => .error e
    | .ok (left, rest) =>
      match expectT rest ["="] with
      | (none, rest) => .ok (left, rest)
      | (some _, rest) =>
        match ternaryP fuel rest with
        | .error e => .error e
        | .ok (right, rest) => .ok (Ast.assign left right, rest)

def ternaryP : Nat → Toks → Except String (Ast × Toks)
  | 0, _ => .error "parser fuel exhausted"
  | fuel + 1, toks =>
    match logicalOrP fuel toks with
    | .error e => .error e
    | .ok (test, rest) =>
      match expectT rest ["?"] with
      | (none, rest) => .ok (test, rest)
      | (some _, rest) =>
        match assignmentP fuel rest with
        | .error e => .error e
        | .ok (consequent, rest) =>
          match consumeT rest [":"] with
          | .error e => .error e
          | .ok (_, rest) =>
            match assignmentP fuel rest with
            | .error e => .error e
            | .ok (alternate, rest) => .ok (Ast.cond test consequent alternate, rest)

def logicalOrP : Nat → Toks → Except String (Ast × Toks)
  | 0, _ => .error "parser fuel exhausted"
  | fuel + 1, toks =>
    match logicalAndP fuel toks with
    | .error e => .error e
    | .ok (left, rest) => binLoopP fuel ["||"] true left rest

def logicalAndP : Nat → Toks → Except String (Ast × Toks)
  | 0, _ => .error "parser fuel exhausted"
  | fuel + 1, toks =>
    match equalityP fuel toks with
    | .error e => .error e
    | .ok (left, rest) => binLoopP fuel ["&&"] true left rest

def equalityP : Nat → Toks → Except String (Ast × Toks)
  | 0, _ => .error "parser fuel exhausted"
  | fuel + 1, toks =>
    match relationalP fuel toks with
    | .error e => .error e
    | .ok (left, rest) => binLoopP fuel ["==", "!=", "===", "!=="] false left rest

def relationalP : Nat → Toks → Except String (Ast × Toks)
  | 0, _ => .error "parser fuel exhausted"
  | fuel + 1, toks =>
    match additiveP fuel toks with
    | .error e => .error e
    | .ok (left, rest) => binLoopP fuel ["<", ">", ">=", "<="] false left rest

def additiveP : Nat → Toks → Except String (Ast × Toks)
  | 0, _ => .error "parser fuel exhausted"
  | fuel + 1, toks =>
    match multiplicativeP fuel toks with
    | .error e => .error e
    | .ok (left, rest) => binLoopP fuel ["+", "-"] false left rest

def multiplicativeP : Nat → Toks → Except String (Ast × Toks)
  | 0, _ => .error "parser fuel exhausted"
  | fuel + 1, toks =>
    match unaryP fuel toks with
    | .error e => .error e
    | .ok (left, rest) => binLoopP fuel ["*", "/", "%"] false left rest

/-- The shared loop of the binary levels: each level keeps consuming
its operators, building left-associated BinaryExpression or (for the
logical levels) LogicalExpression nodes; the operand parser of each
level is dispatched below. -/
def binLoopP : Nat → List String → Bool → Ast → Toks → Except String (Ast × Toks)
  | 0, _, _, _, _ => .error "parser fuel exhausted"
  | fuel + 1, ops, logicalKind, left, toks =>
    match expectT toks ops with
    | (none, rest) => .ok (left, rest)
    | (some t, rest) =>
      let sub : Except String (Ast × Toks) :=
        if ops == ["||"] then logicalAndP fuel rest
        else if ops == ["&&"] then equalityP fuel rest
        else if ops == ["==", "!=", "===", "!=="] then relationalP fuel rest
        else if ops == ["<", ">", ">=", "<="] then additiveP fuel rest
        else if ops == ["+", "-"] then multiplicativeP fuel rest
        else unaryP fuel rest
      match sub with
      | .error e => .error e
      | .ok (right, rest) =>
        let node := if logicalKind then Ast.logical t.text left right
          else Ast.binary t.text left right
        binLoopP fuel ops logicalKind node rest

def unaryP : Nat → Toks → Except String (Ast × Toks)
  | 0, _ => .error "parser fuel exhausted"
  | fuel + 1, toks =>
    match expectT toks ["+", "!", "-"] with
    | (some t, rest) =>
      match unaryP fuel rest with
      | .error e => .error e
      | .ok (arg, rest) => .ok (Ast.unary t.text arg, rest)
    | (none, rest) => primaryP fuel rest

def primaryP : Nat → Toks → Except String (Ast × Toks)
  | 0, _ => .error "parser fuel exhausted"
  | fuel + 1, toks =>
    let base : Except String (Ast × Toks) :=
      match expectT toks ["("] with
      | (some _, rest) =>
        (match filterP fuel rest with
         | .error e => .error e
         | .ok (node, rest) =>
           match consumeT rest [")"] with
           | .error e => .error e
           | .ok (_, rest) => .ok (node, rest))
      | (none, _) =>
        match expectT toks ["["] with
        | (some _, rest) => arrayDeclP fuel rest
        | (none, _) =>
          match expectT toks ["\x7b"] with
          | (some _, rest) => objectP fuel rest
          | (none, _) =>
            match toks with
            | [] => .error "Unexpected. Expected token"
            | t :: rest =>
              if languageConstantNames.contains t.text then
                .ok (languageConstantNode t.text, rest)
              else if t.identifier then identifierT toks
              else constantT toks
    match base with
    | .error e => .error e
    | .ok (node, rest) => suffixLoopP fuel node rest

def suffixLoopP : Nat → Ast → Toks → Except String (Ast × Toks)
  | 0, _, _ => .error "parser fuel exhausted"
  | fuel + 1, node, toks =>
    match expectT toks [".", "[", "("] with
    | (none, rest) => .ok (node, rest)
    | (some t, rest) =>
      if t.text == "[" then
        match primaryP fuel rest with
        | .error e => .error e
        | .ok (prop, rest) =>
          match consumeT rest ["]"] with
          | .error e => .error e
          | .ok (_, rest) => suffixLoopP fuel (Ast.memberBracket node prop) rest
      else if t.text == "." then
        match identifierT rest with
        | .error e => .error e
        | .ok (propNode, rest) =>
          match propNode with
          | Ast.ident name => suffixLoopP fuel (Ast.memberDot node name) rest
          | _ => .error "Tokenize Error: not an identifier"
      else
        match peekT rest [")"] with
        | some _ =>
          (match consumeT rest [")"] with
           | .error e => .error e
           | .ok (_, rest) => suffixLoopP fuel (Ast.call node []) rest)
        | none =>
          match callArgsP fuel rest [] with
          | .error e => .error e
          | .ok (args, rest) =>
            match consumeT rest [")"] with
            | .error e => .error e
            | .ok (_, rest) => suffixLoopP fuel (Ast.call node args.reverse) rest

def callArgsP : Nat → Toks → List Ast → Except String (List Ast × Toks)
  | 0, _, _ => .error "parser fuel exhausted"
  | fuel + 1, toks, acc =>
    match assignmentP fuel toks with
    | .error e => .error e
    | .ok (arg, rest) =>
      match expectT rest [","] with
      | (some _, rest) => callArgsP fuel rest (arg :: acc)
      | (none, rest) => .ok (arg :: acc, rest)

def objectP : Nat → Toks → Except String (Ast × Toks)
  | 0, _ => .error "parser fuel exhausted"
  | fuel + 1, toks =>
    match peekT toks ["\x7d"] with
    | some _ =>
      (match consumeT toks ["\x7d"] with
       | .error e => .error e
       | .ok (_, rest) => .ok (Ast.objectExpr [], rest))
    | none =>
      match objectPropsP fuel toks [] with
      | .error e => .error e
      | .ok (props, rest) =>
        match consumeT rest ["\x7d"] with
        | .error e => .error e
        | .ok (_, rest) => .ok (Ast.objectExpr props.reverse, rest)

def objectPropsP : Nat → Toks → List (PropKey × Ast) → Except String (List (PropKey × Ast) × Toks)
  | 0, _, _ => .error "parser fuel exhausted"
  | fuel + 1, toks, acc =>
    match toks with
    | [] => .error "Unexpected terminates."
    | t :: _ =>
      let keyStep : Except String (PropKey × Toks) :=
        if t.identifier then
          match identifierT toks with
          | .error e => .error e
          | .ok (Ast.ident name, rest) => .ok (PropKey.pident name, rest)
          | .ok _ => .error "Tokenize Error: not an identifier"
        else
          match constantT toks with
          | .error e => .error e
          | .ok (Ast.lit v, rest) => .ok (PropKey.plit v, rest)
          | .ok _ => .error "Unexpected. Expected token"
      match keyStep with
      | .error e => .error e
      | .ok (key, rest) =>
        match consumeT rest [":"] with
        | .error e => .error e
        | .ok (_, rest) =>
          match assignmentP fuel rest with
          | .error e => .error e
          | .ok (value, rest) =>
            match expectT rest [","] with
            | (some _, rest) => objectPropsP fuel rest ((key, value) :: acc)
            | (none, rest) => .ok ((key, value) :: acc, rest)

def arrayDeclP : Nat → Toks → Except String (Ast × Toks)
  | 0, _ => .error "parser fuel exhausted"
  | fuel + 1, toks =>
    match peekT toks ["]"] with
    | some _ =>
      (match consumeT toks ["]"] with
       | .error e => .error e
       | .ok (_, rest) => .ok (Ast.arrayExpr [], rest))
    | none =>
      match arrayElemsP fuel toks [] with
      | .error e => .error e
      | .ok (elems, rest) =>
        match consumeT rest ["]"] with
        | .error e => .error e
        | .ok (_, rest) => .ok (Ast.arrayExpr elems.reverse, rest)

def arrayElemsP : Nat → Toks → List Ast → Except String (List Ast × Toks)
  | 0, _, _ => .error "parser fuel exhausted"
  | fuel + 1, toks, acc =>
    match peekT toks ["]"] with
    | some _ => .ok (acc, toks)
    | none =>
      match assignmentP fuel toks with
      | .error e => .error e
      | .ok (elem, rest) =>
        match expectT rest [","] with
        | (some _, rest) => arrayElemsP fuel rest (elem :: acc)
        | (none, rest) => .ok (elem :: acc, rest)

end

/-- ast(text): lex then build the Program node. -/
def astOfString (fuel : Nat) (text : String) : Except String Ast :=
  match lexL fuel text.data with
  | .error e => .error e
  | .ok toks =>
    match programP fuel toks with
    | .error e => .error e
    | .ok (node, _) => .ok node


/-! ### parse.js: compiler, modelled as compile-time checks plus a
tree-walking interpreter over a heap

The code generator emits straight-line statements per AST node and
wraps dynamic values in the three ensureSafe* runtime checks.  The
embedding interprets the AST with reference semantics (a heap of
objects addressed by naturals), performing the same checks in the same
order as the generated statements.  Known, claim-irrelevant deviations
are noted inline: host functions are pure (they cannot mutate the
heap), a compound callee expression is evaluated once rather than
re-evaluated per occurrence of its generated code string, loose
equality coercions beyond null == undefined are not modelled, and
numbers are integers plus NaN. -/

inductive JsErr where
  | lexErr (m : String)
  | parseErr (m : String)
  | securityErr (m : String)
  | compileErr (m : String)
  | typeErr
  | fuelOut
  | internalErr
  deriving Repr, DecidableEq

inductive HVal where
  | undef
  | vnull
  | vbool (b : Bool)
  | vnum (n : Int)
  | vnan
  | vstr (s : String)
  | ref (a : Nat)
  deriving Repr, DecidableEq

/-- Host callables: receiver and arguments to result.  They observe the
heap only through the values handed to them and cannot mutate it. -/
abbrev HostFn := HVal → List HVal → HVal

/-- A heap object.  fields models the enumerable properties reachable
through property reads (prototype chains are flattened into it); func
is present on callables.  The five is*O fields are ground-truth
host-identity flags: they say what the object actually is in the host
(the global window object, the Function constructor, the Object
constructor, a DOM node, one of Function.prototype call/apply/bind);
the sandbox heuristics of parse.js inspect fields, not these flags. -/
structure HObj where
  fields : List (String × HVal) := []
  func : Option HostFn := none
  isArrayO : Bool := false
  isWindowO : Bool := false
  isFnCtorO : Bool := false
  isObjCtorO : Bool := false
  isDomO : Bool := false
  isCABO : Bool := false

abbrev Heap := List HObj

def getObj (h : Heap) (a : Nat) : Option HObj := h.get? a

def truthyHV : HVal → Bool
  | .undef => false
  | .vnull => false
  | .vbool b => b
  | .vnum n => n != 0
  | .vnan => false
  | .vstr s => !s.data.isEmpty
  | .ref _ => true

/-- JS property-key coercion (ToPropertyKey). -/
def hvalKeyString : HVal → String
  | .undef => "undefined"
  | .vnull => "null"
  | .vbool b => if b then "true" else "false"
  | .vnum n => toString n
  | .vnan => "NaN"
  | .vstr s => s
  | .ref _ => "[object Object]"

def fieldsPut : List (String × HVal) → String → HVal → List (String × HVal)
  | [], k, v => [(k, v)]
  | (k0, v0) :: rest, k, v =>
    if k0 == k then (k, v) :: rest else (k0, v0) :: fieldsPut rest k v

def getFieldHv (h : Heap) (v : HVal) (k : String) : HVal :=
  match v with
  | .ref a =>
    match getObj h a with
    | some o => (o.fields.lookup k).getD .undef
    | none => .undef
  | _ => HVal.undef

/-- x && x.hasOwnProperty(k): null and undefined short-circuit to
false; own properties of primitives are not modelled. -/
def hasOwnHv (h : Heap) (v : HVal) (k : String) : Bool :=
  match v with
  | .ref a =>
    match getObj h a with
    | some o => (o.fields.lookup k).isSome
    | none => false
  | _ => false

def setFieldH (h : Heap) (a : Nat) (k : String) (v : HVal) : Heap :=
  match getObj h a with
  | some o => h.set a { o with fields := fieldsPut o.fields k v }
  | none => h

/-- A property write.  Writing on undefined or null throws a TypeError;
writing on another primitive is silently dropped (the generated code
runs in sloppy mode). -/
def writeHv (h : Heap) (target : HVal) (k : String) (v : HVal) : Except JsErr Heap :=
  match target with
  | .undef => .error .typeErr
  | .vnull => .error .typeErr
  | .ref a => .ok (setFieldH h a k v)
  | _ => .ok h

def allocH (h : Heap) (o : HObj) : Heap × HVal := (h ++ [o], .ref h.length)

def forbiddenMemberNames : List String :=
  ["constructor", "__proto__", "__defineGetter__", "__defineSetter__",
   "__lookupGetter__", "__lookupSetter__"]

/-- ensureSafeMemberName on a compile-time identifier. -/
def checkMemberName (name : String) : Except JsErr Unit :=
  if forbiddenMemberNames.contains name then
    .error (.securityErr "Attempting to access a disallowed field")
  else .ok ()

/-- ensureSafeMemberName on a runtime value (computed member): the
blacklist test _.includes only fires on the exact strings. -/
def checkMemberNameRT (v : HVal) : Except JsErr Unit :=
  match v with
  | .vstr s => checkMemberName s
  | _ => .ok ()

def fieldTruthy (o : HObj) (k : String) : Bool :=
  truthyHV ((o.fields.lookup k).getD .undef)

/-- The window heuristic of ensureSafeObject: concurrent truthy
document, location, alert and setTimeout properties. -/
def windowHeuristic (o : HObj) : Bool :=
  fieldTruthy o "document" && fieldTruthy o "location" &&
  fieldTruthy o "alert" && fieldTruthy o "setTimeout"

/-- obj.constructor === obj (catches the Function constructor). -/
def selfCtorHeuristic (a : Nat) (o : HObj) : Bool :=
  o.fields.lookup "constructor" == some (HVal.ref a)

/-- Presence of the reflective enumeration methods (catches the Object
constructor). -/
def objCtorHeuristic (o : HObj) : Bool :=
  fieldTruthy o "getOwnPropertyNames" || fieldTruthy o "getOwnPropertyDescriptor"

/-- ensureSafeObject, in source order: falsy values pass; then the
window heuristic, the self-constructor test, the Object test, and the
DOM-node test. -/
def ensureSafeObjectH (h : Heap) (v : HVal) : Except JsErr Unit :=
  match v with
  | .ref a =>
    match getObj h a with
    | some o =>
      if windowHeuristic o then .error (.securityErr "Referencing window is not allowed")
      else if selfCtorHeuristic a o then .error (.securityErr "Referencing Function is not allowed")
      else if objCtorHeuristic o then .error (.securityErr "Referencing Object is not allowed")
      else if o.isDomO then .error (.securityErr "Referencing DOM node is not allowed")
      else .ok ()
    | none => .ok ()
  | _ => .ok ()

/-- ensureSafeFunction: the self-constructor test, then identity with
call, apply or bind. -/
def ensureSafeFunctionH (h : Heap) (v : HVal) : Except JsErr Unit :=
  match v with
  | .ref a =>
    match getObj h a with
    | some o =>
      if selfCtorHeuristic a o then .error (.securityErr "Referencing Function is not allowed")
      else if o.isCABO then .error (.securityErr "Referencing call, apply or bind is not allowed")
      else .ok ()
    | none => .ok ()
  | _ => .ok ()

/-! #### Compile-time pass

The checks ASTCompiler.recurse performs while emitting code: the member
blacklist on identifiers and non-computed member names, the
empty-program crash, and the missing-assignment-context error. -/

def compileCheckL : Nat → List Ast → Except JsErr Unit
  | 0, _ => .error .fuelOut
  | _ + 1, [] => .ok ()
  | fuel + 1, ast :: rest =>
    let this : Except JsErr Unit :=
      match ast with
      | .program body => if body.isEmpty then .error (.compileErr "empty program") else compileCheckL fuel body
      | .lit _ => .ok ()
      | .arrayExpr elems => compileCheckL fuel elems
      | .objectExpr props => compileCheckL fuel (props.map (fun p => p.2))
      | .ident name => checkMemberName name
      | .thisExpr => .ok ()
      | .memberDot obj name =>
        (match compileCheckL fuel [obj] with
         | .error e => .error e
         | .ok _ => checkMemberName name)
      | .memberBracket obj prop => compileCheckL fuel [obj, prop]
      | .call callee args =>
        (match compileCheckL fuel [callee] with
         | .error e => .error e
         | .ok _ => compileCheckL fuel args)
      | .filterCall _ args => compileCheckL fuel args
      | .assign left right =>
        (match compileCheckL fuel [left] with
         | .error e => .error e
         | .ok _ =>
           match left with
           | .ident _ => compileCheckL fuel [right]
           | .memberDot _ _ => compileCheckL fuel [right]
           | .memberBracket _ _ => compileCheckL fuel [right]
           | _ => .error (.compileErr "Unable to get leftContext info"))
      | .unary _ arg => compileCheckL fuel [arg]
      | .binary _ left right => compileCheckL fuel [left, right]
      | .logical _ left right => compileCheckL fuel [left, right]
      | .cond t c a => compileCheckL fuel [t, c, a]
    match this with
    | .error e => .error e
    | .ok _ => compileCheckL fuel rest

/-- parse(expr) for a string: lex, build the AST, run the compile-time
checks; the result is the AST the interpreter runs. -/
def parseCompile (fuel : Nat) (src : String) : Except JsErr Ast :=
  match lexL fuel src.data with
  | .error m => .error (.lexErr m)
  | .ok toks =>
    match programP fuel toks with
    | .error m => .error (.parseErr m)
    | .ok (ast, _) =>
      match compileCheckL fuel [ast] with
      | .error e => .error e
      | .ok _ => .ok ast

/-! #### Runtime -/

def litToH : JsVal → HVal
  | .undef => .undef
  | .vnull => .vnull
  | .vbool b => .vbool b
  | .vnum n => .vnum n
  | .vnan => .vnan
  | .vstr s => .vstr s
  | .varr _ => .undef
  | .vobj _ => .undef

def toNumberH : HVal → HVal
  | .vnum n => .vnum n
  | .vnan => .vnan
  | .vbool b => .vnum (if b then 1 else 0)
  | .vnull => .vnum 0
  | .undef => .vnan
  | .vstr s =>
    if s.data.isEmpty then .vnum 0
    else if s.data.all isNumberC then
      .vnum (Int.ofNat (s.data.foldl (fun acc c => acc * 10 + (c.toNat - 48)) 0))
    else .vnan
  | .ref _ => .vnan

def hvalToStringH : HVal → String := hvalKeyString

def isStringishH : HVal → Bool
  | .vstr _ => true
  | .ref _ => true
  | _ => false

def numBinH (f : Int → Int → Int) (a b : HVal) : HVal :=
  match toNumberH a, toNumberH b with
  | .vnum x, .vnum y => .vnum (f x y)
  | _, _ => .vnan

def jsAddH (a b : HVal) : HVal :=
  if isStringishH a || isStringishH b then .vstr (hvalToStringH a ++ hvalToStringH b)
  else numBinH (fun x y => x + y) a b

def jsSubH (a b : HVal) : HVal := numBinH (fun x y => x - y) a b

def jsStrictEqH (a b : HVal) : Bool :=
  match a, b with
  | .vnan, _ => false
  | _, .vnan => false
  | _, _ => a == b

def jsLooseEqH (a b : HVal) : Bool :=
  match a, b with
  | .vnull, .undef => true
  | .undef, .vnull => true
  | _, _ => jsStrictEqH a b

def jsCmpH (f : Int → Int → Bool) (g : String → String → Bool) (a b : HVal) : HVal :=
  match a, b with
  | .vstr x, .vstr y => .vbool (g x y)
  | _, _ =>
    match toNumberH a, toNumberH b with
    | .vnum x, .vnum y => .vbool (f x y)
    | _, _ => .vbool false

def jsBinaryH (op : String) (a b : HVal) : HVal :=
  if op == "*" then numBinH (fun x y => x * y) a b
  else if op == "/" then
    (match toNumberH a, toNumberH b with
     | .vnum x, .vnum y => if y == 0 then .vnan else .vnum (Int.tdiv x y)
     | _, _ => .vnan)
  else if op == "%" then
    (match toNumberH a, toNumberH b with
     | .vnum x, .vnum y => if y == 0 then .vnan else .vnum (Int.tmod x y)
     | _, _ => .vnan)
  else if op == "===" then .vbool (jsStrictEqH a b)
  else if op == "!==" then .vbool (!jsStrictEqH a b)
  else if op == "==" then .vbool (jsLooseEqH a b)
  else if op == "!=" then .vbool (!jsLooseEqH a b)
  else if op == "<" then jsCmpH (fun x y => x < y) (fun x y => decide (x < y)) a b
  else if op == ">" then jsCmpH (fun x y => x > y) (fun x y => decide (x > y)) a b
  else if op == "<=" then jsCmpH (fun x y => x <= y) (fun x y => decide (x <= y)) a b
  else if op == ">=" then jsCmpH (fun x y => x >= y) (fun x y => decide (x >= y)) a b
  else .vnan

def jsUnaryH (op : String) (v : HVal) : HVal :=
  if op == "!" then .vbool (!truthyHV v)
  else if op == "-" then
    (match toNumberH v with
     | .vnum x => .vnum (-x)
     | _ => .vnan)
  else toNumberH v

/-- The undefined-to-zero substitution isDefined(x, 0) applied to the
operands of unary operators and of binary + and -. -/
def defZeroH (v : HVal) : HVal := if v == HVal.undef then .vnum 0 else v

/-- The call-context information the compiler threads for callee and
assignment-target resolution: a bare identifier is re-resolved against
locals-or-scope at use time; a member access carries the evaluated
object and the property key. -/
inductive CtxInfo where
  | idCtx (name : String)
  | memCtx (obj : HVal) (key : String)
  deriving Repr

structure EvalEnv where
  filters : String → Option HostFn

def callFunctionH (h : Heap) (callee receiver : HVal) (args : List HVal) : Except JsErr HVal :=
  match callee with
  | .ref a =>
    match getObj h a with
    | some o =>
      match o.func with
      | some f => .ok (f receiver args)
      | none => .error .typeErr
    | none => .error .typeErr
  | _ => .error .typeErr

def emptyHObj : HObj := {}

/-- The create-mode step of a member access: if(!(left.key)) then
left.key = {}.  Reading a property of undefined or null throws; on
other primitives the fresh object is still allocated (the object
literal is evaluated) and the write is dropped. -/
def memberCreateStep (h : Heap) (lv : HVal) (key : String) : Except JsErr Heap :=
  match lv with
  | .undef => .error .typeErr
  | .vnull => .error .typeErr
  | _ =>
    if truthyHV (getFieldHv h lv key) then .ok h
    else
      let (h2, fresh) := allocH h emptyHObj
      writeHv h2 lv key fresh

def arrayFields (vals : List HVal) : List (String × HVal) :=
  ((List.range vals.length).zip vals).map (fun p => (toString p.1, p.2)) ++
    [("length", HVal.vnum (Int.ofNat vals.length))]

def objectFieldsOf (keys : List String) (vals : List HVal) : List (String × HVal) :=
  (keys.zip vals).foldl (fun acc kv => fieldsPut acc kv.1 kv.2) []

def propKeyString : PropKey → String
  | .pident name => name
  | .plit v => hvalKeyString (litToH v)

/-- Unpack the result of a one-node evaluation. -/
def oneRes : Heap × List (HVal × Option CtxInfo) → Except JsErr (Heap × HVal × Option CtxInfo)
  | (h, [(v, c)]) => .ok (h, v, c)
  | _ => .error .internalErr

/-- The interpreter.  It evaluates a list of AST nodes left to right
(threading the heap) and returns one value and optional call context
per node; a single node is run as a one-element list.  The fuel only
bounds recursion depth; no claim depends on its exact accounting. -/
def evalA (env : EvalEnv) : Nat → List Ast → Heap → HVal → HVal → Bool →
    Except JsErr (Heap × List (HVal × Option CtxInfo))
  | 0, _, _, _, _, _ => .error .fuelOut
  | _ + 1, [], h, _, _, _ => .ok (h, [])
  | fuel + 1, ast :: restNodes, h, s, l, create => do
    let (h, v, ctx) ← (do
      match ast with
      | .lit v => pure (h, litToH v, none)
      | .program body =>
        if body.isEmpty then .error .internalErr
        else do
          let (h, vcs) ← evalA env fuel body h s l false
          pure (h, (vcs.map (fun p => p.1)).getLastD .undef, none)
      | .arrayExpr elems => do
        let (h, vcs) ← evalA env fuel elems h s l false
        let (h, r) := allocH h { fields := arrayFields (vcs.map (fun p => p.1)), isArrayO := true }
        pure (h, r, none)
      | .objectExpr props => do
        let (h, vcs) ← evalA env fuel (props.map (fun p => p.2)) h s l false
        let keys := props.map (fun p => propKeyString p.1)
        let (h, r) := allocH h { fields := objectFieldsOf keys (vcs.map (fun p => p.1)) }
        pure (h, r, none)
      | .ident name => do
        let lOwns := hasOwnHv h l name
        let h ←
          if create && !lOwns && truthyHV s && !(hasOwnHv h s name) then do
            let (h2, fresh) := allocH h emptyHObj
            writeHv h2 s name fresh
          else pure h
        let v := if lOwns then getFieldHv h l name
          else if truthyHV s then getFieldHv h s name else .undef
        let _ ← ensureSafeObjectH h v
        pure (h, v, some (.idCtx name))
      | .thisExpr => pure (h, s, none)
      | .memberDot obj name => do
        let (h, lv, _) ← oneRes (← evalA env fuel [obj] h s l create)
        let h ← if create then memberCreateStep h lv name else pure h
        let v ←
          if truthyHV lv then do
            let v := getFieldHv h lv name
            let _ ← ensureSafeObjectH h v
            pure v
          else pure HVal.undef
        pure (h, v, some (.memCtx lv name))
      | .memberBracket obj prop => do
        let (h, lv, _) ← oneRes (← evalA env fuel [obj] h s l create)
        let (h, rv, _) ← oneRes (← evalA env fuel [prop] h s l false)
        let _ ← checkMemberNameRT rv
        let key := hvalKeyString rv
        let h ← if create then memberCreateStep h lv key else pure h
        let v ←
          if truthyHV lv then do
            let v := getFieldHv h lv key
            let _ ← ensureSafeObjectH h v
            pure v
          else pure HVal.undef
        pure (h, v, some (.memCtx lv key))
      | .call callee args => do
        let (h, cv, ctx) ← oneRes (← evalA env fuel [callee] h s l false)
        let (h, argvcs) ← evalA env fuel args h s l false
        let argvs := argvcs.map (fun p => p.1)
        match ctx with
        | some (.idCtx name) => do
          let receiver := if hasOwnHv h l name then l else s
          let _ ← ensureSafeObjectH h receiver
          let calleeV := getFieldHv h receiver name
          let _ ← ensureSafeFunctionH h calleeV
          if truthyHV calleeV then do
            let _ ← argvs.foldlM (fun _ av => ensureSafeObjectH h av) ()
            let rv ← callFunctionH h calleeV receiver argvs
            let _ ← ensureSafeObjectH h rv
            pure (h, rv, none)
          else pure (h, calleeV, none)
        | some (.memCtx obj key) => do
          let _ ← ensureSafeObjectH h obj
          let calleeV ←
            match obj with
            | .undef => .error JsErr.typeErr
            | .vnull => .error JsErr.typeErr
            | _ => pure (getFieldHv h obj key)
          let _ ← ensureSafeFunctionH h calleeV
          if truthyHV calleeV then do
            let _ ← argvs.foldlM (fun _ av => ensureSafeObjectH h av) ()
            let rv ← callFunctionH h calleeV obj argvs
            let _ ← ensureSafeObjectH h rv
            pure (h, rv, none)
          else pure (h, calleeV, none)
        | none => do
          let _ ← ensureSafeFunctionH h cv
          if truthyHV cv then do
            let _ ← argvs.foldlM (fun _ av => ensureSafeObjectH h av) ()
            let rv ← callFunctionH h cv .undef argvs
            let _ ← ensureSafeObjectH h rv
            pure (h, rv, none)
          else pure (h, cv, none)
      | .filterCall name args => do
        let (h, argvcs) ← evalA env fuel args h s l false
        match env.filters name with
        | some f => pure (h, f .undef (argvcs.map (fun p => p.1)), none)
        | none => .error JsErr.typeErr
      | .assign left right => do
        let (h, _, ctxOpt) ← oneRes (← evalA env fuel [left] h s l true)
        match ctxOpt with
        | none => .error JsErr.internalErr
        | some ctx => do
          let (h, rv, _) ← oneRes (← evalA env fuel [right] h s l false)
          let _ ← ensureSafeObjectH h rv
          let h ←
            match ctx with
            | .idCtx name =>
              let target := if hasOwnHv h l name then l else s
              writeHv h target name rv
            | .memCtx obj key => writeHv h obj key rv
          pure (h, rv, none)
      | .unary op arg => do
        let (h, av, _) ← oneRes (← evalA env fuel [arg] h s l false)
        pure (h, jsUnaryH op (defZeroH av), none)
      | .binary op left right => do
        let (h, lv, _) ← oneRes (← evalA env fuel [left] h s l false)
        let (h, rv, _) ← oneRes (← evalA env fuel [right] h s l false)
        if op == "+" then pure (h, jsAddH (defZeroH lv) (defZeroH rv), none)
        else if op == "-" then pure (h, jsSubH (defZeroH lv) (defZeroH rv), none)
        else pure (h, jsBinaryH op lv rv, none)
      | .logical op left right => do
        let (h, lv, _) ← oneRes (← evalA env fuel [left] h s l false)
        let (h, rv, _) ← oneRes (← evalA env fuel [right] h s l false)
        if op == "&&" then pure (h, if truthyHV lv then rv else lv, none)
        else pure (h, if truthyHV lv then lv else rv, none)
      | .cond t c a => do
        let (h, tv, _) ← oneRes (← evalA env fuel [t] h s l false)
        let (h, cv, _) ← oneRes (← evalA env fuel [c] h s l false)
        let (h, av, _) ← oneRes (← evalA env fuel [a] h s l false)
        pure (h, if truthyHV tv then cv else av, none))
    let (h, restVals) ← evalA env fuel restNodes h s l create
    pure (h, (v, ctx) :: restVals)

/-- Evaluate one node. -/
def evalOne (env : EvalEnv) (fuel : Nat) (ast : Ast) (h : Heap) (s l : HVal)
    (create : Bool) : Except JsErr (Heap × HVal × Option CtxInfo) :=
  match evalA env fuel [ast] h s l create with
  | .ok r => oneRes r
  | .error e => .error e

/-- The whole accessor: parse the source then run the program node on
(scope, locals). -/
def parseAndRun (env : EvalEnv) (fuel : Nat) (src : String) (h : Heap) (s l : HVal) :
    Except JsErr (Heap × HVal) :=
  match parseCompile fuel src with
  | .error e => .error e
  | .ok ast =>
    match evalOne env fuel ast h s l false with
    | .ok (h, v, _) => .ok (h, v)
    | .error e => .error e


/-! #### Sandbox safety predicates

objFlagged is the ground truth of the sandbox-closure claim: the value
is the host global, the Function or Object constructor, or a DOM node.
wfHeap records the facts that hold of the real host objects and that
the heuristics of ensureSafeObject rely on: the window really exposes
truthy document/location/alert/setTimeout, Function really is its own
constructor, Object really carries getOwnPropertyNames. -/

def objFlagged (o : HObj) : Bool :=
  o.isWindowO || o.isFnCtorO || o.isObjCtorO || o.isDomO

def flaggedAt (h : Heap) (a : Nat) : Bool :=
  match getObj h a with
  | some o => objFlagged o
  | none => false

/-- The value is none of the members of the claim's blacklist (for a
reference, the object it denotes is unflagged). -/
def safeHVb (h : Heap) (v : HVal) : Bool :=
  match v with
  | .ref a => !flaggedAt h a
  | _ => true

def wfHeap (h : Heap) : Prop :=
  ∀ a o, getObj h a = some o →
    (o.isWindowO = true → windowHeuristic o = true) ∧
    (o.isFnCtorO = true → selfCtorHeuristic a o = true) ∧
    (o.isObjCtorO = true → objCtorHeuristic o = true)

/-- How evaluation changes a heap: the flag seen at every address is
unchanged (new objects are allocated unflagged) and flagged objects are
never written. -/
def heapEvolves (h h2 : Heap) : Prop :=
  (∀ a, flaggedAt h2 a = flaggedAt h a) ∧
  (∀ a o, getObj h a = some o → objFlagged o = true → getObj h2 a = some o)

/-- Hypothesis on the filter registry: registered filters return
primitive (reference-free) values.  Host filters in this model cannot
allocate, so this is the modelled form of "filters return fresh safe
data". -/
def isRefH : HVal → Bool
  | .ref _ => true
  | _ => false

def filtersRefFree (env : EvalEnv) : Prop :=
  ∀ name f, env.filters name = some f → ∀ r args, isRefH (f r args) = false

def envNoFilters : EvalEnv := ⟨fun _ => none⟩

def emptyScopeHeap : Heap := [{}]

/-- The host heap of the C1 counterexample: a scope owning a plain
function-valued fn; the function exposes its (inherited)
Function.prototype.call at address 2, which carries the isCABO ground
truth flag and none of the window/constructor characteristics. -/
def cexHeap : Heap :=
  [{ fields := [("fn", HVal.ref 1)] },
   { fields := [("call", HVal.ref 2)], func := some (fun _ _ => HVal.undef) },
   { func := some (fun _ _ => HVal.undef), isCABO := true }]


/-- Safety of one interpreter result: the value is outside the
blacklist and so is the object captured in a member call context (the
compiler writes through that object without re-checking it). -/
def resSafe (h : Heap) (p : HVal × Option CtxInfo) : Prop :=
  safeHVb h p.1 = true ∧
    ∀ obj key, p.2 = some (CtxInfo.memCtx obj key) → safeHVb h obj = true


/-! ### scope.js: the scope tree and the digest engine

Scopes, watchers and queues are modelled as a machine state; watcher
accessors are opaque functions over the data of the scope tree, and
listeners are opaque data transformers that additionally return a list
of commands — the synchronous scope-API calls (watch, applyAsync,
postDigest, on, deregistration) a JS listener would make while it
runs.  The commands are executed right after the listener returns,
which is observationally the point at which the JS calls take effect.
The machine records an event trace: accessor evaluations, listener
invocations with their arguments, queue drains and digest/pass
boundaries.

Modelling notes (none observable by the claims below): a listener
mutates data and issues commands but cannot throw (scope.js catches
and logs listener errors and continues); reading __phase on a child
that never digested delegates in JS to the prototype, here each scope
record owns its phase; event listeners receive no event object
(stopPropagation/preventDefault are unmodelled). -/

abbrev SData := List (Nat × List (String × JsVal))

/-- The commands a listener, queued task or event listener can issue
synchronously against the scope API.  addWatch carries the pieces of
the registered watcher (a plain, non-constant watch); commands refer
to watchers by the ids the machine assigns. -/
inductive SCmd where
  | addWatch (sid : Nat) (valueEq : Bool)
      (wfn : Nat → SData → JsVal)
      (lfn : JsVal → JsVal → Nat → SData → SData × List SCmd)
  | removeWatch (sid : Nat) (wid : Nat)
  | applyAsyncQ (sid : Nat) (task : SData → SData × List SCmd)
  | evalAsyncQ (sid : Nat) (task : SData → SData × List SCmd)
  | postDigestQ (sid : Nat) (task : SData → SData × List SCmd)
  | onEvent (sid : Nat) (name : String) (lfn : SData → SData × List SCmd)
  | offEvent (sid : Nat) (name : String) (lid : Nat)

abbrev STask := SData → SData × List SCmd

/-- A registered watcher: accessor, listener, valueEq flag and the
last seen value.  last = none models the initWatchVal sentinel (a
fresh function object no JsVal ever equals, so the first areEqual test
is always false). -/
structure SWatcher where
  wid : Nat
  wfn : Nat → SData → JsVal
  lfn : JsVal → JsVal → Nat → SData → SData × List SCmd
  valueEq : Bool
  last : Option JsVal

structure ScopeRec where
  sid : Nat
  rootId : Nat
  queueId : Nat
  watchers : List SWatcher := []
  children : List Nat := []
  parentId : Option Nat := none
  dataProto : Option Nat := none
  phase : Option String := none
  lastDirtyWatch : Option Nat := none
  applyAsyncId : Option Nat := none
  asyncQueue : List (Nat × STask) := []
  applyAsyncQueue : List STask := []
  postDigestQueue : List STask := []
  eventListeners : List (String × List (Option (Nat × STask))) := []

inductive TimerTask where
  | applyFlushT (sid : Nat)
  | evalAsyncT (sid : Nat)
  deriving Repr, DecidableEq

/-- Machine events (the observations the claims are about). -/
inductive MEv where
  | digestStartEv (sid : Nat)
  | passStartEv (n : Nat)
  | watchEvalEv (sid wid : Nat) (v : JsVal)
  | listenerEv (sid wid : Nat) (newV oldV : JsVal)
  | asyncTaskEv (sid : Nat)
  | applyFlushTaskEv (sid : Nat)
  | postDigestEv
  | evListenerEv (sid : Nat) (name : String) (lid : Nat)
  deriving Repr

structure SMachine where
  scopes : List ScopeRec
  sdata : SData
  nextWid : Nat := 0
  nextLid : Nat := 0
  nextTimerId : Nat := 1
  timers : List (Nat × TimerTask) := []
  trace : List MEv := []

def getScopeM (m : SMachine) (sid : Nat) : Option ScopeRec := m.scopes.get? sid

def updScope (m : SMachine) (sid : Nat) (f : ScopeRec → ScopeRec) : SMachine :=
  match m.scopes.get? sid with
  | some sc => { m with scopes := m.scopes.set sid (f sc) }
  | none => m

def rootOfM (m : SMachine) (sid : Nat) : Nat :=
  match getScopeM m sid with
  | some sc => sc.rootId
  | none => sid

def queueOfM (m : SMachine) (sid : Nat) : Nat :=
  match getScopeM m sid with
  | some sc => sc.queueId
  | none => sid

def emitEv (m : SMachine) (e : MEv) : SMachine := { m with trace := m.trace ++ [e] }

def setLastDirty (m : SMachine) (rootSid : Nat) (w : Option Nat) : SMachine :=
  updScope m rootSid (fun sc => { sc with lastDirtyWatch := w })

def getLastDirty (m : SMachine) (rootSid : Nat) : Option Nat :=
  match getScopeM m rootSid with
  | some sc => sc.lastDirtyWatch
  | none => none

/-- areEqual of scope.js lifted to the sentinel: against the sentinel
nothing is equal; otherwise identity-with-NaN (valueEq false, where
tree equality stands in for JS identity on the claims' primitive
values) or lodash isEqual (valueEq true). -/
def areEqualOptS (newV : JsVal) (last : Option JsVal) (valueEq : Bool) : Bool :=
  match last with
  | none => false
  | some o => if valueEq then newV == o else (jsStrictEq newV o || (newV == JsVal.vnan && o == JsVal.vnan))

def putWid (ws : List SWatcher) (wid : Nat) (f : SWatcher → SWatcher) : List SWatcher :=
  ws.map (fun w => if w.wid == wid then f w else w)

def removeWid (ws : List SWatcher) (wid : Nat) : List SWatcher :=
  ws.filter (fun w => w.wid != wid)

def hasWid (ws : List SWatcher) (wid : Nat) : Bool :=
  ws.any (fun w => w.wid == wid)

/-- Execute one command.  addWatch mirrors the tail of _watch: unshift
a fresh watcher and null the root's lastDirtyWatch; removeWatch
mirrors the returned deregistration closure (splice by identity, null
lastDirtyWatch only when the watcher was still present); applyAsyncQ
and evalAsyncQ mirror _applyAsync/_evalAsync including their timer
scheduling; postDigestQ pushes; onEvent/offEvent mirror _on and its
deregistration (tombstoning the slot). -/
def execCmd (m : SMachine) (c : SCmd) : SMachine :=
  match c with
  | .addWatch sid veq wfn lfn =>
    match getScopeM m sid with
    | none => m
    | some _ =>
      let wid := m.nextWid
      let m := { m with nextWid := wid + 1 }
      let m := updScope m sid (fun sc =>
        { sc with watchers := ⟨wid, wfn, lfn, veq, none⟩ :: sc.watchers })
      setLastDirty m (rootOfM m sid) none
  | .removeWatch sid wid =>
    match getScopeM m sid with
    | none => m
    | some sc =>
      if hasWid sc.watchers wid then
        let m := updScope m sid (fun sc => { sc with watchers := removeWid sc.watchers wid })
        setLastDirty m (rootOfM m sid) none
      else m
  | .applyAsyncQ sid task =>
    let qid := queueOfM m sid
    let m := updScope m qid (fun sc => { sc with applyAsyncQueue := sc.applyAsyncQueue ++ [task] })
    let rid := rootOfM m sid
    match getScopeM m rid with
    | some rsc =>
      match rsc.applyAsyncId with
      | none =>
        let tid := m.nextTimerId
        let m := { m with timers := m.timers ++ [(tid, .applyFlushT sid)], nextTimerId := tid + 1 }
        updScope m rid (fun sc => { sc with applyAsyncId := some tid })
      | some _ => m
    | none => m
  | .evalAsyncQ sid task =>
    let qid := queueOfM m sid
    let qEmpty := match getScopeM m qid with
      | some sc => sc.asyncQueue.isEmpty
      | none => true
    let phaseNone := match getScopeM m sid with
      | some sc => sc.phase == none
      | none => true
    let m :=
      if phaseNone && qEmpty then
        let tid := m.nextTimerId
        { m with timers := m.timers ++ [(tid, .evalAsyncT sid)], nextTimerId := tid + 1 }
      else m
    updScope m qid (fun sc => { sc with asyncQueue := sc.asyncQueue ++ [(sid, task)] })
  | .postDigestQ sid task =>
    updScope m (queueOfM m sid) (fun sc => { sc with postDigestQueue := sc.postDigestQueue ++ [task] })
  | .onEvent sid name lfn =>
    let lid := m.nextLid
    let m := { m with nextLid := lid + 1 }
    updScope m sid (fun sc =>
      { sc with eventListeners :=
          match sc.eventListeners.lookup name with
          | some slots =>
            (sc.eventListeners.filter (fun p => p.1 != name)) ++ [(name, slots ++ [some (lid, lfn)])]
          | none => sc.eventListeners ++ [(name, [some (lid, lfn)])] })
  | .offEvent sid name lid =>
    updScope m sid (fun sc =>
      { sc with eventListeners := sc.eventListeners.map (fun p =>
          if p.1 == name then
            (p.1, p.2.map (fun slot =>
              match slot with
              | some (lid0, f) => if lid0 == lid then none else some (lid0, f)
              | none => none))
          else p) })

def execCmds (m : SMachine) (cs : List SCmd) : SMachine :=
  cs.foldl execCmd m

/-- Run a queued task (data transformer plus commands). -/
def runSTask (m : SMachine) (task : STask) : SMachine :=
  let (d, cs) := task m.sdata
  execCmds { m with sdata := d } cs

/-- The dirty branch of __digestOnce for one watcher: set the root's
lastDirtyWatch, store the new value in last (cloneDeep is the identity
on the immutable tree values), invoke the listener with the
sentinel-replacing old value, then apply the listener's API calls. -/
def fireWatcher (m : SMachine) (sid rootSid : Nat) (w : SWatcher) (newV : JsVal) : SMachine :=
  let m := setLastDirty m rootSid (some w.wid)
  let m := updScope m sid (fun sc =>
    { sc with watchers := putWid sc.watchers w.wid (fun w0 => { w0 with last := some newV }) })
  let oldArg := w.last.getD newV
  let m := emitEv m (.listenerEv sid w.wid newV oldArg)
  let (d, cs) := w.lfn newV oldArg sid m.sdata
  execCmds { m with sdata := d } cs

/-- The right-to-left watcher sweep of one scope: the counter is
captured once (lodash arrayEachRight captures the length and then
decrements, reading the live array at each index), missing indices are
skipped (the if(watcher) guard), a dirty watcher fires, a clean
watcher that is the root's lastDirtyWatch aborts the whole subtree
walk. -/
def eachRightW (m : SMachine) (sid rootSid : Nat) : Nat → Bool → SMachine × Bool × Bool
  | 0, dirty => (m, dirty, true)
  | c + 1, dirty =>
    let ws := match getScopeM m sid with
      | some sc => sc.watchers
      | none => []
    match ws.get? c with
    | none => eachRightW m sid rootSid c dirty
    | some w =>
      let newV := w.wfn sid m.sdata
      let m := emitEv m (.watchEvalEv sid w.wid newV)
      if areEqualOptS newV w.last w.valueEq then
        if getLastDirty m rootSid == some w.wid then
          (m, dirty, false)
        else
          eachRightW m sid rootSid c dirty
      else
        let m := fireWatcher m sid rootSid w newV
        eachRightW m sid rootSid c true

mutual

/-- __everyScope specialised to the __digestOnce callback: visit the
scope, then (if the sweep did not abort) every child, depth first. -/
def visitScopeD (fuel : Nat) (m : SMachine) (sid : Nat) (dirty : Bool) :
    Option (SMachine × Bool × Bool) :=
  match fuel with
  | 0 => none
  | fuel + 1 =>
    match getScopeM m sid with
    | none => some (m, dirty, true)
    | some sc =>
      let rootSid := sc.rootId
      let (m, dirty, cont) := eachRightW m sid rootSid sc.watchers.length dirty
      if cont then
        visitChildrenD fuel m sid (((getScopeM m sid).map (fun s => s.children.length)).getD 0) 0 dirty
      else some (m, dirty, false)

/-- children.every over the live children list (the length is captured
at entry, as Array.prototype.every does). -/
def visitChildrenD (fuel : Nat) (m : SMachine) (sid len i : Nat) (dirty : Bool) :
    Option (SMachine × Bool × Bool) :=
  match fuel with
  | 0 => none
  | fuel + 1 =>
    if i < len then
      let cs := match getScopeM m sid with
        | some sc => sc.children
        | none => []
      match cs.get? i with
      | none => visitChildrenD fuel m sid len (i + 1) dirty
      | some cid =>
        match visitScopeD fuel m cid dirty with
        | none => none
        | some (m, dirty, cont) =>
          if cont then visitChildrenD fuel m sid len (i + 1) dirty
          else some (m, dirty, false)
    else some (m, dirty, true)

end

def digestOnceM (fuel : Nat) (m : SMachine) (sid : Nat) : Option (SMachine × Bool) :=
  match visitScopeD fuel m sid false with
  | none => none
  | some (m, dirty, _) => some (m, dirty)

/-- Drain this.__asyncQueue: shift and evaluate each task on its
originating scope (exceptions are caught in the source; tasks are
total here). -/
def drainAsyncQ (fuel : Nat) (m : SMachine) (qid : Nat) : Option SMachine :=
  match fuel with
  | 0 => none
  | fuel + 1 =>
    let q := match getScopeM m qid with
      | some sc => sc.asyncQueue
      | none => []
    match q with
    | [] => some m
    | (tsid, task) :: rest =>
      let m := updScope m qid (fun sc => { sc with asyncQueue := rest })
      let m := emitEv m (.asyncTaskEv tsid)
      drainAsyncQ fuel (runSTask m task) qid

/-- __flushApplyAsync: run the queued closures in order, then null the
root's applyAsyncId. -/
def flushApplyAsyncM (fuel : Nat) (m : SMachine) (sid : Nat) : Option SMachine :=
  match fuel with
  | 0 => none
  | fuel + 1 =>
    let qid := queueOfM m sid
    let q := match getScopeM m qid with
      | some sc => sc.applyAsyncQueue
      | none => []
    match q with
    | [] => some (updScope m (rootOfM m sid) (fun sc => { sc with applyAsyncId := none }))
    | task :: rest =>
      let m := updScope m qid (fun sc => { sc with applyAsyncQueue := rest })
      let m := emitEv m (.applyFlushTaskEv sid)
      flushApplyAsyncM fuel (runSTask m task) sid

def drainPostDigestQ (fuel : Nat) (m : SMachine) (qid : Nat) : Option SMachine :=
  match fuel with
  | 0 => none
  | fuel + 1 =>
    let q := match getScopeM m qid with
      | some sc => sc.postDigestQueue
      | none => []
    match q with
    | [] => some m
    | task :: rest =>
      let m := updScope m qid (fun sc => { sc with postDigestQueue := rest })
      let m := emitEv m (.postDigestEv)
      drainPostDigestQ fuel (runSTask m task) qid

inductive DigestRes where
  | dOk
  | dTTL
  | dPhaseErr
  | dFuelOut
  deriving Repr, DecidableEq

def maxTTLS : Nat := 10

/-- One iteration of the do/while body of _digest: drain the async
queue, run one sweep; the returned flag is the do/while condition
(dirty || this.__asyncQueue.length). -/
def digestPass (fuel : Nat) (m : SMachine) (sid qid pass : Nat) : Option (SMachine × Bool) :=
  let m := emitEv m (.passStartEv pass)
  match drainAsyncQ fuel m qid with
  | none => none
  | some m =>
    match digestOnceM fuel m sid with
    | none => none
    | some (m, dirty) =>
      let asyncLeft := match getScopeM m qid with
        | some sc => !sc.asyncQueue.isEmpty
        | none => false
      some (m, dirty || asyncLeft)

/-- The do/while of _digest: if a pass leaves the machine dirty or
async work pending, spend one unit of TTL (on exhaustion: clear the
phase and raise MaxDigestIterations, mirroring
ttl--; if (ttl < 0) { clearPhase(); throw }). -/
def digestLoopM (fuel : Nat) (m : SMachine) (sid qid : Nat) : Nat → Nat → SMachine × DigestRes
  | _, 0 => (m, .dFuelOut)
  | ttl, pass + 1 =>
    match digestPass fuel m sid qid (pass + 1) with
    | none => (m, .dFuelOut)
    | some (m2, again) =>
      match again with
      | false => (m2, .dOk)
      | true =>
        match ttl with
        | 0 => (updScope m2 sid (fun sc => { sc with phase := none }), .dTTL)
        | ttl + 1 => digestLoopM fuel m2 sid qid ttl pass

/-- The tail of _digest after the do/while loop: on normal completion
drain the post-digest queue and clear the phase; an error result
passes through (the TTL throw cleared the phase itself). -/
def digestFinish (fuel sid qid : Nat) : SMachine × DigestRes → SMachine × DigestRes
  | (m, .dOk) =>
    match drainPostDigestQ fuel m qid with
    | none => (m, .dFuelOut)
    | some m2 => (updScope m2 sid (fun sc => { sc with phase := none }), .dOk)
  | (m, r) => (m, r)

/-- _digest: null the root's lastDirtyWatch, begin the digest phase
(throwing PhaseConflict if one is active), cancel a pending applyAsync
timer and flush its queue synchronously, run the TTL loop, then drain
the post-digest queue and clear the phase. -/
def digestM (fuel : Nat) (m : SMachine) (sid : Nat) : SMachine × DigestRes :=
  let rootSid := rootOfM m sid
  let qid := queueOfM m sid
  let m := setLastDirty m rootSid none
  match getScopeM m sid with
  | none => (m, .dPhaseErr)
  | some sc =>
    match sc.phase with
    | some _ => (m, .dPhaseErr)
    | none =>
      let m := updScope m sid (fun sc => { sc with phase := some "digest" })
      let m := emitEv m (.digestStartEv sid)
      let flushStep : Option SMachine :=
        match (getScopeM m rootSid).bind (fun sc => sc.applyAsyncId) with
        | some tid =>
          let m := { m with timers := m.timers.filter (fun t => t.1 != tid) }
          flushApplyAsyncM fuel m sid
        | none => some m
      match flushStep with
      | none => (m, .dFuelOut)
      | some m => digestFinish fuel sid qid (digestLoopM fuel m sid qid maxTTLS (maxTTLS + 2))

/-- The result of parse as _watch consumes it: the accessor plus the
constant flag (the oneTime delegate has no claim here and is not
modelled). -/
structure ParsedW where
  wfn : Nat → SData → JsVal
  constant : Bool

/-- _watch: a constant accessor goes through constantWatchDelegate —
an inner plain watch whose listener calls the original listener and
then deregisters itself; otherwise a plain watcher is prepended.
Returns the machine and the id the deregistration closure captures. -/
def watchM (m : SMachine) (sid : Nat) (p : ParsedW)
    (lfn : JsVal → JsVal → Nat → SData → SData × List SCmd) (valueEq : Bool) :
    SMachine × Nat :=
  let wid := m.nextWid
  if p.constant then
    let wrapped : JsVal → JsVal → Nat → SData → SData × List SCmd :=
      fun n o s2 d =>
        let (d2, cs) := lfn n o s2 d
        (d2, cs ++ [SCmd.removeWatch sid wid])
    (execCmd m (.addWatch sid valueEq (fun _ d => p.wfn sid d) wrapped), wid)
  else
    (execCmd m (.addWatch sid valueEq p.wfn lfn), wid)

/-- _applyAsync called from outside a listener. -/
def applyAsyncM (m : SMachine) (sid : Nat) (task : STask) : SMachine :=
  execCmd m (.applyAsyncQ sid task)

/-- _new: the child delegates data (and inherits queue and root
references) from the RECEIVER for non-isolated children, while the
parent argument only gains the child in its children list and becomes
the child's parent pointer; an isolated child starts a fresh record
and aliases the parent's root and queues. -/
def newScopeM (m : SMachine) (receiverSid : Nat) (isolated : Bool)
    (parentOpt : Option Nat) : SMachine × Nat :=
  let parent := parentOpt.getD receiverSid
  let newSid := m.scopes.length
  let child : ScopeRec :=
    if isolated then
      { sid := newSid
        rootId := rootOfM m parent
        queueId := queueOfM m parent
        dataProto := none
        parentId := some parent }
    else
      { sid := newSid
        rootId := rootOfM m receiverSid
        queueId := queueOfM m receiverSid
        dataProto := some receiverSid
        parentId := some parent }
  let m := { m with scopes := m.scopes ++ [child] }
  (updScope m parent (fun sc => { sc with children := sc.children ++ [newSid] }), newSid)

def listenersOfM (m : SMachine) (sid : Nat) (name : String) : List (Option (Nat × STask)) :=
  match getScopeM m sid with
  | some sc => (sc.eventListeners.lookup name).getD []
  | none => []

def removeListenerAt (m : SMachine) (sid : Nat) (name : String) (i : Nat) : SMachine :=
  updScope m sid (fun sc =>
    { sc with eventListeners := sc.eventListeners.map (fun p =>
        if p.1 == name then (p.1, p.2.eraseIdx i) else p) })

/-- __fireEventOnScope: walk the live listener list by index; a
tombstone is spliced out without advancing, a live listener is
invoked and the index advances; the loop re-reads the live length
every iteration, so listeners appended during the dispatch are
reached. -/
def fireEventLoop (fuel : Nat) (m : SMachine) (sid : Nat) (name : String) (i : Nat) :
    Option SMachine :=
  match fuel with
  | 0 => none
  | fuel + 1 =>
    let ls := listenersOfM m sid name
    if i < ls.length then
      match ls.get? i with
      | some none => fireEventLoop fuel (removeListenerAt m sid name i) sid name i
      | some (some (lid, f)) =>
        let m := emitEv m (.evListenerEv sid name lid)
        fireEventLoop fuel (runSTask m f) sid name (i + 1)
      | none => some m
    else some m

/-- _emit restricted to the per-scope dispatch plus the upward walk
(the event object and stopPropagation are not modelled; no claim
touches them). -/
def emitM (fuel : Nat) (m : SMachine) (sid : Nat) (name : String) : Option SMachine :=
  match fuel with
  | 0 => none
  | fuel + 1 =>
    match fireEventLoop fuel m sid name 0 with
    | none => none
    | some m =>
      match (getScopeM m sid).bind (fun sc => sc.parentId) with
      | some p => emitM fuel m p name
      | none => some m


/-- Read a property of a scope's data (no prototype walk; the concrete
scenarios below live on a single scope or touch only own data). -/
def getSD (d : SData) (sid : Nat) (k : String) : JsVal :=
  match d.lookup sid with
  | some fs => match fs.lookup k with
    | some v => v
    | none => JsVal.undef
  | none => JsVal.undef

def setSD (d : SData) (sid : Nat) (k : String) (v : JsVal) : SData :=
  d.map (fun p => if p.1 == sid then (p.1, (p.2.filter (fun q => q.1 != k)) ++ [(k, v)]) else p)

def setSDM (m : SMachine) (sid : Nat) (k : String) (v : JsVal) : SMachine :=
  { m with sdata := setSD m.sdata sid k v }

def rootScope0 : ScopeRec := { sid := 0, rootId := 0, queueId := 0 }

def mach0 : SMachine := { scopes := [rootScope0], sdata := [(0, [])] }


/-- Event discriminators used by the digest claims. -/
def isPostDigestEvb : MEv → Bool
  | .postDigestEv => true
  | _ => false

def isPassStartEvb : MEv → Bool
  | .passStartEv _ => true
  | _ => false

def isWatchEvalOf (wid : Nat) : MEv → Bool
  | .watchEvalEv _ w _ => w == wid
  | _ => false

def isListenerEvOf (wid : Nat) : MEv → Bool
  | .listenerEv _ w _ _ => w == wid
  | _ => false

def pdCount (m : SMachine) : Nat := m.trace.countP isPostDigestEvb

/-- Modelled from the spec: the constant flag of parse. The
constant-marking pass that computes fn.constant is consumed by
_watch (scope.js) and exercised by the test suite but is absent from
every parse.js snapshot in src/, so the flag is defined from the
spec's wording: an expression is constant iff every sub-expression is
a literal, an array/object of constants, or a (non-stateful, which
all modelled filters are) filter call over constants. -/
def isConstantA : Nat → Ast → Bool
  | 0, _ => false
  | fuel + 1, a =>
    match a with
    | .program body => body.all (isConstantA fuel)
    | .lit _ => true
    | .arrayExpr es => es.all (isConstantA fuel)
    | .objectExpr ps => ps.all (fun p => isConstantA fuel p.2)
    | .filterCall _ args => args.all (isConstantA fuel)
    | _ => false

def parseConstant (src : String) : Option Bool :=
  match astOfString 1000 src with
  | .ok a => some (isConstantA 1000 a)
  | .error _ => none

/-! ### Concrete digest scenarios -/

def noopLfn : JsVal → JsVal → Nat → SData → SData × List SCmd := fun _ _ _ d => (d, [])

/-- C7 scenario: someValue watched, listener counts invocations. -/
def c7wfn : Nat → SData → JsVal := fun sid d => getSD d sid "someValue"

def c7lfn : JsVal → JsVal → Nat → SData → SData × List SCmd :=
  fun _ _ sid d =>
    (setSD d sid "counter" (JsVal.vnum ((match getSD d sid "counter" with
      | JsVal.vnum n => n
      | _ => 0) + 1)), [])

def c7m1 : SMachine :=
  setSDM (setSDM ((watchM mach0 0 ⟨c7wfn, false⟩ c7lfn false).1) 0 "someValue" (JsVal.vstr "a"))
    0 "counter" (JsVal.vnum 0)

def c7m2 : SMachine := (digestM 100 c7m1 0).1

def c7m3 : SMachine := (digestM 100 (setSDM c7m2 0 "someValue" (JsVal.vstr "aji")) 0).1

/-- C3 scenario: watcher A (wid 0) is registered first, watcher B
(wid 1) second; B's unshift places A at index 1, so the sweep visits
A first; A's listener registers a new watch (wid 2). -/
def c3afn : Nat → SData → JsVal := fun sid d => getSD d sid "aValue"

def c3newfn : Nat → SData → JsVal := fun sid d => getSD d sid "newValue"

def c3bfn : Nat → SData → JsVal := fun sid d => getSD d sid "bValue"

def c3alfn : JsVal → JsVal → Nat → SData → SData × List SCmd :=
  fun _ _ _ d => (d, [SCmd.addWatch 0 false c3newfn noopLfn])

def c3m0 : SMachine :=
  (watchM (watchM mach0 0 ⟨c3afn, false⟩ c3alfn false).1 0 ⟨c3bfn, false⟩ noopLfn false).1

/-- C3 companion (the repo's insert-during-digest test): a single
watch whose listener registers a new watch. -/
def c3bm0 : SMachine := (watchM mach0 0 ⟨c3afn, false⟩ c3alfn false).1

/-- C2 scenario: two watches that keep dirtying each other. -/
def c2IncLfn (other : String) : JsVal → JsVal → Nat → SData → SData × List SCmd :=
  fun _ _ sid d =>
    (setSD d sid other (JsVal.vnum ((match getSD d sid other with
      | JsVal.vnum n => n
      | _ => 0) + 1)), [])

def c2posttask : STask := fun d => (setSD d 0 "post" (JsVal.vnum 1), [])

def c2wfnA : Nat → SData → JsVal := fun sid d => getSD d sid "counterA"

def c2wfnB : Nat → SData → JsVal := fun sid d => getSD d sid "counterB"

def c2m1 : SMachine :=
  let m := (watchM mach0 0 ⟨c2wfnA, false⟩ (c2IncLfn "counterB") false).1
  let m := (watchM m 0 ⟨c2wfnB, false⟩ (c2IncLfn "counterA") false).1
  let m := setSDM (setSDM m 0 "counterA" (JsVal.vnum 0)) 0 "counterB" (JsVal.vnum 0)
  execCmd m (.postDigestQ 0 c2posttask)

/-- C5 scenario: two applyAsync calls before the tick, then digest. -/
def c5t1 : STask := fun d => (setSD d 0 "v" (JsVal.vnum 1), [])

def c5t2 : STask := fun d => (setSD d 0 "v" (JsVal.vnum 2), [])

def c5m0 : SMachine :=
  applyAsyncM (applyAsyncM ((watchM mach0 0 ⟨fun sid d => getSD d sid "v", false⟩ noopLfn false).1) 0 c5t1) 0 c5t2

/-- C10 scenario: listener 0 registers listener 1 on the same event
and scope during the dispatch. -/
def c10l2 : STask := fun d => (setSD d 0 "l2ran" (JsVal.vnum 1), [])

def c10l1 : STask := fun d => (setSD d 0 "l1ran" (JsVal.vnum 1), [SCmd.onEvent 0 "ev" c10l2])

def c10m0 : SMachine := execCmd mach0 (SCmd.onEvent 0 "ev" c10l1)

def c10mres : SMachine := (fireEventLoop 100 c10m0 0 "ev" 0).getD c10m0

/-- C9 scenario machine: two sibling scopes under a root. -/
def c9mach : SMachine :=
  (newScopeM (newScopeM mach0 0 false none).1 0 false none).1


/-- C2 intermediate digest states: the machine entering the k-th
iteration of the TTL loop on the c2m1 scenario (counterA/counterB
keep dirtying each other), written out as literals so each pass is
checked by a single cheap reduction. -/
def c2s0 : SMachine :=
  { scopes := [{ sid := 0, rootId := 0, queueId := 0, watchers := [⟨1, c2wfnB, (c2IncLfn "counterA"), false, none⟩, ⟨0, c2wfnA, (c2IncLfn "counterB"), false, none⟩], children := [], parentId := none, dataProto := none, phase := some "digest", lastDirtyWatch := none, applyAsyncId := none, asyncQueue := [], applyAsyncQueue := [], postDigestQueue := [c2posttask], eventListeners := [] }],
    sdata := [(0, [("counterA", JsVal.vnum 0), ("counterB", JsVal.vnum 0)])],
    nextWid := 2, nextLid := 0, nextTimerId := 1, timers := [],
    trace := [MEv.digestStartEv 0] }

def c2s1 : SMachine :=
  { scopes := [{ sid := 0, rootId := 0, queueId := 0, watchers := [⟨1, c2wfnB, (c2IncLfn "counterA"), false, some (JsVal.vnum 1)⟩, ⟨0, c2wfnA, (c2IncLfn "counterB"), false, some (JsVal.vnum 0)⟩], children := [], parentId := none, dataProto := none, phase := some "digest", lastDirtyWatch := some 1, applyAsyncId := none, asyncQueue := [], applyAsyncQueue := [], postDigestQueue := [c2posttask], eventListeners := [] }],
    sdata := [(0, [("counterB", JsVal.vnum 1), ("counterA", JsVal.vnum 1)])],
    nextWid := 2, nextLid := 0, nextTimerId := 1, timers := [],
    trace := [MEv.digestStartEv 0, MEv.passStartEv 12, MEv.watchEvalEv 0 0 (JsVal.vnum 0), MEv.listenerEv 0 0 (JsVal.vnum 0) (JsVal.vnum 0), MEv.watchEvalEv 0 1 (JsVal.vnum 1), MEv.listenerEv 0 1 (JsVal.vnum 1) (JsVal.vnum 1)] }

def c2s2 : SMachine :=
  { scopes := [{ sid := 0, rootId := 0, queueId := 0, watchers := [⟨1, c2wfnB, (c2IncLfn "counterA"), false, some (JsVal.vnum 2)⟩, ⟨0, c2wfnA, (c2IncLfn "counterB"), false, some (JsVal.vnum 1)⟩], children := [], parentId := none, dataProto := none, phase := some "digest", lastDirtyWatch := some 1, applyAsyncId := none, asyncQueue := [], applyAsyncQueue := [], postDigestQueue := [c2posttask], eventListeners := [] }],
    sdata := [(0, [("counterB", JsVal.vnum 2), ("counterA", JsVal.vnum 2)])],
    nextWid := 2, nextLid := 0, nextTimerId := 1, timers := [],
    trace := [MEv.digestStartEv 0, MEv.passStartEv 12, MEv.watchEvalEv 0 0 (JsVal.vnum 0), MEv.listenerEv 0 0 (JsVal.vnum 0) (JsVal.vnum 0), MEv.watchEvalEv 0 1 (JsVal.vnum 1), MEv.listenerEv 0 1 (JsVal.vnum 1) (JsVal.vnum 1), MEv.passStartEv 11, MEv.watchEvalEv 0 0 (JsVal.vnum 1), MEv.listenerEv 0 0 (JsVal.vnum 1) (JsVal.vnum 0), MEv.watchEvalEv 0 1 (JsVal.vnum 2), MEv.listenerEv 0 1 (JsVal.vnum 2) (JsVal.vnum 1)] }

def c2s3 : SMachine :=
  { scopes := [{ sid := 0, rootId := 0, queueId := 0, watchers := [⟨1, c2wfnB, (c2IncLfn "counterA"), false, some (JsVal.vnum 3)⟩, ⟨0, c2wfnA, (c2IncLfn "counterB"), false, some (JsVal.vnum 2)⟩], children := [], parentId := none, dataProto := none, phase := some "digest", lastDirtyWatch := some 1, applyAsyncId := none, asyncQueue := [], applyAsyncQueue := [], postDigestQueue := [c2posttask], eventListeners := [] }],
    sdata := [(0, [("counterB", JsVal.vnum 3), ("counterA", JsVal.vnum 3)])],
    nextWid := 2, nextLid := 0, nextTimerId := 1, timers := [],
    trace := [MEv.digestStartEv 0, MEv.passStartEv 12, MEv.watchEvalEv 0 0 (JsVal.vnum 0), MEv.listenerEv 0 0 (JsVal.vnum 0) (JsVal.vnum 0), MEv.watchEvalEv 0 1 (JsVal.vnum 1), MEv.listenerEv 0 1 (JsVal.vnum 1) (JsVal.vnum 1), MEv.passStartEv 11, MEv.watchEvalEv 0 0 (JsVal.vnum 1), MEv.listenerEv 0 0 (JsVal.vnum 1) (JsVal.vnum 0), MEv.watchEvalEv 0 1 (JsVal.vnum 2), MEv.listenerEv 0 1 (JsVal.vnum 2) (JsVal.vnum 1), MEv.passStartEv 10, MEv.watchEvalEv 0 0 (JsVal.vnum 2), MEv.listenerEv 0 0 (JsVal.vnum 2) (JsVal.vnum 1), MEv.watchEvalEv 0 1 (JsVal.vnum 3), MEv.listenerEv 0 1 (JsVal.vnum 3) (JsVal.vnum 2)] }

def c2s4 : SMachine :=
  { scopes := [{ sid := 0, rootId := 0, queueId := 0, watchers := [⟨1, c2wfnB, (c2IncLfn "counterA"), false, some (JsVal.vnum 4)⟩, ⟨0, c2wfnA, (c2IncLfn "counterB"), false, some (JsVal.vnum 3)⟩], children := [], parentId := none, dataProto := none, phase := some "digest", lastDirtyWatch := some 1, applyAsyncId := none, asyncQueue := [], applyAsyncQueue := [], postDigestQueue := [c2posttask], eventListeners := [] }],
    sdata := [(0, [("counterB", JsVal.vnum 4), ("counterA", JsVal.vnum 4)])],
    nextWid := 2, nextLid := 0, nextTimerId := 1, timers := [],
    trace := [MEv.digestStartEv 0, MEv.passStartEv 12, MEv.watchEvalEv 0 0 (JsVal.vnum 0), MEv.listenerEv 0 0 (JsVal.vnum 0) (JsVal.vnum 0), MEv.watchEvalEv 0 1 (JsVal.vnum 1), MEv.listenerEv 0 1 (JsVal.vnum 1) (JsVal.vnum 1), MEv.passStartEv 11, MEv.watchEvalEv 0 0 (JsVal.vnum 1), MEv.listenerEv 0 0 (JsVal.vnum 1) (JsVal.vnum 0), MEv.watchEvalEv 0 1 (JsVal.vnum 2), MEv.listenerEv 0 1 (JsVal.vnum 2) (JsVal.vnum 1), MEv.passStartEv 10, MEv.watchEvalEv 0 0 (JsVal.vnum 2), MEv.listenerEv 0 0 (JsVal.vnum 2) (JsVal.vnum 1), MEv.watchEvalEv 0 1 (JsVal.vnum 3), MEv.listenerEv 0 1 (JsVal.vnum 3) (JsVal.vnum 2), MEv.passStartEv 9, MEv.watchEvalEv 0 0 (JsVal.vnum 3), MEv.listenerEv 0 0 (JsVal.vnum 3) (JsVal.vnum 2), MEv.watchEvalEv 0 1 (JsVal.vnum 4), MEv.listenerEv 0 1 (JsVal.vnum 4) (JsVal.vnum 3)] }

def c2s5 : SMachine :=
  { scopes := [{ sid := 0, rootId := 0, queueId := 0, watchers := [⟨1, c2wfnB, (c2IncLfn "counterA"), false, some (JsVal.vnum 5)⟩, ⟨0, c2wfnA, (c2IncLfn "counterB"), false, some (JsVal.vnum 4)⟩], children := [], parentId := none, dataProto := none, phase := some "digest", lastDirtyWatch := some 1, applyAsyncId := none, asyncQueue := [], applyAsyncQueue := [], postDigestQueue := [c2posttask], eventListeners := [] }],
    sdata := [(0, [("counterB", JsVal.vnum 5), ("counterA", JsVal.vnum 5)])],
    nextWid := 2, nextLid := 0, nextTimerId := 1, timers := [],
    trace := [MEv.digestStartEv 0, MEv.passStartEv 12, MEv.watchEvalEv 0 0 (JsVal.vnum 0), MEv.listenerEv 0 0 (JsVal.vnum 0) (JsVal.vnum 0), MEv.watchEvalEv 0 1 (JsVal.vnum 1), MEv.listenerEv 0 1 (JsVal.vnum 1) (JsVal.vnum 1), MEv.passStartEv 11, MEv.watchEvalEv 0 0 (JsVal.vnum 1), MEv.listenerEv 0 0 (JsVal.vnum 1) (JsVal.vnum 0), MEv.watchEvalEv 0 1 (JsVal.vnum 2), MEv.listenerEv 0 1 (JsVal.vnum 2) (JsVal.vnum 1), MEv.passStartEv 10, MEv.watchEvalEv 0 0 (JsVal.vnum 2), MEv.listenerEv 0 0 (JsVal.vnum 2) (JsVal.vnum 1), MEv.watchEvalEv 0 1 (JsVal.vnum 3), MEv.listenerEv 0 1 (JsVal.vnum 3) (JsVal.vnum 2), MEv.passStartEv 9, MEv.watchEvalEv 0 0 (JsVal.vnum 3), MEv.listenerEv 0 0 (JsVal.vnum 3) (JsVal.vnum 2), MEv.watchEvalEv 0 1 (JsVal.vnum 4), MEv.listenerEv 0 1 (JsVal.vnum 4) (JsVal.vnum 3), MEv.passStartEv 8, MEv.watchEvalEv 0 0 (JsVal.vnum 4), MEv.listenerEv 0 0 (JsVal.vnum 4) (JsVal.vnum 3), MEv.watchEvalEv 0 1 (JsVal.vnum 5), MEv.listenerEv 0 1 (JsVal.vnum 5) (JsVal.vnum 4)] }

def c2s6 : SMachine :=
  { scopes := [{ sid := 0, rootId := 0, queueId := 0, watchers := [⟨1, c2wfnB, (c2IncLfn "counterA"), false, some (JsVal.vnum 6)⟩, ⟨0, c2wfnA, (c2IncLfn "counterB"), false, some (JsVal.vnum 5)⟩], children := [], parentId := none, dataProto := none, phase := some "digest", lastDirtyWatch := some 1, applyAsyncId := none, asyncQueue := [], applyAsyncQueue := [], postDigestQueue := [c2posttask], eventListeners := [] }],
    sdata := [(0, [("counterB", JsVal.vnum 6), ("counterA", JsVal.vnum 6)])],
    nextWid := 2, nextLid := 0, nextTimerId := 1, timers := [],
    trace := [MEv.digestStartEv 0, MEv.passStartEv 12, MEv.watchEvalEv 0 0 (JsVal.vnum 0), MEv.listenerEv 0 0 (JsVal.vnum 0) (JsVal.vnum 0), MEv.watchEvalEv 0 1 (JsVal.vnum 1), MEv.listenerEv 0 1 (JsVal.vnum 1) (JsVal.vnum 1), MEv.passStartEv 11, MEv.watchEvalEv 0 0 (JsVal.vnum 1), MEv.listenerEv 0 0 (JsVal.vnum 1) (JsVal.vnum 0), MEv.watchEvalEv 0 1 (JsVal.vnum 2), MEv.listenerEv 0 1 (JsVal.vnum 2) (JsVal.vnum 1), MEv.passStartEv 10, MEv.watchEvalEv 0 0 (JsVal.vnum 2), MEv.listenerEv 0 0 (JsVal.vnum 2) (JsVal.vnum 1), MEv.watchEvalEv 0 1 (JsVal.vnum 3), MEv.listenerEv 0 1 (JsVal.vnum 3) (JsVal.vnum 2), MEv.passStartEv 9, MEv.watchEvalEv 0 0 (JsVal.vnum 3), MEv.listenerEv 0 0 (JsVal.vnum 3) (JsVal.vnum 2), MEv.watchEvalEv 0 1 (JsVal.vnum 4), MEv.listenerEv 0 1 (JsVal.vnum 4) (JsVal.vnum 3), MEv.passStartEv 8, MEv.watchEvalEv 0 0 (JsVal.vnum 4), MEv.listenerEv 0 0 (JsVal.vnum 4) (JsVal.vnum 3), MEv.watchEvalEv 0 1 (JsVal.vnum 5), MEv.listenerEv 0 1 (JsVal.vnum 5) (JsVal.vnum 4), MEv.passStartEv 7, MEv.watchEvalEv 0 0 (JsVal.vnum 5), MEv.listenerEv 0 0 (JsVal.vnum 5) (JsVal.vnum 4), MEv.watchEvalEv 0 1 (JsVal.vnum 6), MEv.listenerEv 0 1 (JsVal.vnum 6) (JsVal.vnum 5)] }

def c2s7 : SMachine :=
  { scopes := [{ sid := 0, rootId := 0, queueId := 0, watchers := [⟨1, c2wfnB, (c2IncLfn "counterA"), false, some (JsVal.vnum 7)⟩, ⟨0, c2wfnA, (c2IncLfn "counterB"), false, some (JsVal.vnum 6)⟩], children := [], parentId := none, dataProto := none, phase := some "digest", lastDirtyWatch := some 1, applyAsyncId := none, asyncQueue := [], applyAsyncQueue := [], postDigestQueue := [c2posttask], eventListeners := [] }],
    sdata := [(0, [("counterB", JsVal.vnum 7), ("counterA", JsVal.vnum 7)])],
    nextWid := 2, nextLid := 0, nextTimerId := 1, timers := [],
    trace := [MEv.digestStartEv 0, MEv.passStartEv 12, MEv.watchEvalEv 0 0 (JsVal.vnum 0), MEv.listenerEv 0 0 (JsVal.vnum 0) (JsVal.vnum 0), MEv.watchEvalEv 0 1 (JsVal.vnum 1), MEv.listenerEv 0 1 (JsVal.vnum 1) (JsVal.vnum 1), MEv.passStartEv 11, MEv.watchEvalEv 0 0 (JsVal.vnum 1), MEv.listenerEv 0 0 (JsVal.vnum 1) (JsVal.vnum 0), MEv.watchEvalEv 0 1 (JsVal.vnum 2), MEv.listenerEv 0 1 (JsVal.vnum 2) (JsVal.vnum 1), MEv.passStartEv 10, MEv.watchEvalEv 0 0 (JsVal.vnum 2), MEv.listenerEv 0 0 (JsVal.vnum 2) (JsVal.vnum 1), MEv.watchEvalEv 0 1 (JsVal.vnum 3), MEv.listenerEv 0 1 (JsVal.vnum 3) (JsVal.vnum 2), MEv.passStartEv 9, MEv.watchEvalEv 0 0 (JsVal.vnum 3), MEv.listenerEv 0 0 (JsVal.vnum 3) (JsVal.vnum 2), MEv.watchEvalEv 0 1 (JsVal.vnum 4), MEv.listenerEv 0 1 (JsVal.vnum 4) (JsVal.vnum 3), MEv.passStartEv 8, MEv.watchEvalEv 0 0 (JsVal.vnum 4), MEv.listenerEv 0 0 (JsVal.vnum 4) (JsVal.vnum 3), MEv.watchEvalEv 0 1 (JsVal.vnum 5), MEv.listenerEv 0 1 (JsVal.vnum 5) (JsVal.vnum 4), MEv.passStartEv 7, MEv.watchEvalEv 0 0 (JsVal.vnum 5), MEv.listenerEv 0 0 (JsVal.vnum 5) (JsVal.vnum 4), MEv.watchEvalEv 0 1 (JsVal.vnum 6), MEv.listenerEv 0 1 (JsVal.vnum 6) (JsVal.vnum 5), MEv.passStartEv 6, MEv.watchEvalEv 0 0 (JsVal.vnum 6), MEv.listenerEv 0 0 (JsVal.vnum 6) (JsVal.vnum 5), MEv.watchEvalEv 0 1 (JsVal.vnum 7), MEv.listenerEv 0 1 (JsVal.vnum 7) (JsVal.vnum 6)] }

def c2s8 : SMachine :=
  { scopes := [{ sid := 0, rootId := 0, queueId := 0, watchers := [⟨1, c2wfnB, (c2IncLfn "counterA"), false, some (JsVal.vnum 8)⟩, ⟨0, c2wfnA, (c2IncLfn "counterB"), false, some (JsVal.vnum 7)⟩], children := [], parentId := none, dataProto := none, phase := some "digest", lastDirtyWatch := some 1, applyAsyncId := none, asyncQueue := [], applyAsyncQueue := [], postDigestQueue := [c2posttask], eventListeners := [] }],
    sdata := [(0, [("counterB", JsVal.vnum 8), ("counterA", JsVal.vnum 8)])],
    nextWid := 2, nextLid := 0, nextTimerId := 1, timers := [],
    trace := [MEv.digestStartEv 0, MEv.passStartEv 12, MEv.watchEvalEv 0 0 (JsVal.vnum 0), MEv.listenerEv 0 0 (JsVal.vnum 0) (JsVal.vnum 0), MEv.watchEvalEv 0 1 (JsVal.vnum 1), MEv.listenerEv 0 1 (JsVal.vnum 1) (JsVal.vnum 1), MEv.passStartEv 11, MEv.watchEvalEv 0 0 (JsVal.vnum 1), MEv.listenerEv 0 0 (JsVal.vnum 1) (JsVal.vnum 0), MEv.watchEvalEv 0 1 (JsVal.vnum 2), MEv.listenerEv 0 1 (JsVal.vnum 2) (JsVal.vnum 1), MEv.passStartEv 10, MEv.watchEvalEv 0 0 (JsVal.vnum 2), MEv.listenerEv 0 0 (JsVal.vnum 2) (JsVal.vnum 1), MEv.watchEvalEv 0 1 (JsVal.vnum 3), MEv.listenerEv 0 1 (JsVal.vnum 3) (JsVal.vnum 2), MEv.passStartEv 9, MEv.watchEvalEv 0 0 (JsVal.vnum 3), MEv.listenerEv 0 0 (JsVal.vnum 3) (JsVal.vnum 2), MEv.watchEvalEv 0 1 (JsVal.vnum 4), MEv.listenerEv 0 1 (JsVal.vnum 4) (JsVal.vnum 3), MEv.passStartEv 8, MEv.watchEvalEv 0 0 (JsVal.vnum 4), MEv.listenerEv 0 0 (JsVal.vnum 4) (JsVal.vnum 3), MEv.watchEvalEv 0 1 (JsVal.vnum 5), MEv.listenerEv 0 1 (JsVal.vnum 5) (JsVal.vnum 4), MEv.passStartEv 7, MEv.watchEvalEv 0 0 (JsVal.vnum 5), MEv.listenerEv 0 0 (JsVal.vnum 5) (JsVal.vnum 4), MEv.watchEvalEv 0 1 (JsVal.vnum 6), MEv.listenerEv 0 1 (JsVal.vnum 6) (JsVal.vnum 5), MEv.passStartEv 6, MEv.watchEvalEv 0 0 (JsVal.vnum 6), MEv.listenerEv 0 0 (JsVal.vnum 6) (JsVal.vnum 5), MEv.watchEvalEv 0 1 (JsVal.vnum 7), MEv.listenerEv 0 1 (JsVal.vnum 7) (JsVal.vnum 6), MEv.passStartEv 5, MEv.watchEvalEv 0 0 (JsVal.vnum 7), MEv.listenerEv 0 0 (JsVal.vnum 7) (JsVal.vnum 6), MEv.watchEvalEv 0 1 (JsVal.vnum 8), MEv.listenerEv 0 1 (JsVal.vnum 8) (JsVal.vnum 7)] }

def c2s9 : SMachine :=
  { scopes := [{ sid := 0, rootId := 0, queueId := 0, watchers := [⟨1, c2wfnB, (c2IncLfn "counterA"), false, some (JsVal.vnum 9)⟩, ⟨0, c2wfnA, (c2IncLfn "counterB"), false, some (JsVal.vnum 8)⟩], children := [], parentId := none, dataProto := none, phase := some "digest", lastDirtyWatch := some 1, applyAsyncId := none, asyncQueue := [], applyAsyncQueue := [], postDigestQueue := [c2posttask], eventListeners := [] }],
    sdata := [(0, [("counterB", JsVal.vnum 9), ("counterA", JsVal.vnum 9)])],
    nextWid := 2, nextLid := 0, nextTimerId := 1, timers := [],
    trace := [MEv.digestStartEv 0, MEv.passStartEv 12, MEv.watchEvalEv 0 0 (JsVal.vnum 0), MEv.listenerEv 0 0 (JsVal.vnum 0) (JsVal.vnum 0), MEv.watchEvalEv 0 1 (JsVal.vnum 1), MEv.listenerEv 0 1 (JsVal.vnum 1) (JsVal.vnum 1), MEv.passStartEv 11, MEv.watchEvalEv 0 0 (JsVal.vnum 1), MEv.listenerEv 0 0 (JsVal.vnum 1) (JsVal.vnum 0), MEv.watchEvalEv 0 1 (JsVal.vnum 2), MEv.listenerEv 0 1 (JsVal.vnum 2) (JsVal.vnum 1), MEv.passStartEv 10, MEv.watchEvalEv 0 0 (JsVal.vnum 2), MEv.listenerEv 0 0 (JsVal.vnum 2) (JsVal.vnum 1), MEv.watchEvalEv 0 1 (JsVal.vnum 3), MEv.listenerEv 0 1 (JsVal.vnum 3) (JsVal.vnum 2), MEv.passStartEv 9, MEv.watchEvalEv 0 0 (JsVal.vnum 3), MEv.listenerEv 0 0 (JsVal.vnum 3) (JsVal.vnum 2), MEv.watchEvalEv 0 1 (JsVal.vnum 4), MEv.listenerEv 0 1 (JsVal.vnum 4) (JsVal.vnum 3), MEv.passStartEv 8, MEv.watchEvalEv 0 0 (JsVal.vnum 4), MEv.listenerEv 0 0 (JsVal.vnum 4) (JsVal.vnum 3), MEv.watchEvalEv 0 1 (JsVal.vnum 5), MEv.listenerEv 0 1 (JsVal.vnum 5) (JsVal.vnum 4), MEv.passStartEv 7, MEv.watchEvalEv 0 0 (JsVal.vnum 5), MEv.listenerEv 0 0 (JsVal.vnum 5) (JsVal.vnum 4), MEv.watchEvalEv 0 1 (JsVal.vnum 6), MEv.listenerEv 0 1 (JsVal.vnum 6) (JsVal.vnum 5), MEv.passStartEv 6, MEv.watchEvalEv 0 0 (JsVal.vnum 6), MEv.listenerEv 0 0 (JsVal.vnum 6) (JsVal.vnum 5), MEv.watchEvalEv 0 1 (JsVal.vnum 7), MEv.listenerEv 0 1 (JsVal.vnum 7) (JsVal.vnum 6), MEv.passStartEv 5, MEv.watchEvalEv 0 0 (JsVal.vnum 7), MEv.listenerEv 0 0 (JsVal.vnum 7) (JsVal.vnum 6), MEv.watchEvalEv 0 1 (JsVal.vnum 8), MEv.listenerEv 0 1 (JsVal.vnum 8) (JsVal.vnum 7), MEv.passStartEv 4, MEv.watchEvalEv 0 0 (JsVal.vnum 8), MEv.listenerEv 0 0 (JsVal.vnum 8) (JsVal.vnum 7), MEv.watchEvalEv 0 1 (JsVal.vnum 9), MEv.listenerEv 0 1 (JsVal.vnum 9) (JsVal.vnum 8)] }

def c2s10 : SMachine :=
  { scopes := [{ sid := 0, rootId := 0, queueId := 0, watchers := [⟨1, c2wfnB, (c2IncLfn "counterA"), false, some (JsVal.vnum 10)⟩, ⟨0, c2wfnA, (c2IncLfn "counterB"), false, some (JsVal.vnum 9)⟩], children := [], parentId := none, dataProto := none, phase := some "digest", lastDirtyWatch := some 1, applyAsyncId := none, asyncQueue := [], applyAsyncQueue := [], postDigestQueue := [c2posttask], eventListeners := [] }],
    sdata := [(0, [("counterB", JsVal.vnum 10), ("counterA", JsVal.vnum 10)])],
    nextWid := 2, nextLid := 0, nextTimerId := 1, timers := [],
    trace := [MEv.digestStartEv 0, MEv.passStartEv 12, MEv.watchEvalEv 0 0 (JsVal.vnum 0), MEv.listenerEv 0 0 (JsVal.vnum 0) (JsVal.vnum 0), MEv.watchEvalEv 0 1 (JsVal.vnum 1), MEv.listenerEv 0 1 (JsVal.vnum 1) (JsVal.vnum 1), MEv.passStartEv 11, MEv.watchEvalEv 0 0 (JsVal.vnum 1), MEv.listenerEv 0 0 (JsVal.vnum 1) (JsVal.vnum 0), MEv.watchEvalEv 0 1 (JsVal.vnum 2), MEv.listenerEv 0 1 (JsVal.vnum 2) (JsVal.vnum 1), MEv.passStartEv 10, MEv.watchEvalEv 0 0 (JsVal.vnum 2), MEv.listenerEv 0 0 (JsVal.vnum 2) (JsVal.vnum 1), MEv.watchEvalEv 0 1 (JsVal.vnum 3), MEv.listenerEv 0 1 (JsVal.vnum 3) (JsVal.vnum 2), MEv.passStartEv 9, MEv.watchEvalEv 0 0 (JsVal.vnum 3), MEv.listenerEv 0 0 (JsVal.vnum 3) (JsVal.vnum 2), MEv.watchEvalEv 0 1 (JsVal.vnum 4), MEv.listenerEv 0 1 (JsVal.vnum 4) (JsVal.vnum 3), MEv.passStartEv 8, MEv.watchEvalEv 0 0 (JsVal.vnum 4), MEv.listenerEv 0 0 (JsVal.vnum 4) (JsVal.vnum 3), MEv.watchEvalEv 0 1 (JsVal.vnum 5), MEv.listenerEv 0 1 (JsVal.vnum 5) (JsVal.vnum 4), MEv.passStartEv 7, MEv.watchEvalEv 0 0 (JsVal.vnum 5), MEv.listenerEv 0 0 (JsVal.vnum 5) (JsVal.vnum 4), MEv.watchEvalEv 0 1 (JsVal.vnum 6), MEv.listenerEv 0 1 (JsVal.vnum 6) (JsVal.vnum 5), MEv.passStartEv 6, MEv.watchEvalEv 0 0 (JsVal.vnum 6), MEv.listenerEv 0 0 (JsVal.vnum 6) (JsVal.vnum 5), MEv.watchEvalEv 0 1 (JsVal.vnum 7), MEv.listenerEv 0 1 (JsVal.vnum 7) (JsVal.vnum 6), MEv.passStartEv 5, MEv.watchEvalEv 0 0 (JsVal.vnum 7), MEv.listenerEv 0 0 (JsVal.vnum 7) (JsVal.vnum 6), MEv.watchEvalEv 0 1 (JsVal.vnum 8), MEv.listenerEv 0 1 (JsVal.vnum 8) (JsVal.vnum 7), MEv.passStartEv 4, MEv.watchEvalEv 0 0 (JsVal.vnum 8), MEv.listenerEv 0 0 (JsVal.vnum 8) (JsVal.vnum 7), MEv.watchEvalEv 0 1 (JsVal.vnum 9), MEv.listenerEv 0 1 (JsVal.vnum 9) (JsVal.vnum 8), MEv.passStartEv 3, MEv.watchEvalEv 0 0 (JsVal.vnum 9), MEv.listenerEv 0 0 (JsVal.vnum 9) (JsVal.vnum 8), MEv.watchEvalEv 0 1 (JsVal.vnum 10), MEv.listenerEv 0 1 (JsVal.vnum 10) (JsVal.vnum 9)] }

def c2s11 : SMachine :=
  { scopes := [{ sid := 0, rootId := 0, queueId := 0, watchers := [⟨1, c2wfnB, (c2IncLfn "counterA"), false, some (JsVal.vnum 11)⟩, ⟨0, c2wfnA, (c2IncLfn "counterB"), false, some (JsVal.vnum 10)⟩], children := [], parentId := none, dataProto := none, phase := some "digest", lastDirtyWatch := some 1, applyAsyncId := none, asyncQueue := [], applyAsyncQueue := [], postDigestQueue := [c2posttask], eventListeners := [] }],
    sdata := [(0, [("counterB", JsVal.vnum 11), ("counterA", JsVal.vnum 11)])],
    nextWid := 2, nextLid := 0, nextTimerId := 1, timers := [],
    trace := [MEv.digestStartEv 0, MEv.passStartEv 12, MEv.watchEvalEv 0 0 (JsVal.vnum 0), MEv.listenerEv 0 0 (JsVal.vnum 0) (JsVal.vnum 0), MEv.watchEvalEv 0 1 (JsVal.vnum 1), MEv.listenerEv 0 1 (JsVal.vnum 1) (JsVal.vnum 1), MEv.passStartEv 11, MEv.watchEvalEv 0 0 (JsVal.vnum 1), MEv.listenerEv 0 0 (JsVal.vnum 1) (JsVal.vnum 0), MEv.watchEvalEv 0 1 (JsVal.vnum 2), MEv.listenerEv 0 1 (JsVal.vnum 2) (JsVal.vnum 1), MEv.passStartEv 10, MEv.watchEvalEv 0 0 (JsVal.vnum 2), MEv.listenerEv 0 0 (JsVal.vnum 2) (JsVal.vnum 1), MEv.watchEvalEv 0 1 (JsVal.vnum 3), MEv.listenerEv 0 1 (JsVal.vnum 3) (JsVal.vnum 2), MEv.passStartEv 9, MEv.watchEvalEv 0 0 (JsVal.vnum 3), MEv.listenerEv 0 0 (JsVal.vnum 3) (JsVal.vnum 2), MEv.watchEvalEv 0 1 (JsVal.vnum 4), MEv.listenerEv 0 1 (JsVal.vnum 4) (JsVal.vnum 3), MEv.passStartEv 8, MEv.watchEvalEv 0 0 (JsVal.vnum 4), MEv.listenerEv 0 0 (JsVal.vnum 4) (JsVal.vnum 3), MEv.watchEvalEv 0 1 (JsVal.vnum 5), MEv.listenerEv 0 1 (JsVal.vnum 5) (JsVal.vnum 4), MEv.passStartEv 7, MEv.watchEvalEv 0 0 (JsVal.vnum 5), MEv.listenerEv 0 0 (JsVal.vnum 5) (JsVal.vnum 4), MEv.watchEvalEv 0 1 (JsVal.vnum 6), MEv.listenerEv 0 1 (JsVal.vnum 6) (JsVal.vnum 5), MEv.passStartEv 6, MEv.watchEvalEv 0 0 (JsVal.vnum 6), MEv.listenerEv 0 0 (JsVal.vnum 6) (JsVal.vnum 5), MEv.watchEvalEv 0 1 (JsVal.vnum 7), MEv.listenerEv 0 1 (JsVal.vnum 7) (JsVal.vnum 6), MEv.passStartEv 5, MEv.watchEvalEv 0 0 (JsVal.vnum 7), MEv.listenerEv 0 0 (JsVal.vnum 7) (JsVal.vnum 6), MEv.watchEvalEv 0 1 (JsVal.vnum 8), MEv.listenerEv 0 1 (JsVal.vnum 8) (JsVal.vnum 7), MEv.passStartEv 4, MEv.watchEvalEv 0 0 (JsVal.vnum 8), MEv.listenerEv 0 0 (JsVal.vnum 8) (JsVal.vnum 7), MEv.watchEvalEv 0 1 (JsVal.vnum 9), MEv.listenerEv 0 1 (JsVal.vnum 9) (JsVal.vnum 8), MEv.passStartEv 3, MEv.watchEvalEv 0 0 (JsVal.vnum 9), MEv.listenerEv 0 0 (JsVal.vnum 9) (JsVal.vnum 8), MEv.watchEvalEv 0 1 (JsVal.vnum 10), MEv.listenerEv 0 1 (JsVal.vnum 10) (JsVal.vnum 9), MEv.passStartEv 2, MEv.watchEvalEv 0 0 (JsVal.vnum 10), MEv.listenerEv 0 0 (JsVal.vnum 10) (JsVal.vnum 9), MEv.watchEvalEv 0 1 (JsVal.vnum 11), MEv.listenerEv 0 1 (JsVal.vnum 11) (JsVal.vnum 10)] }

def c2sFin : SMachine :=
  { scopes := [{ sid := 0, rootId := 0, queueId := 0, watchers := [⟨1, c2wfnB, (c2IncLfn "counterA"), false, some (JsVal.vnum 11)⟩, ⟨0, c2wfnA, (c2IncLfn "counterB"), false, some (JsVal.vnum 10)⟩], children := [], parentId := none, dataProto := none, phase := none, lastDirtyWatch := some 1, applyAsyncId := none, asyncQueue := [], applyAsyncQueue := [], postDigestQueue := [c2posttask], eventListeners := [] }],
    sdata := [(0, [("counterB", JsVal.vnum 11), ("counterA", JsVal.vnum 11)])],
    nextWid := 2, nextLid := 0, nextTimerId := 1, timers := [],
    trace := [MEv.digestStartEv 0, MEv.passStartEv 12, MEv.watchEvalEv 0 0 (JsVal.vnum 0), MEv.listenerEv 0 0 (JsVal.vnum 0) (JsVal.vnum 0), MEv.watchEvalEv 0 1 (JsVal.vnum 1), MEv.listenerEv 0 1 (JsVal.vnum 1) (JsVal.vnum 1), MEv.passStartEv 11, MEv.watchEvalEv 0 0 (JsVal.vnum 1), MEv.listenerEv 0 0 (JsVal.vnum 1) (JsVal.vnum 0), MEv.watchEvalEv 0 1 (JsVal.vnum 2), MEv.listenerEv 0 1 (JsVal.vnum 2) (JsVal.vnum 1), MEv.passStartEv 10, MEv.watchEvalEv 0 0 (JsVal.vnum 2), MEv.listenerEv 0 0 (JsVal.vnum 2) (JsVal.vnum 1), MEv.watchEvalEv 0 1 (JsVal.vnum 3), MEv.listenerEv 0 1 (JsVal.vnum 3) (JsVal.vnum 2), MEv.passStartEv 9, MEv.watchEvalEv 0 0 (JsVal.vnum 3), MEv.listenerEv 0 0 (JsVal.vnum 3) (JsVal.vnum 2), MEv.watchEvalEv 0 1 (JsVal.vnum 4), MEv.listenerEv 0 1 (JsVal.vnum 4) (JsVal.vnum 3), MEv.passStartEv 8, MEv.watchEvalEv 0 0 (JsVal.vnum 4), MEv.listenerEv 0 0 (JsVal.vnum 4) (JsVal.vnum 3), MEv.watchEvalEv 0 1 (JsVal.vnum 5), MEv.listenerEv 0 1 (JsVal.vnum 5) (JsVal.vnum 4), MEv.passStartEv 7, MEv.watchEvalEv 0 0 (JsVal.vnum 5), MEv.listenerEv 0 0 (JsVal.vnum 5) (JsVal.vnum 4), MEv.watchEvalEv 0 1 (JsVal.vnum 6), MEv.listenerEv 0 1 (JsVal.vnum 6) (JsVal.vnum 5), MEv.passStartEv 6, MEv.watchEvalEv 0 0 (JsVal.vnum 6), MEv.listenerEv 0 0 (JsVal.vnum 6) (JsVal.vnum 5), MEv.watchEvalEv 0 1 (JsVal.vnum 7), MEv.listenerEv 0 1 (JsVal.vnum 7) (JsVal.vnum 6), MEv.passStartEv 5, MEv.watchEvalEv 0 0 (JsVal.vnum 7), MEv.listenerEv 0 0 (JsVal.vnum 7) (JsVal.vnum 6), MEv.watchEvalEv 0 1 (JsVal.vnum 8), MEv.listenerEv 0 1 (JsVal.vnum 8) (JsVal.vnum 7), MEv.passStartEv 4, MEv.watchEvalEv 0 0 (JsVal.vnum 8), MEv.listenerEv 0 0 (JsVal.vnum 8) (JsVal.vnum 7), MEv.watchEvalEv 0 1 (JsVal.vnum 9), MEv.listenerEv 0 1 (JsVal.vnum 9) (JsVal.vnum 8), MEv.passStartEv 3, MEv.watchEvalEv 0 0 (JsVal.vnum 9), MEv.listenerEv 0 0 (JsVal.vnum 9) (JsVal.vnum 8), MEv.watchEvalEv 0 1 (JsVal.vnum 10), MEv.listenerEv 0 1 (JsVal.vnum 10) (JsVal.vnum 9), MEv.passStartEv 2, MEv.watchEvalEv 0 0 (JsVal.vnum 10), MEv.listenerEv 0 0 (JsVal.vnum 10) (JsVal.vnum 9), MEv.watchEvalEv 0 1 (JsVal.vnum 11), MEv.listenerEv 0 1 (JsVal.vnum 11) (JsVal.vnum 10)] }


def c9root : ScopeRec := { sid := 0, rootId := 0, queueId := 0, children := [1, 2] }

def c9par : ScopeRec := { sid := 2, rootId := 0, queueId := 0, parentId := some 0, dataProto := some 0 }


/-- The root's pending applyAsync timer id, and the shared applyAsync
queue, as _digest and _applyAsync read them. -/
def applyAsyncIdOf (m : SMachine) (sid : Nat) : Option Nat :=
  (getScopeM m (rootOfM m sid)).bind (fun sc => sc.applyAsyncId)

def applyAsyncQOf (m : SMachine) (sid : Nat) : List STask :=
  match getScopeM m (queueOfM m sid) with
  | some sc => sc.applyAsyncQueue
  | none => []

/-! ## Theorems -/

/-- listHasRun decides contiguous-run containment (JS indexOf). -/
theorem listHasRun_iff_infix {α : Type} [DecidableEq α] (h n : List α) :
    listHasRun h n = true ↔ n <:+: h := by
  induction h with
  | nil =>
    simp [listHasRun, List.isEmpty_iff, List.infix_nil]
  | cons a t ih =>
    simp only [listHasRun, Bool.or_eq_true, List.isPrefixOf_iff_prefix, ih,
      List.infix_cons_iff]

/-- Helper: basicComparator on an undefined item is false by the first
guard of the source. -/
theorem basicComparator_undef (e : JsVal) : basicComparator JsVal.undef e = false := rfl

/-- A value compares boolean-equal to null only when it is null. -/
theorem beq_vnull_eq_false {x : JsVal} (hx : x ≠ JsVal.vnull) : (x == JsVal.vnull) = false := by
  cases x <;> simp_all [jsValBEq, JsVal.beq]

/-- C8: with the comparator omitted the filter filter matches through
basicComparator: an undefined actual never matches; a null actual or
expected matches exactly when both are null; otherwise matching is
case-insensitive substring containment of the expected string in the
actual string; and filtering ['aji','buck','llaji'] by "a" yields
['aji','llaji']. -/
theorem claim_C8_default_comparator :
    (∀ e, basicComparator JsVal.undef e = false) ∧
    (∀ i, basicComparator i JsVal.vnull = JsVal.beq i JsVal.vnull) ∧
    (∀ e, basicComparator JsVal.vnull e = JsVal.beq JsVal.vnull e) ∧
    (∀ i e, i ≠ JsVal.undef → i ≠ JsVal.vnull → e ≠ JsVal.vnull →
      (basicComparator i e = true ↔
        (lowerString (jsToString e)).data <:+: (lowerString (jsToString i)).data)) ∧
    filterFilter 20 [JsVal.vstr "aji", JsVal.vstr "buck", JsVal.vstr "llaji"]
      (FilterExpr.val (JsVal.vstr "a")) CmpArg.omitted
      = [JsVal.vstr "aji", JsVal.vstr "llaji"] := by
  refine ⟨fun e => rfl, ?_, ?_, ?_, by rfl⟩
  · intro i
    cases i <;> rfl
  · intro e
    cases e <;> rfl
  · intro i e hi hnull henull
    have h1 : (e == JsVal.vnull) = false := beq_vnull_eq_false henull
    have h2 : (i == JsVal.vnull) = false := beq_vnull_eq_false hnull
    cases i <;>
      first
        | exact absurd rfl hi
        | simp [basicComparator, h1, h2, listHasRun_iff_infix]

/-- Witness for C8: instantiates the containment clause at the item
'llaji' and the expectation 'A'. -/
theorem claim_C8_witness :
    basicComparator (JsVal.vstr "llaji") (JsVal.vstr "A") = true :=
  (claim_C8_default_comparator.2.2.2.1 (JsVal.vstr "llaji") (JsVal.vstr "A")
    (fun h => JsVal.noConfusion h) (fun h => JsVal.noConfusion h)
    (fun h => JsVal.noConfusion h)).mpr (by decide)

/-! ### Heap evolution lemmas (towards the sandbox-closure theorem) -/

theorem heapEvolves_refl (h : Heap) : heapEvolves h h :=
  ⟨fun _ => rfl, fun _ _ hg _ => hg⟩

theorem heapEvolves_trans {h1 h2 h3 : Heap} (e12 : heapEvolves h1 h2) (e23 : heapEvolves h2 h3) :
    heapEvolves h1 h3 := by
  refine ⟨fun a => (e23.1 a).trans (e12.1 a), fun a o hg hf => ?_⟩
  exact e23.2 a o (e12.2 a o hg hf) hf

theorem objFlagged_false_iff {o : HObj} :
    objFlagged o = false ↔
      o.isWindowO = false ∧ o.isFnCtorO = false ∧ o.isObjCtorO = false ∧ o.isDomO = false := by
  simp [objFlagged]
  tauto

theorem wfHeap_evolves {h h2 : Heap} (wf : wfHeap h) (e : heapEvolves h h2) : wfHeap h2 := by
  intro a o hg
  by_cases hf : objFlagged o = true
  · have hfa2 : flaggedAt h2 a = true := by simp [flaggedAt, hg, hf]
    have hfa1 : flaggedAt h a = true := (e.1 a).symm.trans hfa2
    have : ∃ o1, getObj h a = some o1 ∧ objFlagged o1 = true := by
      revert hfa1
      unfold flaggedAt
      cases hga : getObj h a with
      | none => simp
      | some o1 => intro hx; exact ⟨o1, rfl, hx⟩
    obtain ⟨o1, hg1, hf1⟩ := this
    have : getObj h2 a = some o1 := e.2 a o1 hg1 hf1
    have ho : o = o1 := by
      rw [this] at hg
      exact (Option.some.inj hg).symm
    subst ho
    exact wf a o hg1
  · have hff : objFlagged o = false := by simpa using hf
    obtain ⟨h1, h2', h3, h4⟩ := objFlagged_false_iff.mp hff
    exact ⟨fun hw => absurd hw (by simp [h1]), fun hw => absurd hw (by simp [h2']),
      fun hw => absurd hw (by simp [h3])⟩

theorem safeHVb_evolves {h h2 : Heap} {v : HVal} (hs : safeHVb h v = true)
    (e : heapEvolves h h2) : safeHVb h2 v = true := by
  cases v <;> simp_all [safeHVb]
  next a => rw [e.1 a]; exact hs

theorem getObj_append_lt {h : Heap} {tail : Heap} {a : Nat} (ha : a < h.length) :
    getObj (h ++ tail) a = getObj h a := by
  simp [getObj, List.getElem?_append_left ha]

theorem heapEvolves_alloc {h : Heap} {o : HObj} (ho : objFlagged o = false) :
    heapEvolves h (h ++ [o]) := by
  constructor
  · intro a
    rcases lt_trichotomy a h.length with hlt | heq | hgt
    · simp [flaggedAt, getObj_append_lt hlt]
    · subst heq
      simp [flaggedAt, getObj, List.getElem?_append_right (le_refl _), ho,
        List.getElem?_eq_none (le_refl h.length)]
    · have h1 : getObj (h ++ [o]) a = none := by
        simp [getObj, List.getElem?_eq_none]
        simpa using hgt
      have h2 : getObj h a = none := by
        simp [getObj, List.getElem?_eq_none]
        omega
      simp [flaggedAt, h1, h2]
  · intro a o1 hg _
    have ha : a < h.length := by
      by_contra hge
      simp [getObj, List.getElem?_eq_none (Nat.le_of_not_lt hge)] at hg
    rw [getObj_append_lt ha]
    exact hg

theorem getObj_setField_ne {h : Heap} {a b : Nat} {k : String} {v : HVal} (hne : b ≠ a) :
    getObj (setFieldH h a k v) b = getObj h b := by
  unfold setFieldH
  cases hga : getObj h a with
  | none => rfl
  | some o => simp [getObj, List.getElem?_set_ne (by omega : a ≠ b)]

theorem getObj_setField_self {h : Heap} {a : Nat} {k : String} {v : HVal} {o : HObj}
    (hga : getObj h a = some o) :
    getObj (setFieldH h a k v) a = some { o with fields := fieldsPut o.fields k v } := by
  unfold setFieldH
  rw [hga]
  have ha : a < h.length := by
    by_contra hge
    simp [getObj, List.getElem?_eq_none (Nat.le_of_not_lt hge)] at hga
  simp [getObj, List.getElem?_set_self ha]

theorem heapEvolves_setField {h : Heap} {a : Nat} {k : String} {v : HVal}
    (hflag : flaggedAt h a = false) : heapEvolves h (setFieldH h a k v) := by
  constructor
  · intro b
    by_cases hb : b = a
    · subst hb
      cases hga : getObj h b with
      | none => simp [flaggedAt, setFieldH, hga]
      | some o =>
        have h1 := getObj_setField_self (k := k) (v := v) hga
        simp only [flaggedAt, h1, hga]
        rfl
    · simp only [flaggedAt, getObj_setField_ne hb]
  · intro b o hg hf
    by_cases hb : b = a
    · subst hb
      simp only [flaggedAt, hg] at hflag
      rw [hflag] at hf
      exact absurd hf (by simp)
    · rw [getObj_setField_ne hb]
      exact hg

theorem heapEvolves_write {h h2 : Heap} {target : HVal} {k : String} {v : HVal}
    (hs : safeHVb h target = true) (hw : writeHv h target k v = .ok h2) :
    heapEvolves h h2 := by
  cases target with
  | undef => exact absurd hw (by simp [writeHv])
  | vnull => exact absurd hw (by simp [writeHv])
  | ref a =>
    have hflag : flaggedAt h a = false := by simpa [safeHVb] using hs
    have : h2 = setFieldH h a k v := by
      simpa [writeHv] using hw.symm
    rw [this]
    exact heapEvolves_setField hflag
  | vbool b =>
    have : h2 = h := by simpa [writeHv] using hw.symm
    rw [this]; exact heapEvolves_refl h
  | vnum n =>
    have : h2 = h := by simpa [writeHv] using hw.symm
    rw [this]; exact heapEvolves_refl h
  | vnan =>
    have : h2 = h := by simpa [writeHv] using hw.symm
    rw [this]; exact heapEvolves_refl h
  | vstr s =>
    have : h2 = h := by simpa [writeHv] using hw.symm
    rw [this]; exact heapEvolves_refl h

/-- If a heap is well-formed, every value that passes ensureSafeObject
is outside the ground-truth blacklist: the heuristics subsume the
flags. -/
theorem ensureSafeObjectH_ok_safe {h : Heap} {v : HVal} (wf : wfHeap h)
    (hok : ensureSafeObjectH h v = .ok ()) : safeHVb h v = true := by
  cases v with
  | ref a =>
    simp only [safeHVb, flaggedAt]
    cases hga : getObj h a with
    | none => rfl
    | some o =>
      simp only []
      by_contra hflag
      have hfl : objFlagged o = true := by
        cases hx : objFlagged o
        · simp [hx] at hflag
        · rfl
      obtain ⟨c1, c2, c3⟩ := wf a o hga
      simp only [ensureSafeObjectH, hga] at hok
      have hfl2 : ((o.isWindowO = true ∨ o.isFnCtorO = true) ∨ o.isObjCtorO = true) ∨
          o.isDomO = true := by simpa [objFlagged] using hfl
      rcases hfl2 with h123 | hdom
      · rcases h123 with h12 | hobj
        · rcases h12 with hwin | hfn
          · rw [c1 hwin] at hok
            simp at hok
          · by_cases hw : windowHeuristic o = true
            · rw [hw] at hok; simp at hok
            · rw [Bool.not_eq_true] at hw
              rw [hw, c2 hfn] at hok
              simp at hok
        · by_cases hw : windowHeuristic o = true
          · rw [hw] at hok; simp at hok
          · rw [Bool.not_eq_true] at hw
            by_cases hc : selfCtorHeuristic a o = true
            · rw [hw, hc] at hok; simp at hok
            · rw [Bool.not_eq_true] at hc
              rw [hw, hc, c3 hobj] at hok
              simp at hok
      · by_cases hw : windowHeuristic o = true
        · rw [hw] at hok; simp at hok
        · rw [Bool.not_eq_true] at hw
          by_cases hc : selfCtorHeuristic a o = true
          · rw [hw, hc] at hok; simp at hok
          · rw [Bool.not_eq_true] at hc
            by_cases ho : objCtorHeuristic o = true
            · rw [hw, hc, ho] at hok; simp at hok
            · rw [Bool.not_eq_true] at ho
              rw [hw, hc, ho, hdom] at hok
              simp at hok
  | undef => rfl
  | vnull => rfl
  | vbool b => rfl
  | vnum n => rfl
  | vnan => rfl
  | vstr s => rfl

/-- The create step of a member access only writes through a safe
reference, so the heap evolves. -/
theorem memberCreateStep_evolves {h h2 : Heap} {lv : HVal} {key : String}
    (hs : safeHVb h lv = true) (hstep : memberCreateStep h lv key = .ok h2) :
    heapEvolves h h2 := by
  cases lv with
  | undef => exact absurd hstep (by simp [memberCreateStep])
  | vnull => exact absurd hstep (by simp [memberCreateStep])
  | ref a =>
    simp only [memberCreateStep] at hstep
    by_cases ht : truthyHV (getFieldHv h (HVal.ref a) key) = true
    · rw [if_pos ht] at hstep
      have : h2 = h := by injection hstep with hh; exact hh.symm
      rw [this]; exact heapEvolves_refl h
    · rw [if_neg ht] at hstep
      have e1 : heapEvolves h (h ++ [emptyHObj]) := heapEvolves_alloc (show objFlagged emptyHObj = false from rfl)
      have hs2 : safeHVb (h ++ [emptyHObj]) (HVal.ref a) = true := safeHVb_evolves hs e1
      exact heapEvolves_trans e1 (heapEvolves_write hs2 hstep)
  | vbool b =>
    simp only [memberCreateStep] at hstep
    by_cases ht : truthyHV (getFieldHv h (HVal.vbool b) key) = true
    · rw [if_pos ht] at hstep
      have : h2 = h := by injection hstep with hh; exact hh.symm
      rw [this]; exact heapEvolves_refl h
    · rw [if_neg ht] at hstep
      have e1 : heapEvolves h (h ++ [emptyHObj]) := heapEvolves_alloc (show objFlagged emptyHObj = false from rfl)
      have : h2 = h ++ [emptyHObj] := by simpa [writeHv] using hstep.symm
      rw [this]; exact e1
  | vnum n =>
    simp only [memberCreateStep] at hstep
    by_cases ht : truthyHV (getFieldHv h (HVal.vnum n) key) = true
    · rw [if_pos ht] at hstep
      have : h2 = h := by injection hstep with hh; exact hh.symm
      rw [this]; exact heapEvolves_refl h
    · rw [if_neg ht] at hstep
      have : h2 = h ++ [emptyHObj] := by simpa [writeHv] using hstep.symm
      rw [this]; exact heapEvolves_alloc (show objFlagged emptyHObj = false from rfl)
  | vnan =>
    simp only [memberCreateStep] at hstep
    by_cases ht : truthyHV (getFieldHv h HVal.vnan key) = true
    · rw [if_pos ht] at hstep
      have : h2 = h := by injection hstep with hh; exact hh.symm
      rw [this]; exact heapEvolves_refl h
    · rw [if_neg ht] at hstep
      have : h2 = h ++ [emptyHObj] := by simpa [writeHv] using hstep.symm
      rw [this]; exact heapEvolves_alloc (show objFlagged emptyHObj = false from rfl)
  | vstr str =>
    simp only [memberCreateStep] at hstep
    by_cases ht : truthyHV (getFieldHv h (HVal.vstr str) key) = true
    · rw [if_pos ht] at hstep
      have : h2 = h := by injection hstep with hh; exact hh.symm
      rw [this]; exact heapEvolves_refl h
    · rw [if_neg ht] at hstep
      have : h2 = h ++ [emptyHObj] := by simpa [writeHv] using hstep.symm
      rw [this]; exact heapEvolves_alloc (show objFlagged emptyHObj = false from rfl)

theorem except_bind_ok {ε α β : Type} {x : Except ε α} {f : α → Except ε β} {b : β} :
    (x >>= f) = .ok b ↔ ∃ a, x = .ok a ∧ f a = .ok b := by
  cases x with
  | ok a => simp [Bind.bind, Except.bind]
  | error e => simp [Bind.bind, Except.bind]

theorem except_pure_ok {ε α : Type} {a b : α} :
    (pure a : Except ε α) = .ok b ↔ a = b := by
  simp [pure, Except.pure]

theorem oneRes_ok {r : Heap × List (HVal × Option CtxInfo)} {t : Heap × HVal × Option CtxInfo}
    (h : oneRes r = .ok t) : r = (t.1, [(t.2.1, t.2.2)]) := by
  obtain ⟨hh, lst⟩ := r
  match lst with
  | [] => exact absurd h (by simp [oneRes])
  | [(v, c)] =>
    simp only [oneRes] at h
    cases h
    rfl
  | x :: y :: rest => exact absurd h (by simp [oneRes])

theorem safeHVb_of_not_isRef {h : Heap} {v : HVal} (hv : isRefH v = false) :
    safeHVb h v = true := by
  cases v <;> simp_all [isRefH, safeHVb]

theorem safeHVb_of_not_truthy {h : Heap} {v : HVal} (hv : truthyHV v = false) :
    safeHVb h v = true := by
  cases v <;> simp_all [truthyHV, safeHVb]

theorem safeHVb_litToH (h : Heap) (v : JsVal) : safeHVb h (litToH v) = true := by
  cases v <;> rfl

theorem isRefH_toNumberH (v : HVal) : isRefH (toNumberH v) = false := by
  cases v with
  | vstr str =>
    simp only [toNumberH]
    split
    · rfl
    · split <;> rfl
  | _ => rfl

theorem isRefH_jsUnaryH (op : String) (v : HVal) : isRefH (jsUnaryH op v) = false := by
  unfold jsUnaryH
  split
  · rfl
  · split
    · split <;> rfl
    · exact isRefH_toNumberH v

theorem isRefH_numBinH (f : Int → Int → Int) (a b : HVal) : isRefH (numBinH f a b) = false := by
  unfold numBinH
  split <;> rfl

theorem isRefH_jsAddH (a b : HVal) : isRefH (jsAddH a b) = false := by
  unfold jsAddH
  split
  · rfl
  · exact isRefH_numBinH _ a b

theorem isRefH_jsSubH (a b : HVal) : isRefH (jsSubH a b) = false :=
  isRefH_numBinH _ a b

theorem isRefH_jsCmpH (f : Int → Int → Bool) (g : String → String → Bool) (a b : HVal) :
    isRefH (jsCmpH f g a b) = false := by
  unfold jsCmpH
  split
  · rfl
  · split <;> rfl

theorem isRefH_jsBinaryH (op : String) (a b : HVal) : isRefH (jsBinaryH op a b) = false := by
  unfold jsBinaryH
  by_cases hc0 : (op == "*") = true
  · rw [if_pos hc0]
    exact isRefH_numBinH _ a b
  rw [if_neg hc0]
  by_cases hc1 : (op == "/") = true
  · rw [if_pos hc1]
    split <;> first | rfl | (split <;> rfl)
  rw [if_neg hc1]
  by_cases hc2 : (op == "%") = true
  · rw [if_pos hc2]
    split <;> first | rfl | (split <;> rfl)
  rw [if_neg hc2]
  by_cases hc3 : (op == "===") = true
  · rw [if_pos hc3]
    rfl
  rw [if_neg hc3]
  by_cases hc4 : (op == "!==") = true
  · rw [if_pos hc4]
    rfl
  rw [if_neg hc4]
  by_cases hc5 : (op == "==") = true
  · rw [if_pos hc5]
    rfl
  rw [if_neg hc5]
  by_cases hc6 : (op == "!=") = true
  · rw [if_pos hc6]
    rfl
  rw [if_neg hc6]
  by_cases hc7 : (op == "<") = true
  · rw [if_pos hc7]
    exact isRefH_jsCmpH _ _ a b
  rw [if_neg hc7]
  by_cases hc8 : (op == ">") = true
  · rw [if_pos hc8]
    exact isRefH_jsCmpH _ _ a b
  rw [if_neg hc8]
  by_cases hc9 : (op == "<=") = true
  · rw [if_pos hc9]
    exact isRefH_jsCmpH _ _ a b
  rw [if_neg hc9]
  by_cases hc10 : (op == ">=") = true
  · rw [if_pos hc10]
    exact isRefH_jsCmpH _ _ a b
  rw [if_neg hc10]
  rfl

theorem flaggedAt_append_self (h : Heap) (o : HObj) :
    flaggedAt (h ++ [o]) h.length = objFlagged o := by
  simp [flaggedAt, getObj, List.getElem?_append_right (le_refl h.length)]

theorem getLastD_safe {h : Heap} :
    ∀ (vs : List HVal) (d : HVal), safeHVb h d = true → (∀ v ∈ vs, safeHVb h v = true) →
      safeHVb h (vs.getLastD d) = true := by
  intro vs
  induction vs with
  | nil => intro d hd _; simpa [List.getLastD]
  | cons x xs ihx =>
    intro d _ hall
    rw [List.getLastD_cons]
    exact ihx x (hall x (by simp)) (fun v hv => hall v (by simp [hv]))

theorem resSafe_none {h : Heap} {v : HVal} (hs : safeHVb h v = true) :
    resSafe h (v, none) :=
  ⟨hs, fun _ _ hk => by simp at hk⟩

theorem evalA_safe (env : EvalEnv) (hfil : filtersRefFree env) :
    ∀ fuel nodes h s l create h2 res,
      wfHeap h → safeHVb h s = true → safeHVb h l = true →
      evalA env fuel nodes h s l create = .ok (h2, res) →
      wfHeap h2 ∧ heapEvolves h h2 ∧ ∀ p ∈ res, resSafe h2 p := by
  intro fuel
  induction fuel with
  | zero =>
    intro nodes h s l create h2 res _ _ _ heval
    exact absurd heval (by simp [evalA])
  | succ fuel ih =>
    intro nodes h s l create h2 res wf hs hl heval
    match nodes with
    | [] =>
      simp only [evalA] at heval
      cases heval
      exact ⟨wf, heapEvolves_refl h, by simp⟩
    | ast :: restNodes =>
      simp only [evalA] at heval
      rw [except_bind_ok] at heval
      obtain ⟨⟨hm, vm, cm⟩, hnode, hrest⟩ := heval
      simp only [] at hrest
      rw [except_bind_ok] at hrest
      obtain ⟨⟨hfin, rvals⟩, hrestEval, hpure⟩ := hrest
      simp only [] at hpure
      rw [except_pure_ok] at hpure
      cases hpure
      have hnodeP : wfHeap hm ∧ heapEvolves h hm ∧ resSafe hm (vm, cm) := by
        clear hrestEval
        cases ast with
        | lit v =>
          simp only [] at hnode
          rw [except_pure_ok] at hnode
          cases hnode
          exact ⟨wf, heapEvolves_refl h, resSafe_none (safeHVb_litToH h v)⟩
        | program body =>
          simp only [] at hnode
          split at hnode
          · exact absurd hnode (by simp)
          · rw [except_bind_ok] at hnode
            obtain ⟨⟨hb1, vcs⟩, hbody, hpr⟩ := hnode
            simp only [] at hpr
            rw [except_pure_ok] at hpr
            cases hpr
            obtain ⟨wfb, evb, rsb⟩ := ih body h s l false hm vcs wf hs hl hbody
            refine ⟨wfb, evb, resSafe_none ?_⟩
            apply getLastD_safe
            · rfl
            · intro v hv
              obtain ⟨p, hp, hpv⟩ := List.mem_map.mp hv
              rw [← hpv]
              exact (rsb p hp).1
        | arrayExpr elems =>
          simp only [] at hnode
          rw [except_bind_ok] at hnode
          obtain ⟨⟨hb, vcs⟩, hsub, hnode⟩ := hnode
          simp only [allocH] at hnode
          rw [except_pure_ok] at hnode
          cases hnode
          obtain ⟨wfb, evb, _⟩ := ih elems h s l false hb vcs wf hs hl hsub
          have hunf : objFlagged
              { fields := arrayFields (vcs.map (fun p => p.1)), isArrayO := true } = false := rfl
          have eva := heapEvolves_alloc (h := hb) hunf
          refine ⟨wfHeap_evolves wfb eva, heapEvolves_trans evb eva, resSafe_none ?_⟩
          simp only [safeHVb, flaggedAt_append_self, hunf]
          rfl
        | objectExpr props =>
          simp only [] at hnode
          rw [except_bind_ok] at hnode
          obtain ⟨⟨hb, vcs⟩, hsub, hnode⟩ := hnode
          simp only [allocH] at hnode
          rw [except_pure_ok] at hnode
          cases hnode
          obtain ⟨wfb, evb, _⟩ := ih (props.map (fun p => p.2)) h s l false hb vcs wf hs hl hsub
          have hunf : objFlagged
              { fields := objectFieldsOf (props.map (fun p => propKeyString p.1))
                  (vcs.map (fun p => p.1)) } = false := rfl
          have eva := heapEvolves_alloc (h := hb) hunf
          refine ⟨wfHeap_evolves wfb eva, heapEvolves_trans evb eva, resSafe_none ?_⟩
          simp only [safeHVb, flaggedAt_append_self, hunf]
          rfl
        | filterCall name args =>
          simp only [] at hnode
          rw [except_bind_ok] at hnode
          obtain ⟨⟨hb, vcs⟩, hsub, hnode⟩ := hnode
          simp only [] at hnode
          obtain ⟨wfb, evb, _⟩ := ih args h s l false hb vcs wf hs hl hsub
          cases hfe : env.filters name with
          | none =>
            rw [hfe] at hnode
            exact absurd hnode (by simp)
          | some f =>
            rw [hfe] at hnode
            rw [except_pure_ok] at hnode
            cases hnode
            exact ⟨wfb, evb,
              resSafe_none (safeHVb_of_not_isRef (hfil name f hfe HVal.undef _))⟩
        | ident name =>
          simp only [] at hnode
          split at hnode
          · rw [except_bind_ok] at hnode
            obtain ⟨hcr, hcreate, hnode⟩ := hnode
            rw [except_bind_ok] at hnode
            obtain ⟨u, hcheck, hnode⟩ := hnode
            rw [except_pure_ok] at hnode
            cases hnode
            simp only [allocH] at hcreate
            have e1 : heapEvolves h (h ++ [emptyHObj]) :=
              heapEvolves_alloc (show objFlagged emptyHObj = false from rfl)
            have hw := heapEvolves_write (safeHVb_evolves hs e1) hcreate
            have ec := heapEvolves_trans e1 hw
            have wfc := wfHeap_evolves wf ec
            refine ⟨wfc, ec, ensureSafeObjectH_ok_safe wfc hcheck, ?_⟩
            intro obj2 key hk
            simp at hk
          · rw [except_bind_ok] at hnode
            obtain ⟨hcr, hpure, hnode⟩ := hnode
            rw [except_pure_ok] at hpure
            cases hpure
            rw [except_bind_ok] at hnode
            obtain ⟨u, hcheck, hnode⟩ := hnode
            rw [except_pure_ok] at hnode
            cases hnode
            refine ⟨wf, heapEvolves_refl h, ensureSafeObjectH_ok_safe wf hcheck, ?_⟩
            intro obj2 key hk
            simp at hk
        | memberDot obj name =>
          simp only [] at hnode
          rw [except_bind_ok] at hnode
          obtain ⟨r1, hsub1, hnode⟩ := hnode
          rw [except_bind_ok] at hnode
          obtain ⟨⟨h1, lv, c1⟩, hone1, hnode⟩ := hnode
          simp only [] at hnode
          have hr1 := oneRes_ok hone1
          subst hr1
          obtain ⟨wf1, ev1, rs1⟩ := ih [obj] h s l create h1 [(lv, c1)] wf hs hl hsub1
          have hlv : safeHVb h1 lv = true := (rs1 (lv, c1) (by simp)).1
          split at hnode
          · rw [except_bind_ok] at hnode
            obtain ⟨hcr, hcstep, hnode⟩ := hnode
            have hev2 : heapEvolves h1 hcr := memberCreateStep_evolves hlv hcstep
            have wf2 := wfHeap_evolves wf1 hev2
            have hlv2 := safeHVb_evolves hlv hev2
            split at hnode
            · rw [except_bind_ok] at hnode
              obtain ⟨u, hcheckv, hnode⟩ := hnode
              rw [except_bind_ok] at hnode
              obtain ⟨vv, hvv, hnode⟩ := hnode
              rw [except_pure_ok] at hvv
              cases hvv
              rw [except_pure_ok] at hnode
              cases hnode
              refine ⟨wf2, heapEvolves_trans ev1 hev2, ensureSafeObjectH_ok_safe wf2 hcheckv, ?_⟩
              intro obj2 key hk
              have hk2 := Option.some.inj hk
              injection hk2 with he1 he2
              subst he1
              exact hlv2
            · rw [except_bind_ok] at hnode
              obtain ⟨vv, hvv, hnode⟩ := hnode
              rw [except_pure_ok] at hvv
              cases hvv
              rw [except_pure_ok] at hnode
              cases hnode
              refine ⟨wf2, heapEvolves_trans ev1 hev2, rfl, ?_⟩
              intro obj2 key hk
              have hk2 := Option.some.inj hk
              injection hk2 with he1 he2
              subst he1
              exact hlv2
          · rw [except_bind_ok] at hnode
            obtain ⟨hcr, hpure, hnode⟩ := hnode
            rw [except_pure_ok] at hpure
            cases hpure
            split at hnode
            · rw [except_bind_ok] at hnode
              obtain ⟨u, hcheckv, hnode⟩ := hnode
              rw [except_bind_ok] at hnode
              obtain ⟨vv, hvv, hnode⟩ := hnode
              rw [except_pure_ok] at hvv
              cases hvv
              rw [except_pure_ok] at hnode
              cases hnode
              refine ⟨wf1, ev1, ensureSafeObjectH_ok_safe wf1 hcheckv, ?_⟩
              intro obj2 key hk
              have hk2 := Option.some.inj hk
              injection hk2 with he1 he2
              subst he1
              exact hlv
            · rw [except_bind_ok] at hnode
              obtain ⟨vv, hvv, hnode⟩ := hnode
              rw [except_pure_ok] at hvv
              cases hvv
              rw [except_pure_ok] at hnode
              cases hnode
              refine ⟨wf1, ev1, rfl, ?_⟩
              intro obj2 key hk
              have hk2 := Option.some.inj hk
              injection hk2 with he1 he2
              subst he1
              exact hlv
        | memberBracket obj prop =>
          simp only [] at hnode
          rw [except_bind_ok] at hnode
          obtain ⟨r1, hsub1, hnode⟩ := hnode
          rw [except_bind_ok] at hnode
          obtain ⟨⟨h1, lv, c1⟩, hone1, hnode⟩ := hnode
          simp only [] at hnode
          have hr1 := oneRes_ok hone1
          subst hr1
          obtain ⟨wf1, ev1, rs1⟩ := ih [obj] h s l create h1 [(lv, c1)] wf hs hl hsub1
          have hlv : safeHVb h1 lv = true := (rs1 (lv, c1) (by simp)).1
          rw [except_bind_ok] at hnode
          obtain ⟨r2, hsub2, hnode⟩ := hnode
          rw [except_bind_ok] at hnode
          obtain ⟨⟨h2x, rv, c2⟩, hone2, hnode⟩ := hnode
          simp only [] at hnode
          have hr2 := oneRes_ok hone2
          subst hr2
          obtain ⟨wf2x, ev2x, _⟩ := ih [prop] h1 s l false h2x [(rv, c2)] wf1
            (safeHVb_evolves hs ev1) (safeHVb_evolves hl ev1) hsub2
          have hlvx := safeHVb_evolves hlv ev2x
          have evbase := heapEvolves_trans ev1 ev2x
          rw [except_bind_ok] at hnode
          obtain ⟨u1, hnamecheck, hnode⟩ := hnode
          split at hnode
          · rw [except_bind_ok] at hnode
            obtain ⟨hcr, hcstep, hnode⟩ := hnode
            have hev2 : heapEvolves h2x hcr := memberCreateStep_evolves hlvx hcstep
            have wf3 := wfHeap_evolves wf2x hev2
            have hlv3 := safeHVb_evolves hlvx hev2
            split at hnode
            · rw [except_bind_ok] at hnode
              obtain ⟨u, hcheckv, hnode⟩ := hnode
              rw [except_bind_ok] at hnode
              obtain ⟨vv, hvv, hnode⟩ := hnode
              rw [except_pure_ok] at hvv
              cases hvv
              rw [except_pure_ok] at hnode
              cases hnode
              refine ⟨wf3, heapEvolves_trans evbase hev2, ensureSafeObjectH_ok_safe wf3 hcheckv, ?_⟩
              intro obj2 key hk
              have hk2 := Option.some.inj hk
              injection hk2 with he1 he2
              subst he1
              exact hlv3
            · rw [except_bind_ok] at hnode
              obtain ⟨vv, hvv, hnode⟩ := hnode
              rw [except_pure_ok] at hvv
              cases hvv
              rw [except_pure_ok] at hnode
              cases hnode
              refine ⟨wf3, heapEvolves_trans evbase hev2, rfl, ?_⟩
              intro obj2 key hk
              have hk2 := Option.some.inj hk
              injection hk2 with he1 he2
              subst he1
              exact hlv3
          · rw [except_bind_ok] at hnode
            obtain ⟨hcr, hpure, hnode⟩ := hnode
            rw [except_pure_ok] at hpure
            cases hpure
            split at hnode
            · rw [except_bind_ok] at hnode
              obtain ⟨u, hcheckv, hnode⟩ := hnode
              rw [except_bind_ok] at hnode
              obtain ⟨vv, hvv, hnode⟩ := hnode
              rw [except_pure_ok] at hvv
              cases hvv
              rw [except_pure_ok] at hnode
              cases hnode
              refine ⟨wf2x, evbase, ensureSafeObjectH_ok_safe wf2x hcheckv, ?_⟩
              intro obj2 key hk
              have hk2 := Option.some.inj hk
              injection hk2 with he1 he2
              subst he1
              exact hlvx
            · rw [except_bind_ok] at hnode
              obtain ⟨vv, hvv, hnode⟩ := hnode
              rw [except_pure_ok] at hvv
              cases hvv
              rw [except_pure_ok] at hnode
              cases hnode
              refine ⟨wf2x, evbase, rfl, ?_⟩
              intro obj2 key hk
              have hk2 := Option.some.inj hk
              injection hk2 with he1 he2
              subst he1
              exact hlvx
        | thisExpr =>
          simp only [] at hnode
          rw [except_pure_ok] at hnode
          cases hnode
          exact ⟨wf, heapEvolves_refl h, resSafe_none hs⟩
        | call callee args =>
          simp only [] at hnode
          rw [except_bind_ok] at hnode
          obtain ⟨r1, hsub1, hnode⟩ := hnode
          rw [except_bind_ok] at hnode
          obtain ⟨⟨h1, cv, c1⟩, hone1, hnode⟩ := hnode
          simp only [] at hnode
          have hr1 := oneRes_ok hone1
          subst hr1
          obtain ⟨wf1, ev1, rs1⟩ := ih [callee] h s l false h1 [(cv, c1)] wf hs hl hsub1
          rw [except_bind_ok] at hnode
          obtain ⟨⟨h2x, argvcs⟩, hsub2, hnode⟩ := hnode
          simp only [] at hnode
          obtain ⟨wf2x, ev2x, _⟩ := ih args h1 s l false h2x argvcs wf1
            (safeHVb_evolves hs ev1) (safeHVb_evolves hl ev1) hsub2
          have evbase := heapEvolves_trans ev1 ev2x
          cases c1 with
          | none =>
            simp only [] at hnode
            rw [except_bind_ok] at hnode
            obtain ⟨u1, hfn, hnode⟩ := hnode
            split at hnode
            · rw [except_bind_ok] at hnode
              obtain ⟨u3, hargs, hnode⟩ := hnode
              rw [except_bind_ok] at hnode
              obtain ⟨rv, hcall, hnode⟩ := hnode
              rw [except_bind_ok] at hnode
              obtain ⟨u4, hrv, hnode⟩ := hnode
              rw [except_pure_ok] at hnode
              cases hnode
              exact ⟨wf2x, evbase, resSafe_none (ensureSafeObjectH_ok_safe wf2x hrv)⟩
            · rw [except_pure_ok] at hnode
              cases hnode
              next hnt =>
              exact ⟨wf2x, evbase,
                resSafe_none (safeHVb_of_not_truthy (eq_false_of_ne_true hnt))⟩
          | some ci =>
            cases ci with
            | idCtx name =>
              simp only [] at hnode
              rw [except_bind_ok] at hnode
              obtain ⟨u1, hrecv, hnode⟩ := hnode
              rw [except_bind_ok] at hnode
              obtain ⟨u2, hfn, hnode⟩ := hnode
              generalize (if hasOwnHv h2x l name = true then l else s) = recv at hnode
              split at hnode
              · rw [except_bind_ok] at hnode
                obtain ⟨u3, hargs, hnode⟩ := hnode
                rw [except_bind_ok] at hnode
                obtain ⟨rv, hcall, hnode⟩ := hnode
                rw [except_bind_ok] at hnode
                obtain ⟨u4, hrv, hnode⟩ := hnode
                rw [except_pure_ok] at hnode
                cases hnode
                exact ⟨wf2x, evbase, resSafe_none (ensureSafeObjectH_ok_safe wf2x hrv)⟩
              · rw [except_pure_ok] at hnode
                cases hnode
                next hnt =>
                exact ⟨wf2x, evbase,
                  resSafe_none (safeHVb_of_not_truthy (eq_false_of_ne_true hnt))⟩
            | memCtx obj key =>
              simp only [] at hnode
              rw [except_bind_ok] at hnode
              obtain ⟨u1, hrecv, hnode⟩ := hnode
              cases obj with
              | undef =>
                simp only [] at hnode
                rw [except_bind_ok] at hnode
                obtain ⟨y, hy, _⟩ := hnode
                exact absurd hy (by simp)
              | vnull =>
                simp only [] at hnode
                rw [except_bind_ok] at hnode
                obtain ⟨y, hy, _⟩ := hnode
                exact absurd hy (by simp)
              | vbool b =>
                simp only [] at hnode
                rw [except_bind_ok] at hnode
                obtain ⟨cva, hcva, hnode⟩ := hnode
                rw [except_pure_ok] at hcva
                cases hcva
                rw [except_bind_ok] at hnode
                obtain ⟨u2, hfn, hnode⟩ := hnode
                split at hnode
                · rw [except_bind_ok] at hnode
                  obtain ⟨u3, hargs, hnode⟩ := hnode
                  rw [except_bind_ok] at hnode
                  obtain ⟨rv, hcall, hnode⟩ := hnode
                  rw [except_bind_ok] at hnode
                  obtain ⟨u4, hrv, hnode⟩ := hnode
                  rw [except_pure_ok] at hnode
                  cases hnode
                  exact ⟨wf2x, evbase, resSafe_none (ensureSafeObjectH_ok_safe wf2x hrv)⟩
                · rw [except_pure_ok] at hnode
                  cases hnode
                  next hnt =>
                  exact ⟨wf2x, evbase,
                    resSafe_none (safeHVb_of_not_truthy (eq_false_of_ne_true hnt))⟩
              | vnum n =>
                simp only [] at hnode
                rw [except_bind_ok] at hnode
                obtain ⟨cva, hcva, hnode⟩ := hnode
                rw [except_pure_ok] at hcva
                cases hcva
                rw [except_bind_ok] at hnode
                obtain ⟨u2, hfn, hnode⟩ := hnode
                split at hnode
                · rw [except_bind_ok] at hnode
                  obtain ⟨u3, hargs, hnode⟩ := hnode
                  rw [except_bind_ok] at hnode
                  obtain ⟨rv, hcall, hnode⟩ := hnode
                  rw [except_bind_ok] at hnode
                  obtain ⟨u4, hrv, hnode⟩ := hnode
                  rw [except_pure_ok] at hnode
                  cases hnode
                  exact ⟨wf2x, evbase, resSafe_none (ensureSafeObjectH_ok_safe wf2x hrv)⟩
                · rw [except_pure_ok] at hnode
                  cases hnode
                  next hnt =>
                  exact ⟨wf2x, evbase,
                    resSafe_none (safeHVb_of_not_truthy (eq_false_of_ne_true hnt))⟩
              | vnan =>
                simp only [] at hnode
                rw [except_bind_ok] at hnode
                obtain ⟨cva, hcva, hnode⟩ := hnode
                rw [except_pure_ok] at hcva
                cases hcva
                rw [except_bind_ok] at hnode
                obtain ⟨u2, hfn, hnode⟩ := hnode
                split at hnode
                · rw [except_bind_ok] at hnode
                  obtain ⟨u3, hargs, hnode⟩ := hnode
                  rw [except_bind_ok] at hnode
                  obtain ⟨rv, hcall, hnode⟩ := hnode
                  rw [except_bind_ok] at hnode
                  obtain ⟨u4, hrv, hnode⟩ := hnode
                  rw [except_pure_ok] at hnode
                  cases hnode
                  exact ⟨wf2x, evbase, resSafe_none (ensureSafeObjectH_ok_safe wf2x hrv)⟩
                · rw [except_pure_ok] at hnode
                  cases hnode
                  next hnt =>
                  exact ⟨wf2x, evbase,
                    resSafe_none (safeHVb_of_not_truthy (eq_false_of_ne_true hnt))⟩
              | vstr str =>
                simp only [] at hnode
                rw [except_bind_ok] at hnode
                obtain ⟨cva, hcva, hnode⟩ := hnode
                rw [except_pure_ok] at hcva
                cases hcva
                rw [except_bind_ok] at hnode
                obtain ⟨u2, hfn, hnode⟩ := hnode
                split at hnode
                · rw [except_bind_ok] at hnode
                  obtain ⟨u3, hargs, hnode⟩ := hnode
                  rw [except_bind_ok] at hnode
                  obtain ⟨rv, hcall, hnode⟩ := hnode
                  rw [except_bind_ok] at hnode
                  obtain ⟨u4, hrv, hnode⟩ := hnode
                  rw [except_pure_ok] at hnode
                  cases hnode
                  exact ⟨wf2x, evbase, resSafe_none (ensureSafeObjectH_ok_safe wf2x hrv)⟩
                · rw [except_pure_ok] at hnode
                  cases hnode
                  next hnt =>
                  exact ⟨wf2x, evbase,
                    resSafe_none (safeHVb_of_not_truthy (eq_false_of_ne_true hnt))⟩
              | ref a =>
                simp only [] at hnode
                rw [except_bind_ok] at hnode
                obtain ⟨cva, hcva, hnode⟩ := hnode
                rw [except_pure_ok] at hcva
                cases hcva
                rw [except_bind_ok] at hnode
                obtain ⟨u2, hfn, hnode⟩ := hnode
                split at hnode
                · rw [except_bind_ok] at hnode
                  obtain ⟨u3, hargs, hnode⟩ := hnode
                  rw [except_bind_ok] at hnode
                  obtain ⟨rv, hcall, hnode⟩ := hnode
                  rw [except_bind_ok] at hnode
                  obtain ⟨u4, hrv, hnode⟩ := hnode
                  rw [except_pure_ok] at hnode
                  cases hnode
                  exact ⟨wf2x, evbase, resSafe_none (ensureSafeObjectH_ok_safe wf2x hrv)⟩
                · rw [except_pure_ok] at hnode
                  cases hnode
                  next hnt =>
                  exact ⟨wf2x, evbase,
                    resSafe_none (safeHVb_of_not_truthy (eq_false_of_ne_true hnt))⟩
        | assign left right =>
          simp only [] at hnode
          rw [except_bind_ok] at hnode
          obtain ⟨r1, hsub1, hnode⟩ := hnode
          rw [except_bind_ok] at hnode
          obtain ⟨⟨h1, lv, c1⟩, hone1, hnode⟩ := hnode
          simp only [] at hnode
          have hr1 := oneRes_ok hone1
          subst hr1
          obtain ⟨wf1, ev1, rs1⟩ := ih [left] h s l true h1 [(lv, c1)] wf hs hl hsub1
          cases c1 with
          | none =>
            simp only [] at hnode
            exact absurd hnode (by simp)
          | some ctx =>
            simp only [] at hnode
            rw [except_bind_ok] at hnode
            obtain ⟨r2, hsub2, hnode⟩ := hnode
            rw [except_bind_ok] at hnode
            obtain ⟨⟨h2x, rv, c2⟩, hone2, hnode⟩ := hnode
            simp only [] at hnode
            have hr2 := oneRes_ok hone2
            subst hr2
            obtain ⟨wf2x, ev2x, _⟩ := ih [right] h1 s l false h2x [(rv, c2)] wf1
              (safeHVb_evolves hs ev1) (safeHVb_evolves hl ev1) hsub2
            have evbase := heapEvolves_trans ev1 ev2x
            rw [except_bind_ok] at hnode
            obtain ⟨u1, hcheck, hnode⟩ := hnode
            have hrvsafe : safeHVb h2x rv = true := ensureSafeObjectH_ok_safe wf2x hcheck
            cases ctx with
            | idCtx name =>
              simp only [] at hnode
              rw [except_bind_ok] at hnode
              obtain ⟨hw, hwrite, hnode⟩ := hnode
              rw [except_pure_ok] at hnode
              cases hnode
              have htgt : safeHVb h2x (if hasOwnHv h2x l name = true then l else s) = true := by
                split
                · exact safeHVb_evolves hl evbase
                · exact safeHVb_evolves hs evbase
              have evw := heapEvolves_write htgt hwrite
              exact ⟨wfHeap_evolves wf2x evw, heapEvolves_trans evbase evw,
                resSafe_none (safeHVb_evolves hrvsafe evw)⟩
            | memCtx obj key =>
              simp only [] at hnode
              rw [except_bind_ok] at hnode
              obtain ⟨hw, hwrite, hnode⟩ := hnode
              rw [except_pure_ok] at hnode
              cases hnode
              have hobj : safeHVb h1 obj = true :=
                (rs1 (lv, some (CtxInfo.memCtx obj key)) (by simp)).2 obj key rfl
              have evw := heapEvolves_write (safeHVb_evolves hobj ev2x) hwrite
              exact ⟨wfHeap_evolves wf2x evw, heapEvolves_trans evbase evw,
                resSafe_none (safeHVb_evolves hrvsafe evw)⟩
        | unary op arg =>
          simp only [] at hnode
          rw [except_bind_ok] at hnode
          obtain ⟨r1, ha1, hnode⟩ := hnode
          rw [except_bind_ok] at hnode
          obtain ⟨⟨ha, av, ac⟩, hone, hnode⟩ := hnode
          simp only [] at hnode
          rw [except_pure_ok] at hnode
          cases hnode
          have hr1 := oneRes_ok hone
          subst hr1
          obtain ⟨wfa, eva, _⟩ := ih [arg] h s l false hm [(av, ac)] wf hs hl ha1
          exact ⟨wfa, eva, resSafe_none (safeHVb_of_not_isRef (isRefH_jsUnaryH op _))⟩
        | binary op left right =>
          simp only [] at hnode
          rw [except_bind_ok] at hnode
          obtain ⟨r1, hsub1, hnode⟩ := hnode
          rw [except_bind_ok] at hnode
          obtain ⟨⟨h1, v1, c1⟩, hone1, hnode⟩ := hnode
          simp only [] at hnode
          have hr1 := oneRes_ok hone1
          subst hr1
          rw [except_bind_ok] at hnode
          obtain ⟨r2, hsub2, hnode⟩ := hnode
          rw [except_bind_ok] at hnode
          obtain ⟨⟨h2x, v2, c2⟩, hone2, hnode⟩ := hnode
          simp only [] at hnode
          have hr2 := oneRes_ok hone2
          subst hr2
          obtain ⟨wf1, ev1, _⟩ := ih [left] h s l false h1 [(v1, c1)] wf hs hl hsub1
          obtain ⟨wf2, ev2, _⟩ := ih [right] h1 s l false h2x [(v2, c2)] wf1
            (safeHVb_evolves hs ev1) (safeHVb_evolves hl ev1) hsub2
          have evc := heapEvolves_trans ev1 ev2
          by_cases hop1 : (op == "+") = true
          · rw [if_pos hop1] at hnode
            rw [except_pure_ok] at hnode
            cases hnode
            exact ⟨wf2, evc, resSafe_none (safeHVb_of_not_isRef (isRefH_jsAddH _ _))⟩
          · rw [if_neg hop1] at hnode
            by_cases hop2 : (op == "-") = true
            · rw [if_pos hop2] at hnode
              rw [except_pure_ok] at hnode
              cases hnode
              exact ⟨wf2, evc, resSafe_none (safeHVb_of_not_isRef (isRefH_jsSubH _ _))⟩
            · rw [if_neg hop2] at hnode
              rw [except_pure_ok] at hnode
              cases hnode
              exact ⟨wf2, evc, resSafe_none (safeHVb_of_not_isRef (isRefH_jsBinaryH op _ _))⟩
        | logical op left right =>
          simp only [] at hnode
          rw [except_bind_ok] at hnode
          obtain ⟨r1, hsub1, hnode⟩ := hnode
          rw [except_bind_ok] at hnode
          obtain ⟨⟨h1, v1, c1⟩, hone1, hnode⟩ := hnode
          simp only [] at hnode
          have hr1 := oneRes_ok hone1
          subst hr1
          rw [except_bind_ok] at hnode
          obtain ⟨r2, hsub2, hnode⟩ := hnode
          rw [except_bind_ok] at hnode
          obtain ⟨⟨h2x, v2, c2⟩, hone2, hnode⟩ := hnode
          simp only [] at hnode
          have hr2 := oneRes_ok hone2
          subst hr2
          obtain ⟨wf1, ev1, rs1⟩ := ih [left] h s l false h1 [(v1, c1)] wf hs hl hsub1
          obtain ⟨wf2, ev2, rs2⟩ := ih [right] h1 s l false h2x [(v2, c2)] wf1
            (safeHVb_evolves hs ev1) (safeHVb_evolves hl ev1) hsub2
          have evc := heapEvolves_trans ev1 ev2
          have hv1 : safeHVb h2x v1 = true :=
            safeHVb_evolves (rs1 (v1, c1) (by simp)).1 ev2
          have hv2 : safeHVb h2x v2 = true := (rs2 (v2, c2) (by simp)).1
          by_cases hop : (op == "&&") = true
          · rw [if_pos hop] at hnode
            rw [except_pure_ok] at hnode
            cases hnode
            refine ⟨wf2, evc, resSafe_none ?_⟩
            by_cases ht : truthyHV v1 = true
            · rw [if_pos ht]; exact hv2
            · rw [if_neg ht]; exact hv1
          · rw [if_neg hop] at hnode
            rw [except_pure_ok] at hnode
            cases hnode
            refine ⟨wf2, evc, resSafe_none ?_⟩
            by_cases ht : truthyHV v1 = true
            · rw [if_pos ht]; exact hv1
            · rw [if_neg ht]; exact hv2
        | cond t c a =>
          simp only [] at hnode
          rw [except_bind_ok] at hnode
          obtain ⟨r1, hsub1, hnode⟩ := hnode
          rw [except_bind_ok] at hnode
          obtain ⟨⟨h1, v1, c1⟩, hone1, hnode⟩ := hnode
          simp only [] at hnode
          have hr1 := oneRes_ok hone1
          subst hr1
          rw [except_bind_ok] at hnode
          obtain ⟨r2, hsub2, hnode⟩ := hnode
          rw [except_bind_ok] at hnode
          obtain ⟨⟨h2x, v2, c2⟩, hone2, hnode⟩ := hnode
          simp only [] at hnode
          have hr2 := oneRes_ok hone2
          subst hr2
          rw [except_bind_ok] at hnode
          obtain ⟨r3, hsub3, hnode⟩ := hnode
          rw [except_bind_ok] at hnode
          obtain ⟨⟨h3x, v3, c3⟩, hone3, hnode⟩ := hnode
          simp only [] at hnode
          have hr3 := oneRes_ok hone3
          subst hr3
          rw [except_pure_ok] at hnode
          cases hnode
          obtain ⟨wf1, ev1, rs1⟩ := ih [t] h s l false h1 [(v1, c1)] wf hs hl hsub1
          obtain ⟨wf2, ev2, rs2⟩ := ih [c] h1 s l false h2x [(v2, c2)] wf1
            (safeHVb_evolves hs ev1) (safeHVb_evolves hl ev1) hsub2
          obtain ⟨wf3, ev3, rs3⟩ := ih [a] h2x s l false hm [(v3, c3)] wf2
            (safeHVb_evolves (safeHVb_evolves hs ev1) ev2)
            (safeHVb_evolves (safeHVb_evolves hl ev1) ev2) hsub3
          have evc := heapEvolves_trans (heapEvolves_trans ev1 ev2) ev3
          have hv2 : safeHVb hm v2 = true :=
            safeHVb_evolves (rs2 (v2, c2) (by simp)).1 ev3
          have hv3 : safeHVb hm v3 = true := (rs3 (v3, c3) (by simp)).1
          refine ⟨wf3, evc, resSafe_none ?_⟩
          by_cases ht : truthyHV v1 = true
          · rw [if_pos ht]; exact hv2
          · rw [if_neg ht]; exact hv3
      obtain ⟨wfm, evm, rsm⟩ := hnodeP
      obtain ⟨wff, evf, rsf⟩ := ih restNodes hm s l create h2 rvals wfm
        (safeHVb_evolves hs evm) (safeHVb_evolves hl evm) hrestEval
      refine ⟨wff, heapEvolves_trans evm evf, ?_⟩
      intro p hp
      rcases List.mem_cons.mp hp with hp1 | hp2
      · subst hp1
        exact ⟨safeHVb_evolves rsm.1 evf, fun obj key hk => safeHVb_evolves (rsm.2 obj key hk) evf⟩
      · exact rsf p hp2

theorem wfHeap_of_unflagged {h : Heap}
    (hall : ∀ o ∈ h, o.isWindowO = false ∧ o.isFnCtorO = false ∧ o.isObjCtorO = false) :
    wfHeap h := by
  intro a o hg
  have hmem : o ∈ h := by
    have : h.get? a = some o := hg
    exact List.get?_mem this
  obtain ⟨w, f, ob⟩ := hall o hmem
  exact ⟨fun hw => absurd hw (by simp [w]), fun hw => absurd hw (by simp [f]),
    fun hw => absurd hw (by simp [ob])⟩

/-- C1, counterexample to the claim as stated: the sandbox never blocks
MERE RETURNS of call/apply/bind (only invoking them through
ensureSafeFunction is blocked), so the accessor for the
parser-accepted expression fn.call, applied to a well-formed heap
whose scope (address 0) is safe and owns a plain function fn, runs
without error and returns address 2 — which is
Function.prototype.call (isCABO ground truth). -/
theorem claim_C1_counterexample :
    parseAndRun envNoFilters 300 "fn.call" cexHeap (HVal.ref 0) HVal.undef
      = .ok (cexHeap, HVal.ref 2) ∧
    (getObj cexHeap 2).map (fun o => o.isCABO) = some true ∧
    wfHeap cexHeap ∧
    safeHVb cexHeap (HVal.ref 0) = true ∧
    safeHVb cexHeap HVal.undef = true ∧
    filtersRefFree envNoFilters := by
  refine ⟨by rfl, by rfl, ?_, by rfl, rfl, ?_⟩
  · apply wfHeap_of_unflagged
    intro o ho
    simp only [cexHeap, List.mem_cons, List.not_mem_nil, or_false] at ho
    rcases ho with rfl | rfl | rfl <;> exact ⟨rfl, rfl, rfl⟩
  · intro name f hf
    simp [envNoFilters] at hf

theorem evalA_nil_ok {env : EvalEnv} {fuel : Nat} {h : Heap} {s l : HVal} {create : Bool}
    {h2 : Heap} {res : List (HVal × Option CtxInfo)}
    (he : evalA env fuel [] h s l create = .ok (h2, res)) : h2 = h ∧ res = [] := by
  cases fuel with
  | zero => exact absurd he (by simp [evalA])
  | succ fuel =>
    simp only [evalA] at he
    cases he
    exact ⟨rfl, rfl⟩

/-- C1 (amended): for every expression string accepted by the parser,
running the compiled accessor on a well-formed heap with a safe scope
value, a safe locals value and a registry of reference-free filters
either raises an error or returns a value that is not the host global,
not the Function or Object constructor and not a DOM node; and the
claim's concrete case holds: compiling
fn.constructor("return window;")() raises the SecurityError for the
disallowed member name at compile time, before anything is invoked. -/
theorem claim_C1_amended_sandbox :
    (∀ (env : EvalEnv) (fuel : Nat) (src : String) (h : Heap) (s l : HVal)
        (h2 : Heap) (v : HVal),
        filtersRefFree env → wfHeap h → safeHVb h s = true → safeHVb h l = true →
        parseAndRun env fuel src h s l = .ok (h2, v) →
        safeHVb h2 v = true) ∧
    parseCompile 300 "fn.constructor(\"return window;\")()"
      = .error (.securityErr "Attempting to access a disallowed field") := by
  constructor
  · intro env fuel src h s l h2 v hfil wf hs hl hrun
    unfold parseAndRun at hrun
    cases hpc : parseCompile fuel src with
    | error e =>
      rw [hpc] at hrun
      exact absurd hrun (by simp)
    | ok ast =>
      rw [hpc] at hrun
      simp only [] at hrun
      cases hev : evalOne env fuel ast h s l false with
      | error e =>
        rw [hev] at hrun
        exact absurd hrun (by simp)
      | ok t =>
        rw [hev] at hrun
        obtain ⟨hh, vv, cc⟩ := t
        have hpair : (hh, vv) = (h2, v) := by
          simpa using hrun
        have hh2 : hh = h2 := congrArg Prod.fst hpair
        have hvv : vv = v := congrArg Prod.snd hpair
        subst hh2
        subst hvv
        unfold evalOne at hev
        cases hea : evalA env fuel [ast] h s l false with
        | error e =>
          rw [hea] at hev
          exact absurd hev (by simp)
        | ok r =>
          rw [hea] at hev
          have hr := oneRes_ok hev
          subst hr
          obtain ⟨_, _, rsafe⟩ :=
            evalA_safe env hfil fuel [ast] h s l false hh [(vv, cc)] wf hs hl hea
          exact (rsafe (vv, cc) (by simp)).1
  · rfl

/-- Witness for the amended C1: the accessor for 1 + 2 on the safe
counterexample heap returns the (safe) number 3. -/
theorem claim_C1_amended_sandbox_witness :
    safeHVb cexHeap (HVal.vnum 3) = true := by
  refine claim_C1_amended_sandbox.1 envNoFilters 300 "1 + 2" cexHeap (HVal.ref 0) HVal.undef
    cexHeap (HVal.vnum 3) claim_C1_counterexample.2.2.2.2.2
    claim_C1_counterexample.2.2.1 claim_C1_counterexample.2.2.2.1 rfl (by rfl)

theorem fieldsPut_lookup_self (fs : List (String × HVal)) (k : String) (v : HVal) :
    (fieldsPut fs k v).lookup k = some v := by
  induction fs with
  | nil => simp [fieldsPut, List.lookup]
  | cons p rest ihp =>
    obtain ⟨k0, v0⟩ := p
    by_cases hk : (k0 == k) = true
    · simp [fieldsPut, hk, List.lookup]
    · have hkf : (k0 == k) = false := eq_false_of_ne_true hk
      have hk2 : (k == k0) = false := by
        cases hx : k == k0 with
        | false => rfl
        | true =>
          have hq : k = k0 := eq_of_beq hx
          rw [hq] at hkf
          simp at hkf
      simp [fieldsPut, hkf, List.lookup, hk2, ihp]

/-- C6: (a) the claim's end-to-end case: the accessor of
a["b"].c.d = 233 run on an empty scope creates the whole chain of
fresh containers on the scope object (address 0) and writes the final
property, leaving the scope equal to a:{b:{c:{d:233}}} (address 4 is
the discarded object allocated by the create step of the member that
the assignment then overwrites, exactly as the generated code
allocates it); (b) in general, the create-mode resolution of a root
identifier never touches the locals object: when locals does not own
the name, any valid object held by locals (other than the scope
itself) is unchanged, and the fresh container appears among the own
properties of the scope object. -/
theorem claim_C6_assignment_auto_create :
    (parseAndRun envNoFilters 300 "a[\"b\"].c.d = 233" emptyScopeHeap (HVal.ref 0) HVal.undef
      = .ok ([{ fields := [("a", HVal.ref 1)] },
              { fields := [("b", HVal.ref 2)] },
              { fields := [("c", HVal.ref 3)] },
              { fields := [("d", HVal.vnum 233)] },
              {}], HVal.vnum 233)) ∧
    (∀ (env : EvalEnv) (fuel : Nat) (name : String) (h : Heap) (s l : HVal)
        (h2 : Heap) (res : List (HVal × Option CtxInfo)),
        evalA env (fuel + 1) [Ast.ident name] h s l true = .ok (h2, res) →
        hasOwnHv h l name = false →
        (∀ la, l = HVal.ref la → s ≠ HVal.ref la → la < h.length →
          getObj h2 la = getObj h la) ∧
        (∀ sa o, s = HVal.ref sa → getObj h sa = some o →
          hasOwnHv h2 s name = true)) := by
  constructor
  · rfl
  · intro env fuel name h s l h2 res heval hlown
    simp only [evalA] at heval
    rw [except_bind_ok] at heval
    obtain ⟨⟨hn, vn, cn⟩, hnode, hrest⟩ := heval
    simp only [] at hrest
    rw [except_bind_ok] at hrest
    obtain ⟨⟨hr2, rvs⟩, hrestEval, hpure⟩ := hrest
    simp only [] at hpure
    rw [except_pure_ok] at hpure
    cases hpure
    obtain ⟨hrq, hrnil⟩ := evalA_nil_ok hrestEval
    subst hrq
    split at hnode
    · next hcond =>
      rw [except_bind_ok] at hnode
      obtain ⟨hcr, hcreate, hnode⟩ := hnode
      rw [except_bind_ok] at hnode
      obtain ⟨u, hcheck, hnode⟩ := hnode
      rw [except_pure_ok] at hnode
      cases hnode
      simp only [allocH] at hcreate
      have hstruthy : truthyHV s = true := by
        simp only [Bool.and_eq_true] at hcond
        exact hcond.1.2
      cases s with
      | ref sa =>
        have hw : h2 = setFieldH (h ++ [emptyHObj]) sa name (HVal.ref h.length) := by
          simpa [writeHv] using hcreate.symm
        constructor
        · intro la hla hne hlen
          have hsane : la ≠ sa := fun hq => hne (by rw [hq])
          rw [hw, getObj_setField_ne hsane, getObj_append_lt hlen]
        · intro sa2 o hs2 hobj
          have hsa : sa2 = sa := by
            injection hs2 with hq
            exact hq.symm
          subst hsa
          have hlen : sa2 < h.length := by
            by_contra hge
            simp [getObj, List.getElem?_eq_none (Nat.le_of_not_lt hge)] at hobj
          have hobj2 : getObj (h ++ [emptyHObj]) sa2 = some o := by
            rw [getObj_append_lt hlen]; exact hobj
          rw [hw]
          simp only [hasOwnHv, getObj_setField_self hobj2]
          simp [fieldsPut_lookup_self]
      | undef => exact absurd hstruthy (by simp [truthyHV])
      | vnull => exact absurd hstruthy (by simp [truthyHV])
      | vbool b =>
        have hw : h2 = h ++ [emptyHObj] := by simpa [writeHv] using hcreate.symm
        refine ⟨fun la hla hne hlen => by rw [hw, getObj_append_lt hlen], ?_⟩
        intro sa o hs2 _
        exact absurd hs2 (by simp)
      | vnum n =>
        have hw : h2 = h ++ [emptyHObj] := by simpa [writeHv] using hcreate.symm
        refine ⟨fun la hla hne hlen => by rw [hw, getObj_append_lt hlen], ?_⟩
        intro sa o hs2 _
        exact absurd hs2 (by simp)
      | vnan =>
        have hw : h2 = h ++ [emptyHObj] := by simpa [writeHv] using hcreate.symm
        refine ⟨fun la hla hne hlen => by rw [hw, getObj_append_lt hlen], ?_⟩
        intro sa o hs2 _
        exact absurd hs2 (by simp)
      | vstr str =>
        have hw : h2 = h ++ [emptyHObj] := by simpa [writeHv] using hcreate.symm
        refine ⟨fun la hla hne hlen => by rw [hw, getObj_append_lt hlen], ?_⟩
        intro sa o hs2 _
        exact absurd hs2 (by simp)
    · next hcond =>
      rw [except_bind_ok] at hnode
      obtain ⟨hcr, hpure2, hnode⟩ := hnode
      rw [except_pure_ok] at hpure2
      subst hpure2
      rw [except_bind_ok] at hnode
      obtain ⟨u, hcheck, hnode⟩ := hnode
      rw [except_pure_ok] at hnode
      cases hnode
      constructor
      · intro la hla hne hlen
        rfl
      · intro sa o hsa hobj
        subst hsa
        by_cases hso : hasOwnHv h (HVal.ref sa) name = true
        · exact hso
        · exfalso
          apply hcond
          have htr : truthyHV (HVal.ref sa) = true := rfl
          simp [hlown, htr, eq_false_of_ne_true hso]

/-- Witness for C6's general clause: creating x on a two-object heap
(scope at 0, a locals object at 1) leaves the locals object untouched
and puts the fresh container on the scope. -/
theorem claim_C6_assignment_auto_create_witness :
    getObj [{ fields := [("x", HVal.ref 2)] },
            { fields := [("q", HVal.vnum 1)] }, ({} : HObj)] 1
        = getObj [({} : HObj), { fields := [("q", HVal.vnum 1)] }] 1 ∧
    hasOwnHv [{ fields := [("x", HVal.ref 2)] },
              { fields := [("q", HVal.vnum 1)] }, ({} : HObj)] (HVal.ref 0) "x" = true := by
  have hmain := claim_C6_assignment_auto_create.2 envNoFilters 9 "x"
    [({} : HObj), { fields := [("q", HVal.vnum 1)] }] (HVal.ref 0) (HVal.ref 1)
    [{ fields := [("x", HVal.ref 2)] }, { fields := [("q", HVal.vnum 1)] }, ({} : HObj)]
    [(HVal.ref 2, some (CtxInfo.idCtx "x"))] (by rfl) (by rfl)
  exact ⟨hmain.1 1 rfl (by decide) (by decide), hmain.2 0 {} rfl rfl⟩

theorem updScope_trace (m : SMachine) (sid : Nat) (f : ScopeRec → ScopeRec) :
    (updScope m sid f).trace = m.trace := by
  unfold updScope; split <;> rfl

theorem setLastDirty_trace (m : SMachine) (r : Nat) (w : Option Nat) :
    (setLastDirty m r w).trace = m.trace := updScope_trace m r _

theorem execCmd_trace (m : SMachine) (c : SCmd) : (execCmd m c).trace = m.trace := by
  cases c <;> simp only [execCmd] <;>
    (repeat' split) <;>
    first
      | rfl
      | simp only [updScope_trace, setLastDirty_trace]


theorem execCmds_trace (cs : List SCmd) : ∀ m : SMachine, (execCmds m cs).trace = m.trace := by
  induction cs with
  | nil => intro m; rfl
  | cons c cs ih =>
    intro m
    show (execCmds (execCmd m c) cs).trace = m.trace
    rw [ih, execCmd_trace]

theorem runSTask_trace (m : SMachine) (t : STask) : (runSTask m t).trace = m.trace := by
  unfold runSTask
  rw [execCmds_trace]

theorem fireWatcher_trace (m : SMachine) (sid rootSid : Nat) (w : SWatcher) (v : JsVal) :
    (fireWatcher m sid rootSid w v).trace =
      m.trace ++ [.listenerEv sid w.wid v (w.last.getD v)] := by
  unfold fireWatcher
  rw [execCmds_trace]
  simp only [emitEv, updScope_trace, setLastDirty_trace]

theorem pdCount_emit (m : SMachine) (e : MEv) (h : isPostDigestEvb e = false) :
    pdCount (emitEv m e) = pdCount m := by
  simp [pdCount, emitEv, List.countP_append, List.countP_cons, h, List.countP_nil]

theorem pdCount_fireWatcher (m : SMachine) (sid rootSid : Nat) (w : SWatcher) (v : JsVal) :
    pdCount (fireWatcher m sid rootSid w v) = pdCount m := by
  simp [pdCount, fireWatcher_trace, List.countP_append, List.countP_cons, isPostDigestEvb]

theorem pdCount_eachRightW (sid rootSid : Nat) :
    ∀ (c : Nat) (m : SMachine) (dirty : Bool),
      pdCount (eachRightW m sid rootSid c dirty).1 = pdCount m := by
  intro c
  induction c with
  | zero => intro m dirty; rfl
  | succ c ih =>
    intro m dirty
    unfold eachRightW
    split <;> dsimp only <;> split
    all_goals try exact ih m dirty
    all_goals
      split
      · split
        · exact pdCount_emit m _ (by rfl)
        · rw [ih, pdCount_emit m _ (by rfl)]
      · rw [ih, pdCount_fireWatcher, pdCount_emit m _ (by rfl)]

theorem pdCount_visitD (fuel : Nat) :
    (∀ m sid dirty r, visitScopeD fuel m sid dirty = some r → pdCount r.1 = pdCount m) ∧
    (∀ m sid len i dirty r, visitChildrenD fuel m sid len i dirty = some r →
      pdCount r.1 = pdCount m) := by
  induction fuel with
  | zero =>
    constructor
    · intro m sid dirty r h; exact absurd h (by simp [visitScopeD])
    · intro m sid len i dirty r h; exact absurd h (by simp [visitChildrenD])
  | succ fuel ih =>
    constructor
    · intro m sid dirty r h
      unfold visitScopeD at h
      cases hs : getScopeM m sid with
      | none =>
        rw [hs] at h
        cases h
        rfl
      | some sc =>
        rw [hs] at h
        dsimp only at h
        rcases he : eachRightW m sid sc.rootId sc.watchers.length dirty with ⟨m1, d1, c1⟩
        rw [he] at h
        have hpd1 : pdCount m1 = pdCount m := by
          have := pdCount_eachRightW sid sc.rootId sc.watchers.length m dirty
          rw [he] at this
          exact this
        dsimp only at h
        cases c1 with
        | true =>
          rw [if_pos rfl] at h
          rw [ih.2 _ _ _ _ _ _ h, hpd1]
        | false =>
          rw [if_neg (by simp)] at h
          cases h
          exact hpd1
    · intro m sid len i dirty r h
      unfold visitChildrenD at h
      by_cases hi : i < len
      · rw [if_pos hi] at h
        dsimp only at h
        cases hg : (match getScopeM m sid with
          | some sc => sc.children
          | none => []).get? i with
        | none =>
          rw [hg] at h
          exact ih.2 _ _ _ _ _ _ h
        | some cid =>
          rw [hg] at h
          dsimp only at h
          cases hv : visitScopeD fuel m cid dirty with
          | none => rw [hv] at h; cases h
          | some r1 =>
            rw [hv] at h
            rcases r1 with ⟨m1, d1, c1⟩
            have hpd1 : pdCount m1 = pdCount m := ih.1 _ _ _ _ hv
            dsimp only at h
            cases c1 with
            | true =>
              rw [if_pos rfl] at h
              rw [ih.2 _ _ _ _ _ _ h, hpd1]
            | false =>
              rw [if_neg (by simp)] at h
              cases h
              exact hpd1
      · rw [if_neg hi] at h
        cases h
        rfl

theorem pdCount_digestOnce (fuel : Nat) (m : SMachine) (sid : Nat) (r : SMachine × Bool)
    (h : digestOnceM fuel m sid = some r) : pdCount r.1 = pdCount m := by
  unfold digestOnceM at h
  cases hv : visitScopeD fuel m sid false with
  | none => rw [hv] at h; cases h
  | some r1 =>
    rw [hv] at h
    rcases r1 with ⟨m1, d1, c1⟩
    cases h
    exact (pdCount_visitD fuel).1 _ _ _ _ hv

theorem pdCount_drainAsync (fuel : Nat) :
    ∀ m qid m', drainAsyncQ fuel m qid = some m' → pdCount m' = pdCount m := by
  induction fuel with
  | zero => intro m qid m' h; exact absurd h (by simp [drainAsyncQ])
  | succ fuel ih =>
    intro m qid m' h
    unfold drainAsyncQ at h
    cases hq : (match getScopeM m qid with
      | some sc => sc.asyncQueue
      | none => []) with
    | nil =>
      rw [hq] at h
      cases h
      rfl
    | cons t rest =>
      rw [hq] at h
      rcases t with ⟨tsid, task⟩
      have := ih _ _ _ h
      rw [this]
      simp [pdCount, runSTask_trace, emitEv, updScope_trace, List.countP_append,
        List.countP_cons, isPostDigestEvb]

theorem pdCount_flushApply (fuel : Nat) :
    ∀ m sid m', flushApplyAsyncM fuel m sid = some m' → pdCount m' = pdCount m := by
  induction fuel with
  | zero => intro m sid m' h; exact absurd h (by simp [flushApplyAsyncM])
  | succ fuel ih =>
    intro m sid m' h
    unfold flushApplyAsyncM at h
    dsimp only at h
    cases hq : (match getScopeM m (queueOfM m sid) with
      | some sc => sc.applyAsyncQueue
      | none => []) with
    | nil =>
      rw [hq] at h
      cases h
      simp [pdCount, updScope_trace]
    | cons task rest =>
      rw [hq] at h
      have := ih _ _ _ h
      rw [this]
      simp [pdCount, runSTask_trace, emitEv, updScope_trace, List.countP_append,
        List.countP_cons, isPostDigestEvb]

theorem pdCount_updScope (m : SMachine) (sid : Nat) (f : ScopeRec → ScopeRec) :
    pdCount (updScope m sid f) = pdCount m := by
  simp [pdCount, updScope_trace]

theorem getScopeM_updScope_self (m : SMachine) (sid : Nat) (f : ScopeRec → ScopeRec) :
    getScopeM (updScope m sid f) sid = (getScopeM m sid).map f := by
  unfold updScope getScopeM
  cases hs : m.scopes.get? sid with
  | none => simp [hs, List.get?_eq_none.1 hs]
  | some sc =>
    have hlt : sid < m.scopes.length := by
      by_contra hge
      rw [List.get?_eq_none.2 (Nat.le_of_not_lt hge)] at hs
      cases hs
    simp [hs, List.get?_set_eq, hlt]

theorem pdCount_digestPass (fuel : Nat) (m : SMachine) (sid qid pass : Nat)
    (r : SMachine × Bool) (h : digestPass fuel m sid qid pass = some r) :
    pdCount r.1 = pdCount m := by
  unfold digestPass at h
  dsimp only at h
  cases hd : drainAsyncQ fuel (emitEv m (.passStartEv pass)) qid with
  | none => rw [hd] at h; cases h
  | some m1 =>
    rw [hd] at h
    dsimp only at h
    cases ho : digestOnceM fuel m1 sid with
    | none => rw [ho] at h; cases h
    | some r1 =>
      rw [ho] at h
      rcases r1 with ⟨m2, dirty⟩
      cases h
      rw [pdCount_digestOnce fuel _ _ _ ho, pdCount_drainAsync fuel _ _ _ hd,
        pdCount_emit m _ (by rfl)]

theorem digestLoopM_ttl (fuel sid qid : Nat) :
    ∀ (pass ttl : Nat) (m m' : SMachine),
      digestLoopM fuel m sid qid ttl pass = (m', .dTTL) →
      (∀ sc, getScopeM m' sid = some sc → sc.phase = none) ∧ pdCount m' = pdCount m := by
  intro pass
  induction pass with
  | zero =>
    intro ttl m m' h
    simp [digestLoopM] at h
  | succ pass ih =>
    intro ttl m m' h
    unfold digestLoopM at h
    cases hp : digestPass fuel m sid qid (pass + 1) with
    | none => rw [hp] at h; cases h
    | some r1 =>
      rw [hp] at h
      rcases r1 with ⟨m2, again⟩
      have hpd2 : pdCount m2 = pdCount m := pdCount_digestPass fuel m sid qid (pass + 1) _ hp
      dsimp only at h
      cases again with
      | false => cases h
      | true =>
        cases ttl with
        | zero =>
          cases h
          constructor
          · intro sc hsc
            rw [getScopeM_updScope_self] at hsc
            cases hg : getScopeM m2 sid with
            | none => rw [hg] at hsc; cases hsc
            | some sc2 =>
              rw [hg] at hsc
              cases hsc
              rfl
          · rw [pdCount_updScope]
            exact hpd2
        | succ ttl =>
          have := ih ttl _ _ h
          exact ⟨this.1, by rw [this.2, hpd2]⟩

theorem digestM_ttl_aux (fuel : Nat) (m : SMachine) (sid : Nat) (m' : SMachine)
    (h : digestM fuel m sid = (m', .dTTL)) :
    (∀ sc, getScopeM m' sid = some sc → sc.phase = none) ∧ pdCount m' = pdCount m := by
  unfold digestM at h
  dsimp only at h
  cases hs : getScopeM (setLastDirty m (rootOfM m sid) none) sid with
  | none => rw [hs] at h; cases h
  | some sc =>
    rw [hs] at h
    dsimp only at h
    cases hph : sc.phase with
    | some ph => rw [hph] at h; cases h
    | none =>
      rw [hph] at h
      dsimp only at h
      have hpd0 : pdCount (emitEv (updScope (setLastDirty m (rootOfM m sid) none) sid
          (fun sc => { sc with phase := some "digest" })) (.digestStartEv sid)) = pdCount m := by
        rw [pdCount_emit _ _ (by rfl), pdCount_updScope]
        simp [pdCount, setLastDirty_trace]
      generalize hM3 : emitEv (updScope (setLastDirty m (rootOfM m sid) none) sid
          (fun sc => { sc with phase := some "digest" })) (.digestStartEv sid) = m3 at h hpd0
      cases hfl : (match (getScopeM m3 (rootOfM m sid)).bind (fun sc => sc.applyAsyncId) with
        | some tid =>
          flushApplyAsyncM fuel { m3 with timers := m3.timers.filter (fun t => t.1 != tid) } sid
        | none => some m3) with
      | none =>
        rw [hfl] at h
        cases h
      | some m4 =>
        rw [hfl] at h
        have hpd4 : pdCount m4 = pdCount m := by
          revert hfl
          cases hb : (getScopeM m3 (rootOfM m sid)).bind (fun sc => sc.applyAsyncId) with
          | none => intro hfl; cases hfl; exact hpd0
          | some tid =>
            intro hfl
            have := pdCount_flushApply fuel _ _ _ hfl
            rw [this]
            simpa [pdCount] using hpd0
        dsimp only at h
        cases hr : digestLoopM fuel m4 sid (queueOfM m sid) maxTTLS (maxTTLS + 2) with
        | mk m5 r5 =>
          rw [hr] at h
          cases r5 with
          | dOk =>
            unfold digestFinish at h
            dsimp only at h
            cases hp : drainPostDigestQ fuel m5 (queueOfM m sid) with
            | none => rw [hp] at h; cases h
            | some m6 => rw [hp] at h; cases h
          | dTTL =>
            unfold digestFinish at h
            cases h
            have := digestLoopM_ttl fuel sid (queueOfM m sid) (maxTTLS + 2) maxTTLS m4 m' hr
            exact ⟨this.1, by rw [this.2, hpd4]⟩
          | dPhaseErr => unfold digestFinish at h; cases h
          | dFuelOut => unfold digestFinish at h; cases h

theorem c2p1 : digestPass 30 c2s0 0 0 12 = some (c2s1, true) := rfl
theorem c2p2 : digestPass 30 c2s1 0 0 11 = some (c2s2, true) := rfl
theorem c2p3 : digestPass 30 c2s2 0 0 10 = some (c2s3, true) := rfl
theorem c2p4 : digestPass 30 c2s3 0 0 9 = some (c2s4, true) := rfl
theorem c2p5 : digestPass 30 c2s4 0 0 8 = some (c2s5, true) := rfl
theorem c2p6 : digestPass 30 c2s5 0 0 7 = some (c2s6, true) := rfl
theorem c2p7 : digestPass 30 c2s6 0 0 6 = some (c2s7, true) := rfl
theorem c2p8 : digestPass 30 c2s7 0 0 5 = some (c2s8, true) := rfl
theorem c2p9 : digestPass 30 c2s8 0 0 4 = some (c2s9, true) := rfl
theorem c2p10 : digestPass 30 c2s9 0 0 3 = some (c2s10, true) := rfl
theorem c2p11 : digestPass 30 c2s10 0 0 2 = some (c2s11, true) := rfl


theorem digestLoopM_stepS (fuel : Nat) (m m2 : SMachine) (sid qid ttl pass : Nat)
    (h : digestPass fuel m sid qid (pass + 1) = some (m2, true)) :
    digestLoopM fuel m sid qid (ttl + 1) (pass + 1) = digestLoopM fuel m2 sid qid ttl pass := by
  conv_lhs => unfold digestLoopM
  rw [h]

theorem digestLoopM_ttlS (fuel : Nat) (m m2 : SMachine) (sid qid pass : Nat)
    (h : digestPass fuel m sid qid (pass + 1) = some (m2, true)) :
    digestLoopM fuel m sid qid 0 (pass + 1) =
      (updScope m2 sid (fun sc => { sc with phase := none }), .dTTL) := by
  conv_lhs => unfold digestLoopM
  rw [h]

theorem c2loopEq : digestLoopM 30 c2s0 0 0 maxTTLS (maxTTLS + 2) = (c2sFin, .dTTL) := by
  show digestLoopM 30 c2s0 0 0 10 12 = (c2sFin, .dTTL)
  rw [digestLoopM_stepS 30 c2s0 c2s1 0 0 9 11 c2p1]
  rw [digestLoopM_stepS 30 c2s1 c2s2 0 0 8 10 c2p2]
  rw [digestLoopM_stepS 30 c2s2 c2s3 0 0 7 9 c2p3]
  rw [digestLoopM_stepS 30 c2s3 c2s4 0 0 6 8 c2p4]
  rw [digestLoopM_stepS 30 c2s4 c2s5 0 0 5 7 c2p5]
  rw [digestLoopM_stepS 30 c2s5 c2s6 0 0 4 6 c2p6]
  rw [digestLoopM_stepS 30 c2s6 c2s7 0 0 3 5 c2p7]
  rw [digestLoopM_stepS 30 c2s7 c2s8 0 0 2 4 c2p8]
  rw [digestLoopM_stepS 30 c2s8 c2s9 0 0 1 3 c2p9]
  rw [digestLoopM_stepS 30 c2s9 c2s10 0 0 0 2 c2p10]
  rw [digestLoopM_ttlS 30 c2s10 c2s11 0 0 1 c2p11]
  rfl

theorem c2digestEq : digestM 30 c2m1 0 = (c2sFin, .dTTL) := by
  show digestFinish 30 0 0 (digestLoopM 30 c2s0 0 0 maxTTLS (maxTTLS + 2)) = (c2sFin, .dTTL)
  rw [c2loopEq]
  rfl

/-- C2: a digest whose TTL is exhausted (the dTTL outcome, the model
of the MaxDigestIterations throw) leaves the digest scope with its
phase cleared, and runs none of the callbacks queued in the
post-digest queue: the count of postDigestEv events in the trace is
unchanged by the whole digest. -/
theorem claim_C2_ttl_exhaustion (fuel : Nat) (m : SMachine) (sid : Nat)
    (h : (digestM fuel m sid).2 = .dTTL) :
    (∀ sc, getScopeM (digestM fuel m sid).1 sid = some sc → sc.phase = none) ∧
    pdCount (digestM fuel m sid).1 = pdCount m := by
  have hp : digestM fuel m sid = ((digestM fuel m sid).1, .dTTL) := by
    rw [← h]
  exact digestM_ttl_aux fuel m sid (digestM fuel m sid).1 hp

theorem claim_C2_ttl_exhaustion_witness :
    (∀ sc, getScopeM (digestM 30 c2m1 0).1 0 = some sc → sc.phase = none) ∧
    pdCount (digestM 30 c2m1 0).1 = pdCount c2m1 :=
  claim_C2_ttl_exhaustion 30 c2m1 0 (by rw [c2digestEq])

theorem getScopeM_updScope_ne (m : SMachine) (sid sid' : Nat) (f : ScopeRec → ScopeRec)
    (h : sid' ≠ sid) : getScopeM (updScope m sid f) sid' = getScopeM m sid' := by
  unfold updScope getScopeM
  cases hs : m.scopes.get? sid with
  | none => rfl
  | some sc =>
    simp only [List.get?_eq_getElem?]
    rw [List.getElem?_set_ne (by omega)]

/-- C9: _new with isolated=false and an explicit parent different from
the receiver: the child's data prototype, queue reference and root
reference come from the receiver; the parent argument only receives
the child in its children list and becomes the child's parent
pointer; the receiver's children list is untouched. -/
theorem claim_C9_new_parent_vs_receiver (m : SMachine) (r p : Nat) (rsc psc : ScopeRec)
    (hr : getScopeM m r = some rsc) (hp : getScopeM m p = some psc) (hne : p ≠ r) :
    ∃ child, getScopeM (newScopeM m r false (some p)).1 (newScopeM m r false (some p)).2 = some child ∧
      child.dataProto = some r ∧
      child.queueId = rsc.queueId ∧
      child.rootId = rsc.rootId ∧
      child.parentId = some p ∧
      (∃ psc2, getScopeM (newScopeM m r false (some p)).1 p = some psc2 ∧
        psc2.children = psc.children ++ [(newScopeM m r false (some p)).2]) ∧
      (∃ rsc2, getScopeM (newScopeM m r false (some p)).1 r = some rsc2 ∧
        rsc2.children = rsc.children) := by
  have hplen : p < m.scopes.length := by
    by_contra hge
    rw [show getScopeM m p = m.scopes.get? p from rfl,
      List.get?_eq_none.2 (Nat.le_of_not_lt hge)] at hp
    cases hp
  have hrlen : r < m.scopes.length := by
    by_contra hge
    rw [show getScopeM m r = m.scopes.get? r from rfl,
      List.get?_eq_none.2 (Nat.le_of_not_lt hge)] at hr
    cases hr
  have hres : newScopeM m r false (some p) =
      (updScope { m with scopes := m.scopes ++ [{ sid := m.scopes.length, rootId := rootOfM m r, queueId := queueOfM m r, dataProto := some r, parentId := some p }] } p
        (fun sc => { sc with children := sc.children ++ [m.scopes.length] }),
       m.scopes.length) := rfl
  rw [hres]
  dsimp only
  have hg1 : ∀ i, i < m.scopes.length →
      getScopeM { m with scopes := m.scopes ++ [{ sid := m.scopes.length, rootId := rootOfM m r, queueId := queueOfM m r, dataProto := some r, parentId := some p }] } i =
      getScopeM m i := by
    intro i hi
    show (m.scopes ++ [_]).get? i = m.scopes.get? i
    rw [List.get?_append hi]
  have hgc : getScopeM { m with scopes := m.scopes ++ [{ sid := m.scopes.length, rootId := rootOfM m r, queueId := queueOfM m r, dataProto := some r, parentId := some p }] } m.scopes.length =
      some { sid := m.scopes.length, rootId := rootOfM m r, queueId := queueOfM m r, dataProto := some r, parentId := some p } := by
    show (m.scopes ++ [_]).get? m.scopes.length = _
    rw [List.get?_concat_length]
  refine ⟨{ sid := m.scopes.length, rootId := rootOfM m r, queueId := queueOfM m r, dataProto := some r, parentId := some p }, ?_, rfl, ?_, ?_, rfl, ?_, ?_⟩
  · rw [getScopeM_updScope_ne _ _ _ _ (by omega), hgc]
  · show queueOfM m r = rsc.queueId
    unfold queueOfM
    rw [hr]
  · show rootOfM m r = rsc.rootId
    unfold rootOfM
    rw [hr]
  · refine ⟨{ psc with children := psc.children ++ [m.scopes.length] }, ?_, rfl⟩
    rw [getScopeM_updScope_self, hg1 p hplen, hp]
    rfl
  · refine ⟨rsc, ?_, rfl⟩
    rw [getScopeM_updScope_ne _ _ _ _ (Ne.symm hne), hg1 r hrlen, hr]


theorem claim_C9_new_parent_vs_receiver_witness :
    ∃ child, getScopeM (newScopeM c9mach 0 false (some 2)).1 (newScopeM c9mach 0 false (some 2)).2 = some child ∧
      child.dataProto = some 0 ∧
      child.queueId = c9root.queueId ∧
      child.rootId = c9root.rootId ∧
      child.parentId = some 2 ∧
      (∃ psc2, getScopeM (newScopeM c9mach 0 false (some 2)).1 2 = some psc2 ∧
        psc2.children = c9par.children ++ [(newScopeM c9mach 0 false (some 2)).2]) ∧
      (∃ rsc2, getScopeM (newScopeM c9mach 0 false (some 2)).1 0 = some rsc2 ∧
        rsc2.children = c9root.children) :=
  claim_C9_new_parent_vs_receiver c9mach 0 2 c9root c9par rfl rfl (by decide)

theorem lookup_cons_bf (name k : String) (b : List (Option (Nat × STask)))
    (l : List (String × List (Option (Nat × STask)))) (hb : (name == k) = false) :
    ((k, b) :: l).lookup name = l.lookup name := by
  simp [List.lookup, hb]

theorem lookup_cons_bt (name k : String) (b : List (Option (Nat × STask)))
    (l : List (String × List (Option (Nat × STask)))) (hb : (name == k) = true) :
    ((k, b) :: l).lookup name = some b := by
  simp [List.lookup, hb]

theorem lookup_filter_append_self (name : String) (v : List (Option (Nat × STask))) :
    ∀ l : List (String × List (Option (Nat × STask))),
      ((l.filter (fun p => p.1 != name)) ++ [(name, v)]).lookup name = some v := by
  intro l
  induction l with
  | nil => simp [List.lookup]
  | cons p l ih =>
    by_cases hp : p.1 = name
    · simp [List.filter_cons, hp, ih]
    · simp only [List.filter_cons]
      rw [if_pos (by simp [hp])]
      have hb : (name == p.1) = false := beq_eq_false_iff_ne.2 (fun h => hp h.symm)
      simp [List.lookup, hb, ih]

theorem lookup_append_none (name : String) (v : List (Option (Nat × STask)))
    (l : List (String × List (Option (Nat × STask)))) (h : l.lookup name = none) :
    (l ++ [(name, v)]).lookup name = some v := by
  induction l with
  | nil => simp [List.lookup]
  | cons p l ih =>
    rw [List.cons_append]
    unfold List.lookup at h ⊢
    cases hb : name == p.1 with
    | true => rw [hb] at h; cases h
    | false =>
      rw [hb] at h
      exact ih h

theorem lookup_map_if (name : String) (g : List (Option (Nat × STask)) → List (Option (Nat × STask))) :
    ∀ l : List (String × List (Option (Nat × STask))),
      (l.map (fun p => if p.1 == name then (p.1, g p.2) else p)).lookup name =
        (l.lookup name).map g := by
  intro l
  induction l with
  | nil => simp [List.lookup]
  | cons p l ih =>
    obtain ⟨k, b⟩ := p
    simp only [List.map_cons]
    by_cases hp : k = name
    · have hb : (name == k) = true := beq_iff_eq.2 hp.symm
      rw [if_pos (by simp [hp]), lookup_cons_bt _ _ _ _ hb, lookup_cons_bt _ _ _ _ hb]
      rfl
    · have hb : (name == k) = false := beq_eq_false_iff_ne.2 (fun h => hp h.symm)
      rw [if_neg (by simp [hp]), lookup_cons_bf _ _ _ _ hb, lookup_cons_bf _ _ _ _ hb, ih]

theorem listenersOfM_updScope_keep (m : SMachine) (sid' : Nat) (f : ScopeRec → ScopeRec)
    (sid : Nat) (name : String) (hf : ∀ sc, (f sc).eventListeners = sc.eventListeners) :
    listenersOfM (updScope m sid' f) sid name = listenersOfM m sid name := by
  unfold listenersOfM
  by_cases h : sid = sid'
  · subst h
    rw [getScopeM_updScope_self]
    cases hg : getScopeM m sid with
    | none => rfl
    | some sc =>
      dsimp only [Option.map]
      rw [hf sc]
  · rw [getScopeM_updScope_ne _ _ _ _ h]

theorem listenersOfM_sdata (m : SMachine) (d : SData) (sid : Nat) (name : String) :
    listenersOfM { m with sdata := d } sid name = listenersOfM m sid name := rfl

theorem listenersOfM_scopesEq (m' m : SMachine) (sid : Nat) (name : String)
    (h : m'.scopes = m.scopes) : listenersOfM m' sid name = listenersOfM m sid name := by
  unfold listenersOfM getScopeM
  rw [h]

theorem wkeep1 : ∀ sc : ScopeRec, ∀ w : List SWatcher,
    ({ sc with watchers := w }).eventListeners = sc.eventListeners := fun _ _ => rfl

theorem lookup_filter_append_other (name name2 : String) (v : List (Option (Nat × STask)))
    (hne : name ≠ name2) :
    ∀ l : List (String × List (Option (Nat × STask))),
      ((l.filter (fun p => p.1 != name2)) ++ [(name2, v)]).lookup name = l.lookup name := by
  intro l
  induction l with
  | nil =>
    simp only [List.filter_nil, List.nil_append]
    simp [List.lookup, beq_eq_false_iff_ne.2 hne]
  | cons p l ih =>
    obtain ⟨k, b⟩ := p
    by_cases hp : k = name2
    · have hb : (name == k) = false := beq_eq_false_iff_ne.2 (by rw [hp]; exact hne)
      rw [List.filter_cons, if_neg (by simp [hp]), ih, lookup_cons_bf _ _ _ _ hb]
    · rw [List.filter_cons, if_pos (by simp [hp]), List.cons_append]
      cases hb : name == k with
      | true => rw [lookup_cons_bt _ _ _ _ hb, lookup_cons_bt _ _ _ _ hb]
      | false => rw [lookup_cons_bf _ _ _ _ hb, lookup_cons_bf _ _ _ _ hb, ih]

theorem lookup_append_other (name name2 : String) (v : List (Option (Nat × STask)))
    (hne : name ≠ name2) :
    ∀ l : List (String × List (Option (Nat × STask))),
      (l ++ [(name2, v)]).lookup name = l.lookup name := by
  intro l
  induction l with
  | nil =>
    simp only [List.nil_append]
    simp [List.lookup, beq_eq_false_iff_ne.2 hne]
  | cons p l ih =>
    obtain ⟨k, b⟩ := p
    rw [List.cons_append]
    cases hb : name == k with
    | true => rw [lookup_cons_bt _ _ _ _ hb, lookup_cons_bt _ _ _ _ hb]
    | false => rw [lookup_cons_bf _ _ _ _ hb, lookup_cons_bf _ _ _ _ hb, ih]

theorem lookup_map_if_other (name name2 : String)
    (g : List (Option (Nat × STask)) → List (Option (Nat × STask))) (hne : name ≠ name2) :
    ∀ l : List (String × List (Option (Nat × STask))),
      (l.map (fun p => if p.1 == name2 then (p.1, g p.2) else p)).lookup name = l.lookup name := by
  intro l
  induction l with
  | nil => rfl
  | cons p l ih =>
    obtain ⟨k, b⟩ := p
    simp only [List.map_cons]
    by_cases hp : k = name2
    · have hb : (name == k) = false := beq_eq_false_iff_ne.2 (by rw [hp]; exact hne)
      rw [if_pos (by simp [hp]), lookup_cons_bf _ _ _ _ hb, lookup_cons_bf _ _ _ _ hb, ih]
    · rw [if_neg (by simp [hp])]
      cases hb : name == k with
      | true => rw [lookup_cons_bt _ _ _ _ hb, lookup_cons_bt _ _ _ _ hb]
      | false => rw [lookup_cons_bf _ _ _ _ hb, lookup_cons_bf _ _ _ _ hb, ih]

theorem c10onEventCase (m : SMachine) (sid2 : Nat) (name2 : String) (lfn : STask)
    (sid : Nat) (name : String) :
    listenersOfM (execCmd m (.onEvent sid2 name2 lfn)) sid name = listenersOfM m sid name ∨
    (∃ lfn2, SCmd.onEvent sid2 name2 lfn = .onEvent sid name lfn2 ∧
      listenersOfM (execCmd m (.onEvent sid2 name2 lfn)) sid name =
        listenersOfM m sid name ++ [some (m.nextLid, lfn2)]) ∨
    (∃ lid, SCmd.onEvent sid2 name2 lfn = .offEvent sid name lid ∧
      listenersOfM (execCmd m (.onEvent sid2 name2 lfn)) sid name =
        (listenersOfM m sid name).map (fun slot =>
          match slot with
          | some (lid0, f) => if lid0 == lid then none else some (lid0, f)
          | none => none)) := by
  have hstep : listenersOfM (execCmd m (.onEvent sid2 name2 lfn)) sid name =
      listenersOfM (updScope { m with nextLid := m.nextLid + 1 } sid2 (fun sc =>
        { sc with eventListeners :=
            match sc.eventListeners.lookup name2 with
            | some slots =>
              (sc.eventListeners.filter (fun p => p.1 != name2)) ++ [(name2, slots ++ [some (m.nextLid, lfn)])]
            | none => sc.eventListeners ++ [(name2, [some (m.nextLid, lfn)])] })) sid name := rfl
  rw [hstep]
  by_cases hsid : sid = sid2
  · subst hsid
    unfold listenersOfM
    rw [getScopeM_updScope_self]
    rw [show getScopeM { m with nextLid := m.nextLid + 1 } sid = getScopeM m sid from rfl]
    cases hg : getScopeM m sid with
    | none => left; rfl
    | some sc =>
      dsimp only [Option.map]
      by_cases hname : name = name2
      · subst hname
        right; left
        refine ⟨lfn, rfl, ?_⟩
        cases hl : sc.eventListeners.lookup name with
        | none =>
          dsimp only
          rw [lookup_append_none _ _ _ hl]
          rfl
        | some slots =>
          dsimp only
          rw [lookup_filter_append_self]
          rfl
      · left
        cases hl : sc.eventListeners.lookup name2 with
        | none =>
          dsimp only
          rw [lookup_append_other _ _ _ hname]
        | some slots =>
          dsimp only
          rw [lookup_filter_append_other _ _ _ hname]
  · left
    unfold listenersOfM
    rw [getScopeM_updScope_ne _ _ _ _ hsid]
    rw [show getScopeM { m with nextLid := m.nextLid + 1 } sid = getScopeM m sid from rfl]

theorem c10offEventCase (m : SMachine) (sid2 : Nat) (name2 : String) (lid : Nat)
    (sid : Nat) (name : String) :
    listenersOfM (execCmd m (.offEvent sid2 name2 lid)) sid name = listenersOfM m sid name ∨
    (∃ lfn2, SCmd.offEvent sid2 name2 lid = .onEvent sid name lfn2 ∧
      listenersOfM (execCmd m (.offEvent sid2 name2 lid)) sid name =
        listenersOfM m sid name ++ [some (m.nextLid, lfn2)]) ∨
    (∃ lid2, SCmd.offEvent sid2 name2 lid = .offEvent sid name lid2 ∧
      listenersOfM (execCmd m (.offEvent sid2 name2 lid)) sid name =
        (listenersOfM m sid name).map (fun slot =>
          match slot with
          | some (lid0, f) => if lid0 == lid2 then none else some (lid0, f)
          | none => none)) := by
  by_cases hsid : sid = sid2
  · subst hsid
    by_cases hname : name = name2
    · subst hname
      right; right
      refine ⟨lid, rfl, ?_⟩
      show listenersOfM (updScope m sid _) sid name = _
      unfold listenersOfM
      rw [getScopeM_updScope_self]
      cases hg : getScopeM m sid with
      | none => rfl
      | some sc =>
        dsimp only [Option.map]
        rw [lookup_map_if name (fun slots => slots.map (fun slot =>
          match slot with
          | some (lid0, f) => if lid0 == lid then none else some (lid0, f)
          | none => none))]
        cases hl : sc.eventListeners.lookup name with
        | none => rfl
        | some slots => rfl
    · left
      show listenersOfM (updScope m sid _) sid name = _
      unfold listenersOfM
      rw [getScopeM_updScope_self]
      cases hg : getScopeM m sid with
      | none => rfl
      | some sc =>
        dsimp only [Option.map]
        rw [lookup_map_if_other _ _ _ hname]
  · left
    show listenersOfM (updScope m sid2 _) sid name = _
    unfold listenersOfM
    rw [getScopeM_updScope_ne _ _ _ _ hsid]

theorem listenersOfM_execCmd_self (m : SMachine) (c : SCmd) (sid : Nat) (name : String) :
    listenersOfM (execCmd m c) sid name = listenersOfM m sid name ∨
    (∃ lfn, c = .onEvent sid name lfn ∧
      listenersOfM (execCmd m c) sid name = listenersOfM m sid name ++ [some (m.nextLid, lfn)]) ∨
    (∃ lid, c = .offEvent sid name lid ∧
      listenersOfM (execCmd m c) sid name = (listenersOfM m sid name).map (fun slot =>
        match slot with
        | some (lid0, f) => if lid0 == lid then none else some (lid0, f)
        | none => none)) := by
  cases c with
  | addWatch sid2 veq wfn lfn =>
    left
    show listenersOfM (match getScopeM m sid2 with
      | none => m
      | some _ => setLastDirty (updScope { m with nextWid := m.nextWid + 1 } sid2 (fun sc =>
          { sc with watchers := ⟨m.nextWid, wfn, lfn, veq, none⟩ :: sc.watchers }))
          (rootOfM (updScope { m with nextWid := m.nextWid + 1 } sid2 (fun sc =>
            { sc with watchers := ⟨m.nextWid, wfn, lfn, veq, none⟩ :: sc.watchers })) sid2) none) sid name =
      listenersOfM m sid name
    cases getScopeM m sid2 with
    | none => rfl
    | some sc =>
      dsimp only
      refine (listenersOfM_updScope_keep _ _ _ _ _ ?_).trans
        ((listenersOfM_updScope_keep _ _ _ _ _ ?_).trans rfl)
      all_goals exact fun _ => rfl
  | removeWatch sid2 wid =>
    left
    show listenersOfM (match getScopeM m sid2 with
      | none => m
      | some sc =>
        if hasWid sc.watchers wid then
          setLastDirty (updScope m sid2 (fun sc => { sc with watchers := removeWid sc.watchers wid }))
            (rootOfM (updScope m sid2 (fun sc => { sc with watchers := removeWid sc.watchers wid })) sid2) none
        else m) sid name = listenersOfM m sid name
    cases getScopeM m sid2 with
    | none => rfl
    | some sc =>
      dsimp only
      split
      · refine (listenersOfM_updScope_keep _ _ _ _ _ ?_).trans
          (listenersOfM_updScope_keep _ _ _ _ _ ?_)
        all_goals exact fun _ => rfl
      · rfl
  | applyAsyncQ sid2 task =>
    left
    show listenersOfM (
      match getScopeM (updScope m (queueOfM m sid2) (fun sc =>
          { sc with applyAsyncQueue := sc.applyAsyncQueue ++ [task] }))
          (rootOfM (updScope m (queueOfM m sid2) (fun sc =>
            { sc with applyAsyncQueue := sc.applyAsyncQueue ++ [task] })) sid2) with
      | some rsc =>
        match rsc.applyAsyncId with
        | none =>
          updScope { updScope m (queueOfM m sid2) (fun sc =>
              { sc with applyAsyncQueue := sc.applyAsyncQueue ++ [task] }) with
              timers := (updScope m (queueOfM m sid2) (fun sc =>
                { sc with applyAsyncQueue := sc.applyAsyncQueue ++ [task] })).timers ++
                  [((updScope m (queueOfM m sid2) (fun sc =>
                    { sc with applyAsyncQueue := sc.applyAsyncQueue ++ [task] })).nextTimerId, .applyFlushT sid2)],
              nextTimerId := (updScope m (queueOfM m sid2) (fun sc =>
                { sc with applyAsyncQueue := sc.applyAsyncQueue ++ [task] })).nextTimerId + 1 }
            (rootOfM (updScope m (queueOfM m sid2) (fun sc =>
              { sc with applyAsyncQueue := sc.applyAsyncQueue ++ [task] })) sid2)
            (fun sc => { sc with applyAsyncId := some ((updScope m (queueOfM m sid2) (fun sc =>
              { sc with applyAsyncQueue := sc.applyAsyncQueue ++ [task] })).nextTimerId) })
        | some _ => updScope m (queueOfM m sid2) (fun sc =>
            { sc with applyAsyncQueue := sc.applyAsyncQueue ++ [task] })
      | none => updScope m (queueOfM m sid2) (fun sc =>
          { sc with applyAsyncQueue := sc.applyAsyncQueue ++ [task] })) sid name =
      listenersOfM m sid name
    cases getScopeM (updScope m (queueOfM m sid2) (fun sc =>
        { sc with applyAsyncQueue := sc.applyAsyncQueue ++ [task] }))
        (rootOfM (updScope m (queueOfM m sid2) (fun sc =>
          { sc with applyAsyncQueue := sc.applyAsyncQueue ++ [task] })) sid2) with
    | none =>
      refine listenersOfM_updScope_keep _ _ _ _ _ ?_
      exact fun _ => rfl
    | some rsc =>
      dsimp only
      cases rsc.applyAsyncId with
      | none =>
        refine (listenersOfM_updScope_keep _ _ _ _ _ ?_).trans
          (listenersOfM_updScope_keep _ _ _ _ _ ?_)
        all_goals exact fun _ => rfl
      | some tid =>
        refine listenersOfM_updScope_keep _ _ _ _ _ ?_
        exact fun _ => rfl
  | evalAsyncQ sid2 task =>
    left
    refine @Eq.trans _ _ (listenersOfM (if (match getScopeM m sid2 with
        | some sc => sc.phase == none
        | none => true) && (match getScopeM m (queueOfM m sid2) with
        | some sc => sc.asyncQueue.isEmpty
        | none => true) then
          { m with timers := m.timers ++ [(m.nextTimerId, .evalAsyncT sid2)], nextTimerId := m.nextTimerId + 1 }
        else m) sid name) _ ?_ ?_
    · refine listenersOfM_updScope_keep _ _ _ _ _ ?_
      exact fun _ => rfl
    · split
      · rfl
      · rfl
  | postDigestQ sid2 task =>
    left
    refine listenersOfM_updScope_keep _ _ _ _ _ ?_
    exact fun _ => rfl
  | onEvent sid2 name2 lfn => exact c10onEventCase m sid2 name2 lfn sid name
  | offEvent sid2 name2 lid => exact c10offEventCase m sid2 name2 lid sid name

theorem c10test : True := trivial

theorem get?_eraseIdx_lt {α : Type} : ∀ (l : List α) (i j : Nat), j < i →
    (l.eraseIdx i).get? j = l.get? j := by
  intro l
  induction l with
  | nil => intro i j _; rfl
  | cons a l ih =>
    intro i j hj
    cases i with
    | zero => omega
    | succ i =>
      cases j with
      | zero => rfl
      | succ j =>
        show (l.eraseIdx i).get? j = l.get? j
        exact ih i j (by omega)

theorem listenersOfM_execCmd_back (m : SMachine) (c : SCmd) (sid : Nat) (name : String)
    (j lid : Nat) (f : STask)
    (h : (listenersOfM (execCmd m c) sid name).get? j = some (some (lid, f))) :
    (listenersOfM m sid name).get? j = some (some (lid, f)) ∨
    (listenersOfM m sid name).length ≤ j := by
  rcases listenersOfM_execCmd_self m c sid name with heq | ⟨lfn2, _, heq⟩ | ⟨lid2, _, heq⟩
  · rw [heq] at h
    left
    exact h
  · rw [heq] at h
    by_cases hj : j < (listenersOfM m sid name).length
    · left
      rw [List.get?_append hj] at h
      exact h
    · right
      omega
  · rw [heq] at h
    left
    rw [List.get?_map] at h
    cases hx : (listenersOfM m sid name).get? j with
    | none => rw [hx] at h; cases h
    | some slot =>
      rw [hx] at h
      cases slot with
      | none => cases h
      | some p =>
        rcases p with ⟨lid0, f0⟩
        dsimp only [Option.map] at h
        split at h
        · cases h
        · exact h

theorem listenersOfM_execCmd_len (m : SMachine) (c : SCmd) (sid : Nat) (name : String) :
    (listenersOfM m sid name).length ≤ (listenersOfM (execCmd m c) sid name).length := by
  rcases listenersOfM_execCmd_self m c sid name with heq | ⟨lfn2, _, heq⟩ | ⟨lid2, _, heq⟩
  · rw [heq]
  · rw [heq, List.length_append]
    omega
  · rw [heq, List.length_map]

theorem listenersOfM_execCmds_back (cs : List SCmd) : ∀ (m : SMachine) (sid : Nat)
    (name : String) (j lid : Nat) (f : STask),
    (listenersOfM (execCmds m cs) sid name).get? j = some (some (lid, f)) →
    (listenersOfM m sid name).get? j = some (some (lid, f)) ∨
    (listenersOfM m sid name).length ≤ j := by
  induction cs with
  | nil => intro m sid name j lid f h; left; exact h
  | cons c cs ih =>
    intro m sid name j lid f h
    rcases ih (execCmd m c) sid name j lid f h with h1 | h1
    · exact listenersOfM_execCmd_back m c sid name j lid f h1
    · right
      exact le_trans (listenersOfM_execCmd_len m c sid name) h1

theorem listenersOfM_runSTask_back (m : SMachine) (t : STask) (sid : Nat) (name : String)
    (j lid : Nat) (f : STask)
    (h : (listenersOfM (runSTask m t) sid name).get? j = some (some (lid, f))) :
    (listenersOfM m sid name).get? j = some (some (lid, f)) ∨
    (listenersOfM m sid name).length ≤ j := by
  unfold runSTask at h
  rcases ht : t m.sdata with ⟨d, cs⟩
  rw [ht] at h
  dsimp only at h
  rcases listenersOfM_execCmds_back cs _ sid name j lid f h with h1 | h1
  · left
    rw [listenersOfM_sdata] at h1
    exact h1
  · right
    rw [listenersOfM_sdata] at h1
    exact h1

theorem trace_mem_runSTask (m : SMachine) (t : STask) (e : MEv) (h : e ∈ m.trace) :
    e ∈ (runSTask m t).trace := by
  rw [runSTask_trace]
  exact h

theorem listenersOfM_emitEv (m : SMachine) (e : MEv) (sid : Nat) (name : String) :
    listenersOfM (emitEv m e) sid name = listenersOfM m sid name := rfl

theorem listenersOfM_removeListenerAt (m : SMachine) (sid : Nat) (name : String) (i : Nat) :
    listenersOfM (removeListenerAt m sid name i) sid name =
      (listenersOfM m sid name).eraseIdx i := by
  unfold removeListenerAt listenersOfM
  rw [getScopeM_updScope_self]
  cases hg : getScopeM m sid with
  | none =>
    dsimp only [Option.map]
    rw [List.eraseIdx_nil]
  | some sc =>
    dsimp only [Option.map]
    rw [lookup_map_if name (fun slots => slots.eraseIdx i)]
    cases hl : sc.eventListeners.lookup name with
    | none =>
      dsimp only [Option.map, Option.getD]
      rw [List.eraseIdx_nil]
    | some slots => rfl

theorem removeListenerAt_trace (m : SMachine) (sid : Nat) (name : String) (i : Nat) :
    (removeListenerAt m sid name i).trace = m.trace := updScope_trace _ _ _

theorem fireEventLoop_invoked : ∀ (fuel : Nat) (m : SMachine) (sid : Nat) (name : String)
    (i : Nat) (m' : SMachine),
    fireEventLoop fuel m sid name i = some m' →
    (∀ j lid f, j < i → (listenersOfM m sid name).get? j = some (some (lid, f)) →
      MEv.evListenerEv sid name lid ∈ m.trace) →
    (∀ j lid f, (listenersOfM m' sid name).get? j = some (some (lid, f)) →
      MEv.evListenerEv sid name lid ∈ m'.trace) := by
  intro fuel
  induction fuel with
  | zero =>
    intro m sid name i m' h
    exact absurd h (by simp [fireEventLoop])
  | succ fuel ih =>
    intro m sid name i m' h hP
    unfold fireEventLoop at h
    by_cases hi : i < (listenersOfM m sid name).length
    · rw [if_pos hi] at h
      cases hslot : (listenersOfM m sid name).get? i with
      | none =>
        rw [List.get?_eq_none] at hslot
        omega
      | some slot =>
        rw [hslot] at h
        cases slot with
        | none =>
          refine ih _ sid name i m' h ?_
          intro j lid f hj hget
          rw [listenersOfM_removeListenerAt, get?_eraseIdx_lt _ _ _ (by omega)] at hget
          rw [removeListenerAt_trace]
          exact hP j lid f (by omega) hget
        | some p =>
          rcases p with ⟨lid0, f0⟩
          dsimp only at h
          refine ih _ sid name (i + 1) m' h ?_
          intro j lid f hj hget
          rcases listenersOfM_runSTask_back (emitEv m (.evListenerEv sid name lid0)) f0
            sid name j lid f hget with h1 | h1
          · have h1m : (listenersOfM m sid name).get? j = some (some (lid, f)) := h1
            by_cases hji : j < i
            · refine trace_mem_runSTask _ _ _ ?_
              show MEv.evListenerEv sid name lid ∈ m.trace ++ [MEv.evListenerEv sid name lid0]
              exact List.mem_append_left _ (hP j lid f hji h1m)
            · have hj2 : j = i := by omega
              subst hj2
              rw [hslot] at h1m
              have hlid : lid0 = lid := by
                injection h1m with h2
                injection h2 with h3
                exact congrArg Prod.fst h3
              refine trace_mem_runSTask _ _ _ ?_
              show MEv.evListenerEv sid name lid ∈ m.trace ++ [MEv.evListenerEv sid name lid0]
              rw [hlid]
              exact List.mem_append_right _ (by simp)
          · have h1m : (listenersOfM m sid name).length ≤ j := h1
            omega
    · rw [if_neg hi] at h
      cases h
      intro j lid f hget
      have hjl : j < (listenersOfM m sid name).length := by
        rcases List.get?_eq_some.1 hget with ⟨hlt, _⟩
        exact hlt
      exact hP j lid f (by omega) hget


/-- C10: when a dispatch of __fireEventOnScope completes, every live
(non-tombstoned) listener slot of that event name on that scope —
including slots appended by listeners that ran earlier in the same
dispatch, since the loop re-reads the live length — has had its
listener invoked: its evListenerEv record is in the trace. -/
theorem claim_C10_dispatch_reaches_appends (fuel : Nat) (m : SMachine) (sid : Nat)
    (name : String) (m' : SMachine) (h : fireEventLoop fuel m sid name 0 = some m') :
    ∀ j lid f, (listenersOfM m' sid name).get? j = some (some (lid, f)) →
      MEv.evListenerEv sid name lid ∈ m'.trace :=
  fireEventLoop_invoked fuel m sid name 0 m' h (fun _ _ _ hj _ => absurd hj (by omega))

theorem claim_C10_dispatch_reaches_appends_witness :
    MEv.evListenerEv 0 "ev" 1 ∈ c10mres.trace :=
  claim_C10_dispatch_reaches_appends 100 c10m0 0 "ev" c10mres rfl 1 1 c10l2 rfl

/-- A timer id is absent from the pending timers and below the
allocation counter; every machine stage preserves this. -/
def timerFree (tid : Nat) (m : SMachine) : Prop :=
  (∀ t ∈ m.timers, t.1 ≠ tid) ∧ tid < m.nextTimerId

theorem tf_updScope (tid : Nat) (m : SMachine) (sid : Nat) (f : ScopeRec → ScopeRec)
    (h : timerFree tid m) : timerFree tid (updScope m sid f) := by
  unfold updScope
  cases hs : m.scopes.get? sid with
  | none => exact h
  | some sc => exact h

theorem tf_emitEv (tid : Nat) (m : SMachine) (e : MEv) (h : timerFree tid m) :
    timerFree tid (emitEv m e) := h

theorem tf_execCmd (tid : Nat) (m : SMachine) (c : SCmd) (h : timerFree tid m) :
    timerFree tid (execCmd m c) := by
  cases c with
  | addWatch sid veq wfn lfn =>
    simp only [execCmd]
    cases hs : getScopeM m sid with
    | none => exact h
    | some sc =>
      dsimp only
      exact tf_updScope _ _ _ _ (tf_updScope _ _ _ _ ⟨h.1, by simpa using h.2⟩)
  | removeWatch sid wid =>
    simp only [execCmd]
    cases hs : getScopeM m sid with
    | none => exact h
    | some sc =>
      dsimp only
      split
      · exact tf_updScope _ _ _ _ (tf_updScope _ _ _ _ h)
      · exact h
  | applyAsyncQ sid task =>
    simp only [execCmd]
    generalize hm1 : updScope m (queueOfM m sid) _ = m1
    have h1 : timerFree tid m1 ∧ m1.timers = m.timers ∧ m1.nextTimerId = m.nextTimerId := by
      rw [← hm1]
      refine ⟨tf_updScope _ _ _ _ h, ?_, ?_⟩ <;>
        (unfold updScope; cases hs : m.scopes.get? (queueOfM m sid) <;> rfl)
    cases hg : getScopeM m1 (rootOfM m1 sid) with
    | none => exact h1.1
    | some rsc =>
      dsimp only
      cases rsc.applyAsyncId with
      | none =>
        refine tf_updScope _ _ _ _ ⟨?_, ?_⟩
        · intro t ht
          rcases List.mem_append.1 ht with ht1 | ht1
          · exact h1.1.1 t ht1
          · have heq : t = (m1.nextTimerId, TimerTask.applyFlushT sid) := by simpa using ht1
            rw [heq]
            show m1.nextTimerId ≠ tid
            have := h1.1.2
            omega
        · show tid < m1.nextTimerId + 1
          have := h1.1.2
          omega
      | some tid2 => exact h1.1
  | evalAsyncQ sid task =>
    simp only [execCmd]
    refine tf_updScope _ _ _ _ ?_
    split
    · refine ⟨?_, ?_⟩
      · intro t ht
        rcases List.mem_append.1 ht with ht1 | ht1
        · exact h.1 t ht1
        · have heq : t = (m.nextTimerId, TimerTask.evalAsyncT sid) := by simpa using ht1
          rw [heq]
          show m.nextTimerId ≠ tid
          have := h.2
          omega
      · show tid < m.nextTimerId + 1
        have := h.2
        omega
    · exact h
  | postDigestQ sid task =>
    simp only [execCmd]
    exact tf_updScope _ _ _ _ h
  | onEvent sid name lfn =>
    simp only [execCmd]
    exact tf_updScope _ _ _ _ h
  | offEvent sid name lid =>
    simp only [execCmd]
    exact tf_updScope _ _ _ _ h

theorem tf_execCmds (tid : Nat) (cs : List SCmd) : ∀ m, timerFree tid m →
    timerFree tid (execCmds m cs) := by
  induction cs with
  | nil => intro m h; exact h
  | cons c cs ih =>
    intro m h
    exact ih _ (tf_execCmd tid m c h)

theorem tf_runSTask (tid : Nat) (m : SMachine) (t : STask) (h : timerFree tid m) :
    timerFree tid (runSTask m t) := by
  unfold runSTask
  rcases ht : t m.sdata with ⟨d, cs⟩
  exact tf_execCmds tid cs _ h

theorem tf_tail (tid : Nat) (M : SMachine) (g : SData → SData × List SCmd)
    (h : timerFree tid M) :
    timerFree tid (match g M.sdata with | (d, cs) => execCmds { M with sdata := d } cs) := by
  rcases hg : g M.sdata with ⟨d, cs⟩
  exact tf_execCmds tid cs _ h

theorem tf_fireWatcher (tid : Nat) (m : SMachine) (sid rootSid : Nat) (w : SWatcher)
    (v : JsVal) (h : timerFree tid m) : timerFree tid (fireWatcher m sid rootSid w v) := by
  unfold fireWatcher
  dsimp only
  exact tf_tail tid _ (fun sd => w.lfn v (w.last.getD v) sid sd)
    (tf_emitEv _ _ _ (tf_updScope _ _ _ _ (tf_updScope _ _ _ _ h)))

theorem tf_eachRightW (tid : Nat) (sid rootSid : Nat) : ∀ (c : Nat) (m : SMachine) (dirty : Bool),
    timerFree tid m → timerFree tid (eachRightW m sid rootSid c dirty).1 := by
  intro c
  induction c with
  | zero => intro m dirty h; exact h
  | succ c ih =>
    intro m dirty h
    unfold eachRightW
    split <;> dsimp only <;> split
    all_goals try exact ih m dirty h
    all_goals
      split
      · split
        · exact tf_emitEv _ _ _ h
        · exact ih _ _ (tf_emitEv _ _ _ h)
      · exact ih _ _ (tf_fireWatcher _ _ _ _ _ _ (tf_emitEv _ _ _ h))

theorem tf_visitD (tid : Nat) (fuel : Nat) :
    (∀ m sid dirty r, visitScopeD fuel m sid dirty = some r → timerFree tid m → timerFree tid r.1) ∧
    (∀ m sid len i dirty r, visitChildrenD fuel m sid len i dirty = some r →
      timerFree tid m → timerFree tid r.1) := by
  induction fuel with
  | zero =>
    constructor
    · intro m sid dirty r h; exact absurd h (by simp [visitScopeD])
    · intro m sid len i dirty r h; exact absurd h (by simp [visitChildrenD])
  | succ fuel ih =>
    constructor
    · intro m sid dirty r h hf
      unfold visitScopeD at h
      cases hs : getScopeM m sid with
      | none => rw [hs] at h; cases h; exact hf
      | some sc =>
        rw [hs] at h
        dsimp only at h
        rcases he : eachRightW m sid sc.rootId sc.watchers.length dirty with ⟨m1, d1, c1⟩
        rw [he] at h
        have hf1 : timerFree tid m1 := by
          have := tf_eachRightW tid sid sc.rootId sc.watchers.length m dirty hf
          rw [he] at this
          exact this
        dsimp only at h
        cases c1 with
        | true =>
          rw [if_pos rfl] at h
          exact ih.2 _ _ _ _ _ _ h hf1
        | false =>
          rw [if_neg (by simp)] at h
          cases h
          exact hf1
    · intro m sid len i dirty r h hf
      unfold visitChildrenD at h
      by_cases hi : i < len
      · rw [if_pos hi] at h
        dsimp only at h
        cases hg : (match getScopeM m sid with
          | some sc => sc.children
          | none => []).get? i with
        | none =>
          rw [hg] at h
          exact ih.2 _ _ _ _ _ _ h hf
        | some cid =>
          rw [hg] at h
          dsimp only at h
          cases hv : visitScopeD fuel m cid dirty with
          | none => rw [hv] at h; cases h
          | some r1 =>
            rw [hv] at h
            rcases r1 with ⟨m1, d1, c1⟩
            have hf1 : timerFree tid m1 := ih.1 _ _ _ _ hv hf
            dsimp only at h
            cases c1 with
            | true =>
              rw [if_pos rfl] at h
              exact ih.2 _ _ _ _ _ _ h hf1
            | false =>
              rw [if_neg (by simp)] at h
              cases h
              exact hf1
      · rw [if_neg hi] at h
        cases h
        exact hf

theorem tf_digestOnce (tid fuel : Nat) (m : SMachine) (sid : Nat) (r : SMachine × Bool)
    (h : digestOnceM fuel m sid = some r) (hf : timerFree tid m) : timerFree tid r.1 := by
  unfold digestOnceM at h
  cases hv : visitScopeD fuel m sid false with
  | none => rw [hv] at h; cases h
  | some r1 =>
    rw [hv] at h
    rcases r1 with ⟨m1, d1, c1⟩
    cases h
    exact (tf_visitD tid fuel).1 _ _ _ _ hv hf

theorem tf_drainAsync (tid fuel : Nat) : ∀ m qid m', drainAsyncQ fuel m qid = some m' →
    timerFree tid m → timerFree tid m' := by
  induction fuel with
  | zero => intro m qid m' h; exact absurd h (by simp [drainAsyncQ])
  | succ fuel ih =>
    intro m qid m' h hf
    unfold drainAsyncQ at h
    cases hq : (match getScopeM m qid with
      | some sc => sc.asyncQueue
      | none => []) with
    | nil => rw [hq] at h; cases h; exact hf
    | cons t rest =>
      rw [hq] at h
      rcases t with ⟨tsid, task⟩
      exact ih _ _ _ h (tf_runSTask _ _ _ (tf_emitEv _ _ _ (tf_updScope _ _ _ _ hf)))

theorem tf_flushApply (tid fuel : Nat) : ∀ m sid m', flushApplyAsyncM fuel m sid = some m' →
    timerFree tid m → timerFree tid m' := by
  induction fuel with
  | zero => intro m sid m' h; exact absurd h (by simp [flushApplyAsyncM])
  | succ fuel ih =>
    intro m sid m' h hf
    unfold flushApplyAsyncM at h
    dsimp only at h
    cases hq : (match getScopeM m (queueOfM m sid) with
      | some sc => sc.applyAsyncQueue
      | none => []) with
    | nil => rw [hq] at h; cases h; exact tf_updScope _ _ _ _ hf
    | cons task rest =>
      rw [hq] at h
      exact ih _ _ _ h (tf_runSTask _ _ _ (tf_emitEv _ _ _ (tf_updScope _ _ _ _ hf)))

theorem tf_drainPD (tid fuel : Nat) : ∀ m qid m', drainPostDigestQ fuel m qid = some m' →
    timerFree tid m → timerFree tid m' := by
  induction fuel with
  | zero => intro m qid m' h; exact absurd h (by simp [drainPostDigestQ])
  | succ fuel ih =>
    intro m qid m' h hf
    unfold drainPostDigestQ at h
    cases hq : (match getScopeM m qid with
      | some sc => sc.postDigestQueue
      | none => []) with
    | nil => rw [hq] at h; cases h; exact hf
    | cons task rest =>
      rw [hq] at h
      exact ih _ _ _ h (tf_runSTask _ _ _ (tf_emitEv _ _ _ (tf_updScope _ _ _ _ hf)))

theorem tf_digestPass (tid fuel : Nat) (m : SMachine) (sid qid pass : Nat)
    (r : SMachine × Bool) (h : digestPass fuel m sid qid pass = some r)
    (hf : timerFree tid m) : timerFree tid r.1 := by
  unfold digestPass at h
  dsimp only at h
  cases hd : drainAsyncQ fuel (emitEv m (.passStartEv pass)) qid with
  | none => rw [hd] at h; cases h
  | some m1 =>
    rw [hd] at h
    dsimp only at h
    cases ho : digestOnceM fuel m1 sid with
    | none => rw [ho] at h; cases h
    | some r1 =>
      rw [ho] at h
      rcases r1 with ⟨m2, dirty⟩
      cases h
      exact tf_digestOnce tid fuel m1 sid (m2, dirty) ho
        (tf_drainAsync tid fuel _ _ _ hd (tf_emitEv _ _ _ hf))

theorem tf_digestLoop (tid fuel sid qid : Nat) : ∀ (pass ttl : Nat) (m : SMachine),
    timerFree tid m → timerFree tid (digestLoopM fuel m sid qid ttl pass).1 := by
  intro pass
  induction pass with
  | zero =>
    intro ttl m hf
    rw [show digestLoopM fuel m sid qid ttl 0 = (m, DigestRes.dFuelOut) from by cases ttl <;> rfl]
    exact hf
  | succ pass ih =>
    intro ttl m hf
    unfold digestLoopM
    cases hp : digestPass fuel m sid qid (pass + 1) with
    | none => exact hf
    | some r1 =>
      rcases r1 with ⟨m2, again⟩
      have hf2 : timerFree tid m2 := tf_digestPass tid fuel m sid qid (pass + 1) _ hp hf
      dsimp only
      cases again with
      | false => exact hf2
      | true =>
        cases ttl with
        | zero => exact tf_updScope _ _ _ _ hf2
        | succ ttl => exact ih ttl m2 hf2

theorem tf_digestFinish (tid fuel sid qid : Nat) (r : SMachine × DigestRes)
    (hf : timerFree tid r.1) : timerFree tid (digestFinish fuel sid qid r).1 := by
  rcases r with ⟨m, dr⟩
  cases dr with
  | dOk =>
    show timerFree tid (match drainPostDigestQ fuel m qid with
      | none => (m, DigestRes.dFuelOut)
      | some m2 => (updScope m2 sid (fun sc => { sc with phase := none }), DigestRes.dOk)).1
    cases hp : drainPostDigestQ fuel m qid with
    | none => exact hf
    | some m2 => exact tf_updScope _ _ _ _ (tf_drainPD tid fuel _ _ _ hp hf)
  | dTTL => exact hf
  | dPhaseErr => exact hf
  | dFuelOut => exact hf

theorem updScope_timers (m : SMachine) (sid : Nat) (f : ScopeRec → ScopeRec) :
    (updScope m sid f).timers = m.timers := by
  unfold updScope
  cases hs : m.scopes.get? sid <;> rfl

theorem rootOfM_updScope_keep (m : SMachine) (sid' : Nat) (f : ScopeRec → ScopeRec) (x : Nat)
    (hf : ∀ sc, (f sc).rootId = sc.rootId) :
    rootOfM (updScope m sid' f) x = rootOfM m x := by
  unfold rootOfM
  by_cases h : x = sid'
  · subst h
    rw [getScopeM_updScope_self]
    cases hg : getScopeM m x with
    | none => rfl
    | some sc =>
      dsimp only [Option.map]
      rw [hf]
  · rw [getScopeM_updScope_ne _ _ _ _ h]

theorem queueOfM_updScope_keep (m : SMachine) (sid' : Nat) (f : ScopeRec → ScopeRec) (x : Nat)
    (hf : ∀ sc, (f sc).queueId = sc.queueId) :
    queueOfM (updScope m sid' f) x = queueOfM m x := by
  unfold queueOfM
  by_cases h : x = sid'
  · subst h
    rw [getScopeM_updScope_self]
    cases hg : getScopeM m x with
    | none => rfl
    | some sc =>
      dsimp only [Option.map]
      rw [hf]
  · rw [getScopeM_updScope_ne _ _ _ _ h]

theorem aaidOf_updScope_keep (m : SMachine) (sid' : Nat) (f : ScopeRec → ScopeRec) (x : Nat)
    (hroot : ∀ sc, (f sc).rootId = sc.rootId)
    (haa : ∀ sc, (f sc).applyAsyncId = sc.applyAsyncId) :
    applyAsyncIdOf (updScope m sid' f) x = applyAsyncIdOf m x := by
  unfold applyAsyncIdOf
  rw [rootOfM_updScope_keep _ _ _ _ hroot]
  by_cases h : rootOfM m x = sid'
  · rw [h, getScopeM_updScope_self]
    cases hg : getScopeM m sid' with
    | none => rfl
    | some sc =>
      dsimp only [Option.map, Option.bind]
      rw [haa]
  · rw [getScopeM_updScope_ne _ _ _ _ h]

theorem aaqOf_updScope_keep (m : SMachine) (sid' : Nat) (f : ScopeRec → ScopeRec) (x : Nat)
    (hq : ∀ sc, (f sc).queueId = sc.queueId)
    (haq : ∀ sc, (f sc).applyAsyncQueue = sc.applyAsyncQueue) :
    applyAsyncQOf (updScope m sid' f) x = applyAsyncQOf m x := by
  unfold applyAsyncQOf
  rw [queueOfM_updScope_keep _ _ _ _ hq]
  by_cases h : queueOfM m x = sid'
  · rw [h, getScopeM_updScope_self]
    cases hg : getScopeM m sid' with
    | none => rfl
    | some sc =>
      dsimp only [Option.map]
      rw [haq]
  · rw [getScopeM_updScope_ne _ _ _ _ h]

theorem applyAsyncM_coalesce (m : SMachine) (sid : Nat) (t : STask) (tid : Nat)
    (h : applyAsyncIdOf m sid = some tid) : (applyAsyncM m sid t).timers = m.timers := by
  unfold applyAsyncM
  simp only [execCmd]
  have h1 : applyAsyncIdOf (updScope m (queueOfM m sid) (fun sc =>
      { sc with applyAsyncQueue := sc.applyAsyncQueue ++ [t] })) sid = some tid :=
    (aaidOf_updScope_keep m (queueOfM m sid) (fun sc =>
      { sc with applyAsyncQueue := sc.applyAsyncQueue ++ [t] }) sid
      (fun _ => rfl) (fun _ => rfl)).trans h
  unfold applyAsyncIdOf at h1
  cases hg : getScopeM (updScope m (queueOfM m sid) (fun sc =>
      { sc with applyAsyncQueue := sc.applyAsyncQueue ++ [t] }))
      (rootOfM (updScope m (queueOfM m sid) (fun sc =>
        { sc with applyAsyncQueue := sc.applyAsyncQueue ++ [t] })) sid) with
  | none =>
    rw [hg] at h1
    exact absurd h1 (by simp)
  | some rsc =>
    rw [hg] at h1
    dsimp only [Option.bind] at h1
    dsimp only
    cases haa : rsc.applyAsyncId with
    | none => rw [haa] at h1; cases h1
    | some tid2 =>
      dsimp only
      exact updScope_timers _ _ _

theorem flush_empties (fuel : Nat) : ∀ m sid m', flushApplyAsyncM fuel m sid = some m' →
    applyAsyncQOf m' sid = [] ∧ applyAsyncIdOf m' sid = none := by
  induction fuel with
  | zero => intro m sid m' h; exact absurd h (by simp [flushApplyAsyncM])
  | succ fuel ih =>
    intro m sid m' h
    unfold flushApplyAsyncM at h
    dsimp only at h
    cases hq : (match getScopeM m (queueOfM m sid) with
      | some sc => sc.applyAsyncQueue
      | none => []) with
    | nil =>
      rw [hq] at h
      cases h
      constructor
      · refine (aaqOf_updScope_keep m (rootOfM m sid) (fun sc =>
          { sc with applyAsyncId := none }) sid (fun _ => rfl) (fun _ => rfl)).trans ?_
        unfold applyAsyncQOf
        exact hq
      · unfold applyAsyncIdOf
        rw [rootOfM_updScope_keep m (rootOfM m sid) (fun sc =>
          { sc with applyAsyncId := none }) sid (fun _ => rfl), getScopeM_updScope_self]
        cases hg : getScopeM m (rootOfM m sid) with
        | none => rfl
        | some sc => rfl
    | cons task rest =>
      rw [hq] at h
      exact ih _ _ _ h

theorem updScope_nextTimerId (m : SMachine) (sid : Nat) (f : ScopeRec → ScopeRec) :
    (updScope m sid f).nextTimerId = m.nextTimerId := by
  unfold updScope
  cases hs : m.scopes.get? sid <;> rfl

theorem digest_cancels_timer (fuel : Nat) (m : SMachine) (sid tid : Nat) (sc0 : ScopeRec)
    (hsc : getScopeM m sid = some sc0) (hph : sc0.phase = none)
    (hid : applyAsyncIdOf m sid = some tid) (hfresh : tid < m.nextTimerId)
    (hr : (digestM fuel m sid).2 ≠ .dFuelOut) :
    ∀ t ∈ (digestM fuel m sid).1.timers, t.1 ≠ tid := by
  unfold digestM at hr ⊢
  dsimp only at hr ⊢
  obtain ⟨sc1, hg1, hp1⟩ : ∃ sc1,
      getScopeM (setLastDirty m (rootOfM m sid) none) sid = some sc1 ∧ sc1.phase = none := by
    unfold setLastDirty
    by_cases hxr : sid = rootOfM m sid
    · rw [← hxr]
      refine ⟨{ sc0 with lastDirtyWatch := none }, ?_, hph⟩
      rw [getScopeM_updScope_self, hsc]
      rfl
    · rw [getScopeM_updScope_ne _ _ _ _ hxr]
      exact ⟨sc0, hsc, hph⟩
  rw [hg1] at hr ⊢
  dsimp only at hr ⊢
  rw [hp1] at hr ⊢
  dsimp only at hr ⊢
  have e1 : applyAsyncIdOf (setLastDirty m (rootOfM m sid) none) sid = some tid :=
    (aaidOf_updScope_keep m (rootOfM m sid) (fun sc => { sc with lastDirtyWatch := none }) sid
      (fun _ => rfl) (fun _ => rfl)).trans hid
  have e2 : applyAsyncIdOf (updScope (setLastDirty m (rootOfM m sid) none) sid
      (fun sc => { sc with phase := some "digest" })) sid = some tid :=
    (aaidOf_updScope_keep _ sid (fun sc => { sc with phase := some "digest" }) sid
      (fun _ => rfl) (fun _ => rfl)).trans e1
  have er : rootOfM (updScope (setLastDirty m (rootOfM m sid) none) sid
      (fun sc => { sc with phase := some "digest" })) sid = rootOfM m sid :=
    (rootOfM_updScope_keep _ sid (fun sc => { sc with phase := some "digest" }) sid
      (fun _ => rfl)).trans
      (rootOfM_updScope_keep m (rootOfM m sid) (fun sc => { sc with lastDirtyWatch := none }) sid
        (fun _ => rfl))
  generalize hM3 : emitEv (updScope (setLastDirty m (rootOfM m sid) none) sid
      (fun sc => { sc with phase := some "digest" })) (.digestStartEv sid) = M3 at hr ⊢
  have hS : (getScopeM M3 (rootOfM m sid)).bind (fun sc => sc.applyAsyncId) = some tid := by
    have e3 : applyAsyncIdOf M3 sid = some tid := by
      rw [← hM3]
      exact e2
    have er3 : rootOfM M3 sid = rootOfM m sid := by
      rw [← hM3]
      exact er
    unfold applyAsyncIdOf at e3
    rwa [er3] at e3
  rw [hS] at hr ⊢
  dsimp only at hr ⊢
  have hnext : M3.nextTimerId = m.nextTimerId := by
    rw [← hM3]
    show (updScope (setLastDirty m (rootOfM m sid) none) sid _).nextTimerId = m.nextTimerId
    rw [updScope_nextTimerId]
    exact updScope_nextTimerId _ _ _
  have hf4 : timerFree tid { M3 with timers := M3.timers.filter (fun t => t.1 != tid) } := by
    constructor
    · intro t ht
      have := List.of_mem_filter ht
      simpa using this
    · show tid < M3.nextTimerId
      rw [hnext]
      exact hfresh
  revert hr
  cases hfl : flushApplyAsyncM fuel { M3 with timers := M3.timers.filter (fun t => t.1 != tid) } sid with
  | none =>
    intro hr
    exact absurd rfl hr
  | some m4 =>
    intro hr
    dsimp only
    exact (tf_digestFinish tid fuel sid (queueOfM m sid)
      (digestLoopM fuel m4 sid (queueOfM m sid) maxTTLS (maxTTLS + 2))
      (tf_digestLoop tid fuel sid (queueOfM m sid) (maxTTLS + 2) maxTTLS m4
        (tf_flushApply tid fuel _ _ _ hfl hf4))).1

/-- C5: applyAsync coalescing and synchronous flush inside digest. -/
theorem claim_C5_applyAsync_coalesce_flush :
    (∀ m sid t tid, applyAsyncIdOf m sid = some tid →
      (applyAsyncM m sid t).timers = m.timers) ∧
    (∀ fuel m sid m', flushApplyAsyncM fuel m sid = some m' →
      applyAsyncQOf m' sid = [] ∧ applyAsyncIdOf m' sid = none) ∧
    (∀ fuel m sid tid sc0, getScopeM m sid = some sc0 → sc0.phase = none →
      applyAsyncIdOf m sid = some tid → tid < m.nextTimerId →
      (digestM fuel m sid).2 ≠ .dFuelOut →
      ∀ t ∈ (digestM fuel m sid).1.timers, t.1 ≠ tid) ∧
    (c5m0.timers.length = 1 ∧
     (digestM 100 c5m0 0).2 = DigestRes.dOk ∧
     getSD (digestM 100 c5m0 0).1.sdata 0 "v" = JsVal.vnum 2 ∧
     (digestM 100 c5m0 0).1.timers = [] ∧
     (digestM 100 c5m0 0).1.trace = [.digestStartEv 0, .applyFlushTaskEv 0, .applyFlushTaskEv 0,
       .passStartEv 12, .watchEvalEv 0 0 (JsVal.vnum 2), .listenerEv 0 0 (JsVal.vnum 2) (JsVal.vnum 2),
       .passStartEv 11, .watchEvalEv 0 0 (JsVal.vnum 2)]) :=
  ⟨fun m sid t tid h => applyAsyncM_coalesce m sid t tid h,
   fun fuel m sid m' h => flush_empties fuel m sid m' h,
   fun fuel m sid tid sc0 h1 h2 h3 h4 h5 => digest_cancels_timer fuel m sid tid sc0 h1 h2 h3 h4 h5,
   rfl, rfl, rfl, rfl, rfl⟩

theorem claim_C5_applyAsync_coalesce_flush_witness :
    (applyAsyncM c5m0 0 c5t1).timers = c5m0.timers ∧
    (applyAsyncQOf ((flushApplyAsyncM 50 c5m0 0).getD c5m0) 0 = [] ∧
     applyAsyncIdOf ((flushApplyAsyncM 50 c5m0 0).getD c5m0) 0 = none) ∧
    (∀ t ∈ (digestM 100 c5m0 0).1.timers, t.1 ≠ 1) :=
  ⟨claim_C5_applyAsync_coalesce_flush.1 c5m0 0 c5t1 1 rfl,
   claim_C5_applyAsync_coalesce_flush.2.1 50 c5m0 0 _ rfl,
   claim_C5_applyAsync_coalesce_flush.2.2.1 100 c5m0 0 1 ((getScopeM c5m0 0).getD rootScope0)
     rfl rfl rfl (by decide) (by decide)⟩

/-- C3 refutation: in the c3m0 scenario watcher A (wid 0, registered
first, visited first because B's unshift pushed it to index 1)
registers a new watch (wid 2) from its listener; the new watcher is
both evaluated and fired later in the very same sweep (before the
second passStartEv), because the unshift shifts the remaining indices
under lodash's captured right-to-left counter — and in the
single-watch scenario c3bm0 (the repo's insert-during-digest test)
the new watch (wid 1) is evaluated in a later pass of the same digest
D, which completes normally. -/
theorem claim_C3_counterexample :
    ((digestM 100 c3m0 0).1.trace.take 6 =
      [.digestStartEv 0, .passStartEv 12,
       .watchEvalEv 0 0 JsVal.undef, .listenerEv 0 0 JsVal.undef JsVal.undef,
       .watchEvalEv 0 2 JsVal.undef, .listenerEv 0 2 JsVal.undef JsVal.undef] ∧
     ((digestM 100 c3m0 0).1.trace.take 6).countP isPassStartEvb = 1 ∧
     ((digestM 100 c3m0 0).1.trace.take 6).any (isWatchEvalOf 2) = true) ∧
    ((digestM 100 c3bm0 0).2 = DigestRes.dOk ∧
     (digestM 100 c3bm0 0).1.trace.any (isWatchEvalOf 1) = true) :=
  ⟨⟨rfl, rfl, rfl⟩, rfl, rfl⟩

theorem countP_append_one (P : MEv → Bool) (tr : List MEv) (e : MEv) (h : P e = false) :
    (tr ++ [e]).countP P = tr.countP P := by
  rw [List.countP_append, List.countP_cons, List.countP_nil, h]
  rfl

/-- C3 amended: when the scope's watcher list is a single watcher —
the only situation in which the registering listener runs with the
sweep counter already exhausted — the sweep that __digestOnce runs
over that scope evaluates no watcher other than the existing one, so
a watch added by its listener is not visited in that same sweep. -/
theorem claim_C3_single_watch_sweep (m : SMachine) (sid rootSid : Nat) (sc : ScopeRec)
    (w : SWatcher) (dirty : Bool)
    (hsc : getScopeM m sid = some sc) (hw : sc.watchers = [w]) :
    ∀ wid, wid ≠ w.wid →
      (eachRightW m sid rootSid sc.watchers.length dirty).1.trace.countP (isWatchEvalOf wid) =
        m.trace.countP (isWatchEvalOf wid) := by
  intro wid hne
  rw [hw]
  show (eachRightW m sid rootSid 1 dirty).1.trace.countP (isWatchEvalOf wid) = _
  unfold eachRightW
  rw [hsc]
  dsimp only
  rw [hw]
  dsimp only [List.get?]
  have hev : isWatchEvalOf wid (.watchEvalEv sid w.wid (w.wfn sid m.sdata)) = false := by
    show (w.wid == wid) = false
    exact beq_eq_false_iff_ne.2 (fun h => hne h.symm)
  split
  · split
    · show (emitEv m _).trace.countP _ = _
      show (m.trace ++ [_]).countP _ = _
      rw [countP_append_one _ _ _ hev]
    · show (eachRightW (emitEv m _) sid rootSid 0 dirty).1.trace.countP _ = _
      show (emitEv m _).trace.countP _ = _
      show (m.trace ++ [_]).countP _ = _
      rw [countP_append_one _ _ _ hev]
  · show (eachRightW (fireWatcher (emitEv m _) sid rootSid w _) sid rootSid 0 true).1.trace.countP _ = _
    show (fireWatcher (emitEv m _) sid rootSid w _).trace.countP _ = _
    rw [fireWatcher_trace]
    show (((m.trace ++ [_]) ++ [_])).countP _ = _
    rw [countP_append_one _ _ _ (by rfl), countP_append_one _ _ _ hev]

theorem claim_C3_single_watch_sweep_witness :
    (eachRightW c3bm0 0 0 ((getScopeM c3bm0 0).getD rootScope0).watchers.length
      false).1.trace.countP (isWatchEvalOf 5) =
      c3bm0.trace.countP (isWatchEvalOf 5) :=
  claim_C3_single_watch_sweep c3bm0 0 0 ((getScopeM c3bm0 0).getD rootScope0)
    ⟨0, c3afn, c3alfn, false, none⟩ false rfl rfl 5 (by decide)

def c4mach (d : SData) (wfn : Nat → SData → JsVal)
    (f : JsVal → JsVal → Nat → SData → SData) : SMachine :=
  (watchM { scopes := [rootScope0], sdata := d } 0 ⟨wfn, true⟩
    (fun n o s dd => (f n o s dd, [])) false).1

def c4wfnD (wfn : Nat → SData → JsVal) : Nat → SData → JsVal := fun _ dd => wfn 0 dd

def c4wrapped (f : JsVal → JsVal → Nat → SData → SData) :
    JsVal → JsVal → Nat → SData → SData × List SCmd :=
  fun n o s2 dd => (f n o s2 dd, [SCmd.removeWatch 0 0])

/-- The machine entering the TTL loop of the C4 digest, and its state
after each pass, as literals (the constant watch fires once in pass 1
and removes itself; pass 2 sweeps an empty list and is clean). -/
def c4entry (d : SData) (wfn : Nat → SData → JsVal)
    (f : JsVal → JsVal → Nat → SData → SData) : SMachine :=
  { scopes := [{ sid := 0, rootId := 0, queueId := 0, watchers := [⟨0, c4wfnD wfn, c4wrapped f, false, none⟩], phase := some "digest" }],
    sdata := d, nextWid := 1, trace := [MEv.digestStartEv 0] }

def c4s1 (d : SData) (wfn : Nat → SData → JsVal)
    (f : JsVal → JsVal → Nat → SData → SData) : SMachine :=
  { scopes := [{ sid := 0, rootId := 0, queueId := 0, watchers := [], phase := some "digest" }],
    sdata := f (wfn 0 d) (wfn 0 d) 0 d, nextWid := 1,
    trace := [MEv.digestStartEv 0, MEv.passStartEv 12, MEv.watchEvalEv 0 0 (wfn 0 d), MEv.listenerEv 0 0 (wfn 0 d) (wfn 0 d)] }

def c4s2 (d : SData) (wfn : Nat → SData → JsVal)
    (f : JsVal → JsVal → Nat → SData → SData) : SMachine :=
  { scopes := [{ sid := 0, rootId := 0, queueId := 0, watchers := [], phase := some "digest" }],
    sdata := f (wfn 0 d) (wfn 0 d) 0 d, nextWid := 1,
    trace := [MEv.digestStartEv 0, MEv.passStartEv 12, MEv.watchEvalEv 0 0 (wfn 0 d), MEv.listenerEv 0 0 (wfn 0 d) (wfn 0 d), MEv.passStartEv 11] }

def c4fin (d : SData) (wfn : Nat → SData → JsVal)
    (f : JsVal → JsVal → Nat → SData → SData) : SMachine :=
  { scopes := [{ sid := 0, rootId := 0, queueId := 0, watchers := [], phase := none }],
    sdata := f (wfn 0 d) (wfn 0 d) 0 d, nextWid := 1,
    trace := [MEv.digestStartEv 0, MEv.passStartEv 12, MEv.watchEvalEv 0 0 (wfn 0 d), MEv.listenerEv 0 0 (wfn 0 d) (wfn 0 d), MEv.passStartEv 11] }

theorem c4pass1 (d : SData) (wfn : Nat → SData → JsVal)
    (f : JsVal → JsVal → Nat → SData → SData) :
    digestPass 30 (c4entry d wfn f) 0 0 12 = some (c4s1 d wfn f, true) := rfl

theorem c4pass2 (d : SData) (wfn : Nat → SData → JsVal)
    (f : JsVal → JsVal → Nat → SData → SData) :
    digestPass 30 (c4s1 d wfn f) 0 0 11 = some (c4s2 d wfn f, false) := rfl

theorem c4digestEq (d : SData) (wfn : Nat → SData → JsVal)
    (f : JsVal → JsVal → Nat → SData → SData) :
    digestM 30 (c4mach d wfn f) 0 = (c4fin d wfn f, DigestRes.dOk) := by
  show digestFinish 30 0 0 (digestLoopM 30 (c4entry d wfn f) 0 0 10 12) =
    (c4fin d wfn f, DigestRes.dOk)
  rw [digestLoopM_stepS 30 (c4entry d wfn f) (c4s1 d wfn f) 0 0 9 11 (c4pass1 d wfn f)]
  conv_lhs => unfold digestLoopM
  rw [c4pass2 d wfn f]
  rfl

/-- C4: the parse of '[0, 1, 2]' (an array of literals) carries
constant = true, and a watch registered over a constant-flagged
accessor on a fresh scope — for ANY scope data, accessor result and
listener data effect — goes through constantWatchDelegate: the digest
completes normally, the listener is invoked exactly once, and the
watcher has deregistered itself (the wrapped listener's unwatch) by
the end of that digest. -/
theorem claim_C4_constant_watch (d : SData) (wfn : Nat → SData → JsVal)
    (f : JsVal → JsVal → Nat → SData → SData) :
    parseConstant "[0, 1, 2]" = some true ∧
    (digestM 30 (c4mach d wfn f) 0).2 = DigestRes.dOk ∧
    (digestM 30 (c4mach d wfn f) 0).1.trace.countP (isListenerEvOf 0) = 1 ∧
    (getScopeM (digestM 30 (c4mach d wfn f) 0).1 0).map (fun sc => sc.watchers.length) = some 0 := by
  refine ⟨rfl, ?_, ?_, ?_⟩ <;> rw [c4digestEq d wfn f] <;> try rfl

theorem claim_C4_constant_watch_witness :
    parseConstant "[0, 1, 2]" = some true ∧
    (digestM 30 (c4mach [] (fun _ _ => JsVal.vnum 7) (fun _ _ _ dd => dd)) 0).2 = DigestRes.dOk ∧
    (digestM 30 (c4mach [] (fun _ _ => JsVal.vnum 7) (fun _ _ _ dd => dd)) 0).1.trace.countP
      (isListenerEvOf 0) = 1 ∧
    (getScopeM (digestM 30 (c4mach [] (fun _ _ => JsVal.vnum 7) (fun _ _ _ dd => dd)) 0).1 0).map
      (fun sc => sc.watchers.length) = some 0 :=
  claim_C4_constant_watch [] (fun _ _ => JsVal.vnum 7) (fun _ _ _ dd => dd)

/-- C7: the only listener-call site of __digestOnce (the dirty branch,
fireWatcher here) passes oldVal = watcher.last with the UNINITIALIZED
sentinel (last = none) replaced by newVal — so a listener never sees
the sentinel and its first invocation gets oldVal = newVal — and the
same branch stores newVal into last, so a later invocation receives
the genuinely previous value; concretely, with someValue='a' the
first digest calls the listener once with ('a','a') and, after
someValue='aji', the second digest calls it with ('aji','a'). -/
theorem claim_C7_listener_old_value :
    (∀ (m : SMachine) (sid rootSid : Nat) (w : SWatcher) (newV : JsVal),
      ((fireWatcher m sid rootSid w newV).trace =
        m.trace ++ [.listenerEv sid w.wid newV (w.last.getD newV)] ∧
      (w.last = none → w.last.getD newV = newV)) ∧
      (∀ prev, w.last = some prev → w.last.getD newV = prev)) ∧
    (∀ (newV : JsVal) (ws : List SWatcher) (wid : Nat),
      ∀ w0 ∈ putWid ws wid (fun w1 => { w1 with last := some newV }),
        w0.wid = wid → w0.last = some newV) ∧
    (c7m2.trace = [.digestStartEv 0, .passStartEv 12,
      .watchEvalEv 0 0 (JsVal.vstr "a"), .listenerEv 0 0 (JsVal.vstr "a") (JsVal.vstr "a"),
      .passStartEv 11, .watchEvalEv 0 0 (JsVal.vstr "a")] ∧
     getSD c7m2.sdata 0 "counter" = JsVal.vnum 1 ∧
     c7m3.trace = [.digestStartEv 0, .passStartEv 12,
      .watchEvalEv 0 0 (JsVal.vstr "a"), .listenerEv 0 0 (JsVal.vstr "a") (JsVal.vstr "a"),
      .passStartEv 11, .watchEvalEv 0 0 (JsVal.vstr "a"),
      .digestStartEv 0, .passStartEv 12,
      .watchEvalEv 0 0 (JsVal.vstr "aji"), .listenerEv 0 0 (JsVal.vstr "aji") (JsVal.vstr "a"),
      .passStartEv 11, .watchEvalEv 0 0 (JsVal.vstr "aji")] ∧
     getSD c7m3.sdata 0 "counter" = JsVal.vnum 2) := by
  refine ⟨?_, ?_, rfl, rfl, rfl, rfl⟩
  · intro m sid rootSid w newV
    refine ⟨⟨fireWatcher_trace m sid rootSid w newV, ?_⟩, ?_⟩
    · intro h
      rw [h]
      rfl
    · intro prev h
      rw [h]
      rfl
  · intro newV ws wid w0 h0 hwid
    rcases List.mem_map.1 h0 with ⟨w1, hmem, heq⟩
    dsimp only at heq
    by_cases hb : (w1.wid == wid) = true
    · rw [← heq, if_pos hb]
    · rw [← heq, if_neg hb] at hwid
      exact absurd (beq_iff_eq.2 hwid) (by simpa using hb)

theorem claim_C7_listener_old_value_witness :
    (fireWatcher mach0 0 0 ⟨0, c7wfn, c7lfn, false, some (JsVal.vstr "a")⟩
        (JsVal.vstr "aji")).trace =
      mach0.trace ++ [.listenerEv 0 0 (JsVal.vstr "aji") (JsVal.vstr "a")] :=
  (claim_C7_listener_old_value.1 mach0 0 0 ⟨0, c7wfn, c7lfn, false, some (JsVal.vstr "a")⟩
    (JsVal.vstr "aji")).1.1
